import Mathlib

/-!
AQUA service worker: request routing and caching strategies.

A shallow embedding of `static/sw.js`.  JavaScript strings are modelled by Lean
strings (compared through their character lists), a promise by the way it
settles, and the Cache Storage of the origin by an ordered list of named tiers.
-/

namespace AQUA

/-! ## Responses -/

/-- Body of a response: plain text, or the text produced by `JSON.stringify`
on an object literal, kept as the list of its fields. -/
inductive JsonValue where
  | str (s : String)
  | bool (b : Bool)
deriving DecidableEq, Repr

/-- Body of a `Response`. -/
inductive Body where
  | text (s : String)
  | json (fields : List (String × JsonValue))
deriving DecidableEq, Repr

/-- The parts of a `Response` the service worker reads or sets. -/
structure Response where
  status : Nat
  statusText : String
  contentType : String
  body : Body
deriving DecidableEq, Repr

/-- The getter `response.ok`: the status is in the range 200 to 299. -/
def Response.ok (r : Response) : Bool :=
  decide (200 ≤ r.status) && decide (r.status ≤ 299)

/-- The HTML text of the template literal in `offlinePage` (sw.js lines 291-387). -/
def offlinePageHtml : String :=
  "<!DOCTYPE html>\n        <html lang=\"en\">\n        <head>\n            <meta charset=\"UTF-8\">\n            <meta name=\"viewport\" content=\"width=device-width, initial-scale=1.0\">\n            <title>AQUA - Offline</title>\n            <style>\n                * \x7b margin: 0; padding: 0; box-sizing: border-box; \x7d\n                body \x7b\n                    font-family: -apple-system, BlinkMacSystemFont, 'Segoe UI', Roboto, sans-serif;\n                    background: linear-gradient(135deg, #0b1120 0%, #1a2332 100%);\n                    color: white;\n                    display: flex;\n                    align-items: center;\n                    justify-content: center;\n                    min-height: 100vh;\n                    text-align: center;\n                    padding: 2rem;\n                \x7d\n                .container \x7b\n                    max-width: 400px;\n                    animation: fadeIn 0.5s ease-in;\n                \x7d\n                @keyframes fadeIn \x7b\n                    from \x7b opacity: 0; transform: translateY(20px); \x7d\n                    to \x7b opacity: 1; transform: translateY(0); \x7d\n                \x7d\n                h1 \x7b\n                    font-size: 5rem;\n                    margin-bottom: 1rem;\n                    animation: pulse 2s ease-in-out infinite;\n                \x7d\n                @keyframes pulse \x7b\n                    0%, 100% \x7b transform: scale(1); \x7d\n                    50% \x7b transform: scale(1.1); \x7d\n                \x7d\n                h2 \x7b\n                    color: #00d2ff;\n                    margin-bottom: 1rem;\n                    font-size: 1.8rem;\n                \x7d\n                p \x7b\n                    color: #cbd5e1;\n                    line-height: 1.6;\n                    margin-bottom: 2rem;\n                    font-size: 1.1rem;\n                \x7d\n                .status \x7b\n                    background: rgba(0, 210, 255, 0.1);\n                    border: 2px solid #00d2ff;\n                    border-radius: 12px;\n                    padding: 1rem;\n                    margin-bottom: 2rem;\n                \x7d\n                button \x7b\n                    background: linear-gradient(135deg, #00d2ff, #3a7bd5);\n                    border: none;\n                    color: white;\n                    padding: 1rem 2rem;\n                    border-radius: 2rem;\n                    font-size: 1rem;\n                    font-weight: 700;\n                    cursor: pointer;\n                    box-shadow: 0 10px 30px rgba(0, 210, 255, 0.3);\n                    transition: transform 0.2s;\n                \x7d\n                button:hover \x7b\n                    transform: translateY(-2px);\n                    box-shadow: 0 15px 40px rgba(0, 210, 255, 0.4);\n                \x7d\n                button:active \x7b\n                    transform: translateY(0);\n                \x7d\n                .home-link \x7b\n                    display: inline-block;\n                    margin-top: 1rem;\n                    color: #00ff88;\n                    text-decoration: none;\n                    font-weight: 600;\n                \x7d\n            </style>\n        </head>\n        <body>\n            <div class=\"container\">\n                <h1>📡</h1>\n                <h2>You're Offline</h2>\n                <div class=\"status\">\n                    <p style=\"margin: 0;\">⚠️ No internet connection detected</p>\n                </div>\n                <p>This page wasn't cached for offline use. Try going back to the home page or reconnect to the internet.</p>\n                <button onclick=\"window.location.href='/'\">🏠 Go Home</button>\n                <button onclick=\"window.location.reload()\" style=\"margin-left: 1rem; background: rgba(255,255,255,0.1);\">🔄 Retry</button>\n                <br>\n                <a href=\"/\" class=\"home-link\">← Back to AQUA Home</a>\n            </div>\n        </body>\n        </html>"

/-- Offline fallback page: `offlinePage()`. -/
def offlinePage : Response :=
  { status := 503
    statusText := "Service Unavailable"
    contentType := "text/html"
    body := Body.text offlinePageHtml }

/-- Generic offline response: `offlineResponse()`.  No `statusText` is given, so it
is the empty default. -/
def offlineResponse : Response :=
  { status := 503
    statusText := ""
    contentType := "application/json"
    body := Body.json
      [ ("error", JsonValue.str "Offline"),
        ("message", JsonValue.str "No internet connection and resource not cached"),
        ("offline", JsonValue.bool true) ] }

/-- The response `new Response('', ...)` with status 503 of `cacheFirstExternal`: an
empty string body, for which the platform sets the text content type. -/
def emptyResponse : Response :=
  { status := 503
    statusText := ""
    contentType := "text/plain;charset=UTF-8"
    body := Body.text "" }

/-! ## Requests and the routing helpers -/

/-- A request as the fetch listener sees it: `origin`, `hostname` and `pathname`
are the fields of `new URL(request.url)`; `accept` is `request.headers.get('accept')`,
`none` when the header is absent. -/
structure Request where
  method : String
  url : String
  origin : String
  hostname : String
  pathname : String
  accept : Option String
  mode : String
deriving DecidableEq, Repr

def CACHE_VERSION : String := "aqua-offline-v4"
def STATIC_CACHE : String := CACHE_VERSION ++ "-static"
def PAGES_CACHE : String := CACHE_VERSION ++ "-pages"
def RUNTIME_CACHE : String := CACHE_VERSION ++ "-runtime"

/-- The method `s.startsWith(p)`. -/
def startsWith (s p : String) : Bool :=
  p.data.isPrefixOf s.data

/-- The method `s.includes(sub)`: `sub` occurs somewhere in `s`. -/
def includes (s sub : String) : Bool :=
  s.data.tails.any (fun t => sub.data.isPrefixOf t)

/-- The alternatives of the regular expression in `isStaticAsset`. -/
def staticExtensions : List String :=
  ["css", "js", "png", "jpg", "jpeg", "gif", "svg", "woff", "woff2", "ttf", "ico"]

/-- The test `/\.(css|js|...|ico)$/i.test(pathname)`: the path ends in a dot followed
by one of the alternatives, letters compared without regard to ASCII case. -/
def extensionTest (pathname : String) : Bool :=
  staticExtensions.any
    (fun e => ('.' :: e.data).isSuffixOf (pathname.data.map Char.toLower))

/-- Helper: Check if URL is static asset. -/
def isStaticAsset (pathname : String) : Bool :=
  startsWith pathname "/static/" || extensionTest pathname

/-- Helper: Check if request is for HTML.  The optional chain on a missing header
gives `undefined`, which is falsy. -/
def isHTMLPage (request : Request) : Bool :=
  (match request.accept with
    | some a => includes a "text/html"
    | none => false) || request.mode == "navigate"

/-- The list `allowed` of `isAllowedExternal`. -/
def allowed : List String :=
  ["fonts.googleapis.com", "fonts.gstatic.com", "cdnjs.cloudflare.com", "unpkg.com"]

/-- Helper: Check if external domain is allowed. -/
def isAllowedExternal (hostname : String) : Bool :=
  allowed.any (fun domain => includes hostname domain)

/-- The four caching strategies of the service worker. -/
inductive Strategy where
  | cacheFirst
  | cacheFirstWithUpdate
  | networkFirst
  | cacheFirstExternal
deriving DecidableEq, Repr

/-- The fetch listener: the strategy whose result is passed to
`event.respondWith`, or `none` when the listener returns without responding.
`selfOrigin` is `self.location.origin`. -/
def fetchListener (selfOrigin : String) (request : Request) : Option Strategy :=
  -- Only handle GET requests
  if request.method != "GET" then none
  -- Skip non-same-origin requests except for allowed domains
  else if request.origin != selfOrigin then
    if isAllowedExternal request.hostname then some Strategy.cacheFirstExternal else none
  -- Route requests to appropriate strategy
  else if isStaticAsset request.pathname then some Strategy.cacheFirst
  else if isHTMLPage request then some Strategy.cacheFirstWithUpdate
  else some Strategy.networkFirst

/-! ## Cache Storage -/

/-- One cache: its entries, keyed by the URL of the request (all handled requests
are GET requests; `Vary` matching is not modelled). -/
abbrev Cache := List (String × Response)

/-- The lookup `cache.match(request)`: the stored response, `none` for `undefined`. -/
def matchEntry (c : Cache) (url : String) : Option Response :=
  c.lookup url

/-- The write `cache.put(request, response)`: the entry of the same key is replaced. -/
def putEntry (c : Cache) (url : String) (r : Response) : Cache :=
  c.filter (fun e => e.1 != url) ++ [(url, r)]

/-- The caches of the origin, in the order `caches.keys()` lists them. -/
abbrev CacheStorage := List (String × Cache)

/-- The names `caches.keys()` resolves with. -/
def keys (s : CacheStorage) : List String :=
  s.map Prod.fst

/-- The entries of the cache called `name`; a name that is not stored has none. -/
def tierOf (s : CacheStorage) (name : String) : Cache :=
  (s.lookup name).getD []

/-- Effect of a successful `caches.open(name)`: a missing cache is created, empty. -/
def openTier (s : CacheStorage) (name : String) : CacheStorage :=
  if (s.lookup name).isSome then s else s ++ [(name, [])]

/-- Effect of a completed `cache.put` on the cache called `name`. -/
def putIn (s : CacheStorage) (name url : String) (r : Response) : CacheStorage :=
  s.map (fun t => if t.1 == name then (t.1, putEntry t.2 url r) else t)

/-! ## Promises, truthiness and the platform -/

/-- How a promise of a response settles: fulfilled with a response, fulfilled with
`undefined` (`none`), or rejected. -/
inductive Settled where
  | fulfilled (value : Option Response)
  | rejected
deriving DecidableEq, Repr

/-- The values the operands of the `||` in the strategies can take. -/
inductive JSVal where
  | undefined
  | response (r : Response)
  | promise (p : Settled)
deriving DecidableEq, Repr

/-- Truthiness: `undefined` is falsy, every object (a response, a promise) is truthy. -/
def JSVal.truthy : JSVal → Bool
  | JSVal.undefined => false
  | JSVal.response _ => true
  | JSVal.promise _ => true

/-- The operator `a || b`. -/
def JSVal.or (a b : JSVal) : JSVal :=
  if a.truthy then a else b

/-- The statement `return v` of an async function: a returned promise is adopted. -/
def asyncReturn : JSVal → Settled
  | JSVal.undefined => Settled.fulfilled none
  | JSVal.response r => Settled.fulfilled (some r)
  | JSVal.promise p => p

/-- Outcomes of the platform operations during one run of a strategy: the network
fetch (`none` when it rejects) and which cache operations reject. -/
structure Platform where
  fetch : Option Response
  openFails : String → Bool
  matchFails : String → Bool
  keysFails : Bool

/-- No cache operation rejects. -/
def Platform.cacheOpsSucceed (P : Platform) : Prop :=
  (∀ name, P.openFails name = false) ∧ (∀ name, P.matchFails name = false) ∧
    P.keysFails = false

/-- The call `await caches.open(name)`: `none` when it rejects. -/
def cachesOpen (P : Platform) (s : CacheStorage) (name : String) : Option CacheStorage :=
  if P.openFails name then none else some (openTier s name)

/-- The promise `cache.match(request)` on the cache called `name`. -/
def cacheMatch (P : Platform) (s : CacheStorage) (name : String) (request : Request) :
    Settled :=
  if P.matchFails name then Settled.rejected
  else Settled.fulfilled (matchEntry (tierOf s name) request.url)

/-- A call `cache.put(request, response.clone())` that was issued and not awaited. -/
structure Write where
  cacheName : String
  url : String
  response : Response
deriving DecidableEq, Repr

/-- One run of a strategy: how the returned promise settles, the storage when it
does, and the writes issued without waiting for them. -/
structure Run where
  result : Settled
  storage : CacheStorage
  writes : List Write
deriving DecidableEq, Repr

/-- The storage once the issued writes have completed. -/
def applyWrites (s : CacheStorage) (ws : List Write) : CacheStorage :=
  ws.foldl (fun acc w => putIn acc w.cacheName w.url w.response) s

/-- The storage after a run when each of its writes completes. -/
def Run.final (r : Run) : CacheStorage :=
  applyWrites r.storage r.writes

/-- The storage once the issued writes have settled, where `completes` tells for each
write whether its `cache.put` completes.  A `put` that rejects stores nothing; the
strategies neither await it nor attach a handler to it, so no `catch` of theirs runs. -/
def settleWrites (completes : Write → Bool) (s : CacheStorage) (ws : List Write) :
    CacheStorage :=
  ws.foldl (fun acc w => if completes w then putIn acc w.cacheName w.url w.response else acc) s

/-- The storage after a run, once its writes have settled. -/
def Run.settled (r : Run) (completes : Write → Bool) : CacheStorage :=
  settleWrites completes r.storage r.writes

/-- The `cache.put` of the platform, as far as the parts of a response kept here
decide it: it rejects a partial response, of status 206, and completes otherwise. -/
def putCompletes (w : Write) : Bool :=
  w.response.status != 206

/-! ## The strategies -/

/-- The `catch` block of `cacheFirst`.  The left operand of `||` is the promise
`cache.match(request)` itself, not its value. -/
def cacheFirstCatch (P : Platform) (s : CacheStorage) (request : Request) : Run :=
  match cachesOpen P s STATIC_CACHE with
  | none => ⟨Settled.rejected, s, []⟩
  | some s1 =>
    ⟨asyncReturn (JSVal.or (JSVal.promise (cacheMatch P s1 STATIC_CACHE request))
        (JSVal.response offlineResponse)), s1, []⟩

/-- Strategy 1: Cache First (for static assets). -/
def cacheFirst (P : Platform) (s : CacheStorage) (request : Request) : Run :=
  match cachesOpen P s STATIC_CACHE with
  | none => cacheFirstCatch P s request
  | some s1 =>
    match cacheMatch P s1 STATIC_CACHE request with
    | Settled.rejected => cacheFirstCatch P s1 request
    | Settled.fulfilled (some cached) => ⟨Settled.fulfilled (some cached), s1, []⟩
    | Settled.fulfilled none =>
      match P.fetch with
      | none => cacheFirstCatch P s1 request
      | some response =>
        ⟨Settled.fulfilled (some response), s1,
          if response.ok then [⟨STATIC_CACHE, request.url, response⟩] else []⟩

/-- Strategy 2: Cache First with Background Update (for HTML pages). -/
def cacheFirstWithUpdate (P : Platform) (s : CacheStorage) (request : Request) : Run :=
  match cachesOpen P s PAGES_CACHE with
  | none => ⟨Settled.rejected, s, []⟩
  | some s1 =>
    match cacheMatch P s1 PAGES_CACHE request with
    | Settled.rejected => ⟨Settled.rejected, s1, []⟩
    | Settled.fulfilled (some cached) =>
      -- Update cache in background
      ⟨Settled.fulfilled (some cached), s1,
        match P.fetch with
        | some response =>
          if response.ok then [⟨PAGES_CACHE, request.url, response⟩] else []
        | none => []⟩
    | Settled.fulfilled none =>
      -- Not in cache, try network
      match P.fetch with
      | some response =>
        ⟨Settled.fulfilled (some response), s1,
          if response.ok then [⟨PAGES_CACHE, request.url, response⟩] else []⟩
      | none => ⟨Settled.fulfilled (some offlinePage), s1, []⟩

/-- The loop of `networkFirst` over the names of `caches.keys()`, ending in
`offlineResponse()`. -/
def scanCaches (P : Platform) (request : Request) : CacheStorage → List String → Run
  | s, [] => ⟨Settled.fulfilled (some offlineResponse), s, []⟩
  | s, cacheName :: rest =>
    match cachesOpen P s cacheName with
    | none => ⟨Settled.rejected, s, []⟩
    | some s1 =>
      match cacheMatch P s1 cacheName request with
      | Settled.rejected => ⟨Settled.rejected, s1, []⟩
      | Settled.fulfilled (some m) => ⟨Settled.fulfilled (some m), s1, []⟩
      | Settled.fulfilled none => scanCaches P request s1 rest

/-- The `catch` block of `networkFirst`. -/
def networkFirstCatch (P : Platform) (s : CacheStorage) (request : Request) : Run :=
  match cachesOpen P s RUNTIME_CACHE with
  | none => ⟨Settled.rejected, s, []⟩
  | some s1 =>
    match cacheMatch P s1 RUNTIME_CACHE request with
    | Settled.rejected => ⟨Settled.rejected, s1, []⟩
    | Settled.fulfilled (some cached) => ⟨Settled.fulfilled (some cached), s1, []⟩
    | Settled.fulfilled none =>
      -- Check other caches as fallback
      if P.keysFails then ⟨Settled.rejected, s1, []⟩
      else scanCaches P request s1 (keys s1)

/-- Strategy 3: Network First (for dynamic content). -/
def networkFirst (P : Platform) (s : CacheStorage) (request : Request) : Run :=
  match P.fetch with
  | none => networkFirstCatch P s request
  | some response =>
    if response.ok then
      match cachesOpen P s RUNTIME_CACHE with
      | none => networkFirstCatch P s request
      | some s1 =>
        ⟨Settled.fulfilled (some response), s1, [⟨RUNTIME_CACHE, request.url, response⟩]⟩
    else ⟨Settled.fulfilled (some response), s, []⟩

/-- The `catch` block of `cacheFirstExternal`, with the same `||` on a promise. -/
def cacheFirstExternalCatch (P : Platform) (s : CacheStorage) (request : Request) : Run :=
  match cachesOpen P s STATIC_CACHE with
  | none => ⟨Settled.rejected, s, []⟩
  | some s1 =>
    ⟨asyncReturn (JSVal.or (JSVal.promise (cacheMatch P s1 STATIC_CACHE request))
        (JSVal.response emptyResponse)), s1, []⟩

/-- Strategy 4: Cache First for External Resources. -/
def cacheFirstExternal (P : Platform) (s : CacheStorage) (request : Request) : Run :=
  match cachesOpen P s STATIC_CACHE with
  | none => cacheFirstExternalCatch P s request
  | some s1 =>
    match cacheMatch P s1 STATIC_CACHE request with
    | Settled.rejected => cacheFirstExternalCatch P s1 request
    | Settled.fulfilled (some cached) => ⟨Settled.fulfilled (some cached), s1, []⟩
    | Settled.fulfilled none =>
      match P.fetch with
      | none => cacheFirstExternalCatch P s1 request
      | some response =>
        ⟨Settled.fulfilled (some response), s1,
          if response.ok then [⟨STATIC_CACHE, request.url, response⟩] else []⟩

/-- The function a strategy names. -/
def Strategy.run : Strategy → Platform → CacheStorage → Request → Run
  | Strategy.cacheFirst => AQUA.cacheFirst
  | Strategy.cacheFirstWithUpdate => AQUA.cacheFirstWithUpdate
  | Strategy.networkFirst => AQUA.networkFirst
  | Strategy.cacheFirstExternal => AQUA.cacheFirstExternal

/-- The fetch event as a whole: `none` when the listener does not respond (the
request goes to the network untouched and the storage is not used), else the run
of the chosen strategy. -/
def onFetch (selfOrigin : String) (P : Platform) (s : CacheStorage) (request : Request) :
    Option Run :=
  (fetchListener selfOrigin request).map (fun st => st.run P s request)

/-! ## Words of the specification -/

/-- The path starts with `/static/`. -/
def StartsWithStatic (pathname : String) : Prop :=
  "/static/".data <+: pathname.data

/-- The dotted extensions the specification lists. -/
def dottedExtensions : List String :=
  [".css", ".js", ".png", ".jpg", ".jpeg", ".gif", ".svg", ".woff", ".woff2", ".ttf", ".ico"]

/-- The path ends, case-insensitively, in one of the listed extensions: its last
characters, lowered, spell the extension. -/
def EndsInExtension (pathname : String) : Prop :=
  ∃ e ∈ dottedExtensions, ∃ pre suf : List Char,
    pathname.data = pre ++ suf ∧ suf.map Char.toLower = e.data

/-- The request has an accept header that contains `text/html`. -/
def AcceptsHtml (request : Request) : Prop :=
  ∃ a, request.accept = some a ∧ "text/html".data <:+: a.data

/-- The request is classified as a page: accept header or navigation mode. -/
def IsPage (request : Request) : Prop :=
  AcceptsHtml request ∨ request.mode = "navigate"

/-- The static tier, pages tier or runtime tier holds no entry for the request. -/
def NoEntry (s : CacheStorage) (name : String) (request : Request) : Prop :=
  matchEntry (tierOf s name) request.url = none

/-- The first entry for the request met when the stored tiers are gone through in
enumeration order. -/
def firstMatch (s : CacheStorage) (request : Request) : Option Response :=
  s.findSome? (fun t => matchEntry t.2 request.url)

/-- Every stored entry is a 2xx response, as every write of the service worker is
guarded by `response.ok`. -/
def StoredOk (s : CacheStorage) : Prop :=
  ∀ t ∈ s, ∀ e ∈ t.2, e.2.ok = true

instance (s : CacheStorage) (name : String) (request : Request) :
    Decidable (NoEntry s name request) := by
  unfold NoEntry
  infer_instance

/-! ## Concrete inputs -/

/-- Origin of the application in the examples. -/
def appOrigin : String := "https://aqua.example"

/-- A platform that is offline: the fetch rejects, every cache operation works. -/
def offline : Platform := ⟨none, fun _ => false, fun _ => false, false⟩

/-- A platform whose `caches.open` rejects. -/
def storageDown : Platform := ⟨none, fun _ => true, fun _ => false, false⟩

/-- A 200 response. -/
def okResponse : Response := ⟨200, "OK", "text/css", Body.text "body"⟩

/-- A platform that is online and answers with `okResponse`. -/
def online : Platform := ⟨some okResponse, fun _ => false, fun _ => false, false⟩

/-- A navigation to a path under `/static/`. -/
def staticPageRequest : Request :=
  ⟨"GET", "https://aqua.example/static/guide", "https://aqua.example", "aqua.example",
    "/static/guide", some "text/html,application/xhtml+xml", "navigate"⟩

/-- A style sheet of the application. -/
def styleRequest : Request :=
  ⟨"GET", "https://aqua.example/static/style.css", "https://aqua.example", "aqua.example",
    "/static/style.css", some "text/css", "no-cors"⟩

/-- A page of the application. -/
def marketRequest : Request :=
  ⟨"GET", "https://aqua.example/market", "https://aqua.example", "aqua.example",
    "/market", some "text/html", "navigate"⟩

/-- A form submission. -/
def postRequest : Request :=
  ⟨"POST", "https://aqua.example/login", "https://aqua.example", "aqua.example",
    "/login", some "text/html", "navigate"⟩

/-- A script on a host whose name merely contains an allowed name. -/
def lookalikeRequest : Request :=
  ⟨"GET", "https://unpkg.com.attacker.example/x.js", "https://unpkg.com.attacker.example",
    "unpkg.com.attacker.example", "/x.js", none, "no-cors"⟩

/-- A font on an allowed host. -/
def fontRequest : Request :=
  ⟨"GET", "https://fonts.gstatic.com/s/inter.woff2", "https://fonts.gstatic.com",
    "fonts.gstatic.com", "/s/inter.woff2", none, "cors"⟩

/-- A dataset request of the application. -/
def apiRequest : Request :=
  ⟨"GET", "https://aqua.example/api/dataset/market", "https://aqua.example",
    "aqua.example", "/api/dataset/market", some "application/json", "cors"⟩

/-- A storage in which only a tier of an older generation holds the dataset. -/
def staleStorage : CacheStorage :=
  [(STATIC_CACHE, []),
   ("aqua-offline-v3-runtime", [("https://aqua.example/api/dataset/market", okResponse)])]

/-- A storage whose pages tier holds an old copy of the market page. -/
def warmStorage : CacheStorage :=
  [(PAGES_CACHE, [("https://aqua.example/market", ⟨200, "OK", "text/html", Body.text "old"⟩)])]

/-- A 206 answer of the server: a part of the page. -/
def partialResponse : Response := ⟨206, "Partial Content", "text/html", Body.text "part"⟩

/-- A platform that is online and answers with `partialResponse`. -/
def servesPartial : Platform :=
  ⟨some partialResponse, fun _ => false, fun _ => false, false⟩

/-! ## The activate step -/

/-- Effect of a completed `caches.delete(name)`. -/
def cachesDelete (s : CacheStorage) (name : String) : CacheStorage :=
  s.filter (fun t => t.1 != name)

/-- The names the activate listener deletes: those of `cacheNames` that pass
`name => !name.startsWith(CACHE_VERSION)`. -/
def staleNames (cacheNames : List String) : List String :=
  cacheNames.filter (fun name => !startsWith name CACHE_VERSION)

/-- The activate listener on the storage: `caches.keys()`, the filter, and one
`caches.delete` per remaining name (the cache operations are taken to succeed). -/
def activate (s : CacheStorage) : CacheStorage :=
  (staleNames (keys s)).foldl cachesDelete s

/-- The name starts with the current version string. -/
def StartsWithVersion (name : String) : Prop :=
  CACHE_VERSION.data <+: name.data

instance (name : String) : Decidable (StartsWithVersion name) := by
  unfold StartsWithVersion
  infer_instance

/-- The tier suffixes of the naming convention. -/
def tierSuffixes : List String := ["-static", "-pages", "-runtime"]

/-- A storage with a tier of generation `aqua-offline-v41`, a scratch cache of the
current version string, a tier of generation `aqua-offline-v3` and the current
static tier. -/
def mixedStorage : CacheStorage :=
  [("aqua-offline-v41-static", []), ("aqua-offline-v4-tmp", []),
   ("aqua-offline-v3-static", []), (STATIC_CACHE, [])]

/-! ## The install step -/

/-- Core static assets. -/
def STATIC_ASSETS : List String :=
  ["/static/style.css", "/static/main.js", "/static/offline-manager.js",
   "/static/manifest.json", "/static/logo.png", "/static/splash.png"]

/-- External resources. -/
def EXTERNAL_ASSETS : List String :=
  ["https://fonts.googleapis.com/css2?family=Inter:wght@400;500;600;700;800&display=swap",
   "https://cdnjs.cloudflare.com/ajax/libs/qrcodejs/1.0.0/qrcode.min.js",
   "https://unpkg.com/html5-qrcode@2.3.8/html5-qrcode.min.js"]

/-- ALL app pages. -/
def APP_PAGES : List String :=
  ["/", "/farmer", "/buyer", "/market", "/location", "/logistics", "/districts",
   "/technicians", "/knowledge", "/settings", "/qr-scanner", "/precautions", "/login",
   "/signup"]

/-- Outcomes of the platform operations during one install step: which `caches.open`
reject, what `fetch(url)` gives (`none` when it rejects) and which `cache.put`
reject.  Entries are keyed by the URL as it is written in the lists. -/
structure InstallEnv where
  openFails : String → Bool
  fetch : String → Option Response
  putFails : String → String → Bool

/-- How a promise without a value of interest settles. -/
inductive Outcome where
  | fulfilled
  | rejected
deriving DecidableEq, Repr

/-- The call `caches.open(name)` of the install step. -/
def installOpen (E : InstallEnv) (s : CacheStorage) (name : String) : Option CacheStorage :=
  if E.openFails name then none else some (openTier s name)

/-- One URL of `cache.addAll` is ready to be stored: it was fetched, the response is
a 2xx response and its write does not fail. -/
def addable (E : InstallEnv) (name url : String) : Bool :=
  match E.fetch url with
  | some response => response.ok && !E.putFails name url
  | none => false

/-- The call `cache.addAll(urls)` on the cache called `name`: every URL is fetched
and stored, or the promise rejects and nothing is stored. -/
def addAll (E : InstallEnv) (s : CacheStorage) (name : String) (urls : List String) :
    Outcome × CacheStorage :=
  if urls.all (addable E name) then
    (Outcome.fulfilled,
      urls.foldl (fun acc url =>
        match E.fetch url with
        | some response => putIn acc name url response
        | none => acc) s)
  else (Outcome.rejected, s)

/-- A handler `.catch(err => console.warn(...))`: a rejection is logged and the
promise is fulfilled. -/
def catchWarn (p : Outcome × CacheStorage) : Outcome × CacheStorage :=
  (Outcome.fulfilled, p.2)

/-- The promise built for one URL of `APP_PAGES`. -/
def pageTask (E : InstallEnv) (s : CacheStorage) (url : String) : Outcome × CacheStorage :=
  catchWarn
    (match E.fetch url with
      | none => (Outcome.rejected, s)
      | some response =>
        if response.ok then
          if E.putFails PAGES_CACHE url then (Outcome.rejected, s)
          else (Outcome.fulfilled, putIn s PAGES_CACHE url response)
        else (Outcome.rejected, s))

/-- The promise built for one URL of `EXTERNAL_ASSETS`. -/
def externalTask (E : InstallEnv) (s : CacheStorage) (url : String) :
    Outcome × CacheStorage :=
  catchWarn
    (match E.fetch url with
      | none => (Outcome.rejected, s)
      | some response =>
        if response.ok then
          if E.putFails STATIC_CACHE url then (Outcome.rejected, s)
          else (Outcome.fulfilled, putIn s STATIC_CACHE url response)
        else (Outcome.fulfilled, s))

/-- The call `Promise.allSettled(urls.map(task))`: it is fulfilled whatever the
tasks do; their writes are kept. -/
def allSettled (task : CacheStorage → String → Outcome × CacheStorage)
    (s : CacheStorage) (urls : List String) : Outcome × CacheStorage :=
  (Outcome.fulfilled, urls.foldl (fun acc url => (task acc url).2) s)

/-- First promise of the install step: the static assets (critical). -/
def installStatic (E : InstallEnv) (s : CacheStorage) : Outcome × CacheStorage :=
  match installOpen E s STATIC_CACHE with
  | none => (Outcome.rejected, s)
  | some s1 => addAll E s1 STATIC_CACHE STATIC_ASSETS

/-- Second promise of the install step: the HTML pages. -/
def installPages (E : InstallEnv) (s : CacheStorage) : Outcome × CacheStorage :=
  match installOpen E s PAGES_CACHE with
  | none => (Outcome.rejected, s)
  | some s1 => allSettled (pageTask E) s1 APP_PAGES

/-- Third promise of the install step: the external assets (non-critical). -/
def installExternal (E : InstallEnv) (s : CacheStorage) : Outcome × CacheStorage :=
  match installOpen E s STATIC_CACHE with
  | none => (Outcome.rejected, s)
  | some s1 => allSettled (externalTask E) s1 EXTERNAL_ASSETS

/-- The install listener: `Promise.all` of the three promises, then
`self.skipWaiting()` (taken to be fulfilled); a rejection is logged and thrown
again.  The writes of the three promises touch different keys and are applied one
promise after the other. -/
def install (E : InstallEnv) (s : CacheStorage) : Outcome × CacheStorage :=
  let r1 := installStatic E s
  let r2 := installPages E r1.2
  let r3 := installExternal E r2.2
  (if r1.1 = Outcome.fulfilled ∧ r2.1 = Outcome.fulfilled ∧ r3.1 = Outcome.fulfilled
    then Outcome.fulfilled else Outcome.rejected, r3.2)

/-- Caching the static manifest succeeds: every URL of `STATIC_ASSETS` is fetched
with a 2xx response and written. -/
def ManifestCached (E : InstallEnv) : Prop :=
  ∀ url ∈ STATIC_ASSETS, ∃ r, E.fetch url = some r ∧ r.ok = true ∧
    E.putFails STATIC_CACHE url = false

/-- Number of entries of a cache stored under the URL. -/
def entryCount (c : Cache) (url : String) : Nat :=
  (c.filter (fun e => e.1 == url)).length

/-- The URLs under which a cache holds entries. -/
def cacheKeys (c : Cache) : List String :=
  c.map Prod.fst

/-- An install environment in which only the static assets can be fetched. -/
def assetsOnly : InstallEnv :=
  ⟨fun _ => false,
   fun url => if url ∈ STATIC_ASSETS then some okResponse else none,
   fun _ _ => false⟩

/-- An install environment in which nothing can be fetched. -/
def nothingFetched : InstallEnv :=
  ⟨fun _ => false, fun _ => none, fun _ _ => false⟩

/-- What one URL of `cache.addAll` does to the entries of its cache. -/
def manifestStep (E : InstallEnv) (c : Cache) (url : String) : Cache :=
  match E.fetch url with
  | some response => putEntry c url response
  | none => c

/-- What the task of one external URL does to the entries of the static tier. -/
def externalStep (E : InstallEnv) (c : Cache) (url : String) : Cache :=
  match E.fetch url with
  | some response =>
    if response.ok then
      if E.putFails STATIC_CACHE url then c else putEntry c url response
    else c
  | none => c

/-- An external URL is written by its task. -/
def externalWritten (E : InstallEnv) (url : String) : Bool :=
  match E.fetch url with
  | some response => response.ok && !E.putFails STATIC_CACHE url
  | none => false

/-! ## The page and the connectivity flags (main.js) -/

/-- An element of the page, as far as the scripts read or write it.  The page is
modelled as the list of its elements in document order; `text` is the element's own
text, and what the scripts do to the children of a section is kept in the flags
`buttonsDisabled`, `offlineIndicator`, `locationIndicator` and `offlineMsg` of the
section itself. -/
structure Element where
  id : String := ""
  tag : String := "div"
  classes : List String := []
  badgeType : Option String := none
  liveOnly : Bool := false
  text : String := ""
  style : List (String × String) := []
  buttonsDisabled : Bool := false
  offlineIndicator : Bool := false
  locationIndicator : Bool := false
  offlineMsg : Bool := false
deriving DecidableEq, Repr

/-- The page. -/
abbrev Document := List Element

/-- The assignment `el.style[property] = value`. -/
def setStyle (e : Element) (property value : String) : Element :=
  { e with style := e.style.filter (fun p => p.1 != property) ++ [(property, value)] }

/-- The call `el.classList.add(c)`. -/
def addClass (e : Element) (c : String) : Element :=
  if c ∈ e.classes then e else { e with classes := e.classes ++ [c] }

/-- The call `el.classList.remove(c)`. -/
def removeClass (e : Element) (c : String) : Element :=
  { e with classes := e.classes.filter (fun x => x != c) }

/-- The assignment `el.textContent = t`. -/
def setText (e : Element) (t : String) : Element :=
  { e with text := t }

/-- The call `document.getElementById(id)`. -/
def getElementById (doc : Document) (id : String) : Option Element :=
  doc.find? (fun e => e.id == id)

/-- An update of the element `document.getElementById(id)` returns, if there is one. -/
def updateById (doc : Document) (id : String) (f : Element → Element) : Document :=
  match doc with
  | [] => []
  | e :: rest => if e.id == id then f e :: rest else e :: updateById rest id f

/-- An update of the first element a selector matches (`document.querySelector`). -/
def updateFirst (doc : Document) (sel : Element → Bool) (f : Element → Element) :
    Document :=
  match doc with
  | [] => []
  | e :: rest => if sel e then f e :: rest else e :: updateFirst rest sel f

/-- The loop `document.querySelectorAll(sel).forEach(f)`. -/
def forEachMatching (doc : Document) (sel : Element → Bool) (f : Element → Element) :
    Document :=
  doc.map (fun e => if sel e then f e else e)

/-- The selector `.live-pulse-badge:not(#connection-badge)`. -/
def isLiveBadge (e : Element) : Bool :=
  decide ("live-pulse-badge" ∈ e.classes) && (e.id != "connection-badge")

/-- Text and colours of a badge. -/
def paintBadge (badge : Element) (text color background borderColor : String) : Element :=
  setStyle (setStyle (setStyle (setText badge text) "color" color)
    "background" background) "borderColor" borderColor

/-- The LIVE side of the badge loops. -/
def paintLive (badge : Element) : Element :=
  if badge.badgeType = some "realtime" then
    paintBadge badge "🔴 LIVE" "#00ff88" "rgba(0, 255, 136, 0.2)" "rgba(0, 255, 136, 0.5)"
  else if badge.badgeType = some "sensors" then
    paintBadge badge "🔴 SENSORS ACTIVE" "#00d2ff" "rgba(0, 210, 255, 0.2)"
      "rgba(0, 210, 255, 0.5)"
  else if badge.badgeType = some "market" then
    paintBadge badge "🔴 LIVE TELEMETRY" "#00d2ff" "rgba(0, 210, 255, 0.2)"
      "rgba(0, 210, 255, 0.5)"
  else badge

/-- The OFFLINE side of the badge loop of `updateLiveOfflineLabels`. -/
def paintOffline (badge : Element) : Element :=
  if badge.badgeType = some "realtime" then
    paintBadge badge "📡 OFFLINE" "#ff0055" "rgba(255, 0, 85, 0.2)" "rgba(255, 0, 85, 0.5)"
  else if badge.badgeType = some "sensors" then
    paintBadge badge "📡 OFFLINE" "#ff0055" "rgba(255, 0, 85, 0.2)" "rgba(255, 0, 85, 0.5)"
  else if badge.badgeType = some "market" then
    paintBadge badge "📡 OFFLINE TELEMETRY" "#ff0055" "rgba(255, 0, 85, 0.2)"
      "rgba(255, 0, 85, 0.5)"
  else badge

/-- Update only the live data badges (not the connection badge). -/
def updateLiveDataBadges (isLive : Bool) (doc : Document) : Document :=
  let doc := forEachMatching doc isLiveBadge (fun badge =>
    if isLive then paintLive badge
    else paintBadge badge "📍 LOCATION OFF" "#ff6b35" "rgba(255, 107, 53, 0.2)"
      "rgba(255, 107, 53, 0.5)")
  updateById doc "ticker-live-text" (fun t =>
    if isLive then setStyle (setText t "LIVE") "color" "#00ff88"
    else setStyle (setText t "LOCATION OFF") "color" "#ff6b35")

/-- Replace all LIVE indicators with OFFLINE and vice versa. -/
def updateLiveOfflineLabels (isOnline : Bool) (doc : Document) : Document :=
  let doc := forEachMatching doc isLiveBadge (fun badge =>
    if isOnline then paintLive badge else paintOffline badge)
  let doc := forEachMatching doc (fun e => decide ("status-badge-text" ∈ e.classes))
    (fun badge =>
      setStyle (setText badge (if isOnline then "LIVE" else "OFFLINE")) "color"
        (if isOnline then "#00ff88" else "#ff0055"))
  let doc := forEachMatching doc (fun e => decide ("live-pulse" ∈ e.classes)) (fun pulse =>
    if isOnline then
      setStyle (setStyle (setStyle pulse "animation" "pulse 2s infinite")
        "background" "#00ff88") "opacity" "1"
    else
      setStyle (setStyle (setStyle pulse "animation" "none") "background" "#ff0055")
        "opacity" "0.3")
  let doc := forEachMatching doc (fun e => e.tag == "h2" || e.tag == "h3") (fun h =>
    if isOnline && includes h.text "🛰️" then setStyle h "opacity" "1"
    else if !isOnline && includes h.text "🛰️" then setStyle h "opacity" "0.7"
    else h)
  updateById doc "ticker-live-text" (fun t =>
    setStyle (setText t (if isOnline then "LIVE" else "OFFLINE")) "color"
      (if isOnline then "#00ff88" else "#ff0055"))

/-- Update live data when online: the first `[data-offline-msg]` is removed. -/
def updateLiveData (doc : Document) : Document :=
  updateFirst doc (fun e => e.offlineMsg) (fun e => { e with offlineMsg := false })

/-- Show live data sections when online. -/
def showLiveDataSections (doc : Document) : Document :=
  let doc := forEachMatching doc (fun e => e.liveOnly) (fun el =>
    let el := setStyle (setStyle (setStyle el "display" "block") "opacity" "1")
      "pointerEvents" "auto"
    let el := addClass (removeClass el "offline-state") "online-state"
    let el := setStyle el "filter" "none"
    { el with buttonsDisabled := false, offlineIndicator := false })
  updateLiveData (updateLiveOfflineLabels true doc)

/-- Hide live data sections and show cached data when offline. -/
def hideLiveDataSections (doc : Document) : Document :=
  let doc := forEachMatching doc (fun e => e.liveOnly) (fun el =>
    let el := setStyle (setStyle (setStyle el "display" "block") "opacity" "0.75")
      "pointerEvents" "none"
    let el := removeClass (addClass el "offline-state") "online-state"
    let el := setStyle el "filter" "grayscale(60%) brightness(0.9)"
    let el := { el with buttonsDisabled := true }
    if !el.offlineIndicator then
      { setStyle el "position" "relative" with offlineIndicator := true }
    else el)
  let doc := updateLiveOfflineLabels false doc
  updateFirst doc (fun e => decide ("ticker-content" ∈ e.classes)) (fun ticker =>
    if !ticker.offlineMsg then { ticker with offlineMsg := true } else ticker)

/-- Show location required message in live data areas. -/
def showLocationRequiredMessage (doc : Document) : Document :=
  forEachMatching doc (fun e => e.liveOnly) (fun el =>
    if !el.locationIndicator then
      { setStyle el "position" "relative" with locationIndicator := true }
    else el)

/-- The globals of main.js with what they depend on: the network signal
`navigator.onLine`, whether `navigator` has `geolocation`, the three flags, the page,
and counters of the calls of `getCurrentPosition` and of `showLocationNotification`.
Toasts of `showNotification` are not modelled. -/
structure Browser where
  onLine : Bool
  geolocation : Bool
  ALLOW_LIVE_DATA : Bool
  LOCATION_ENABLED : Bool
  LOCATION_CHECK_DONE : Bool
  document : Document
  positionQueries : Nat
  locationPrompts : Nat
deriving DecidableEq, Repr

/-- The state after the three assignments at the top of main.js. -/
def initialBrowser (onLine geolocation : Bool) (doc : Document) : Browser :=
  { onLine := onLine
    geolocation := geolocation
    ALLOW_LIVE_DATA := onLine
    LOCATION_ENABLED := false
    LOCATION_CHECK_DONE := false
    document := doc
    positionQueries := 0
    locationPrompts := 0 }

/-- Disable live features when location is not available. -/
def disableLiveFeaturesNoLocation (w : Browser) : Browser :=
  { w with
    ALLOW_LIVE_DATA := false
    document := showLocationRequiredMessage (hideLiveDataSections w.document) }

/-- Check Location Permission.  `granted` tells whether `getCurrentPosition` calls
the success callback if it is called; the result is the returned value. -/
def checkLocationPermission (granted : Bool) (w : Browser) : Bool × Browser :=
  if w.LOCATION_CHECK_DONE then (w.LOCATION_ENABLED, w)
  else
    let w := { w with LOCATION_CHECK_DONE := true }
    if !w.geolocation then
      (false, { w with locationPrompts := w.locationPrompts + 1, LOCATION_ENABLED := false })
    else
      let w := { w with positionQueries := w.positionQueries + 1 }
      if granted then (true, { w with LOCATION_ENABLED := true })
      else
        (false, disableLiveFeaturesNoLocation
          { w with LOCATION_ENABLED := false, locationPrompts := w.locationPrompts + 1 })

/-- STEP 1 of `updateConnectionStatus`, online side. -/
def showOnlineBadge (doc : Document) : Document :=
  let doc := updateById doc "connection-badge" (fun badge =>
    removeClass (setStyle (setStyle (setStyle badge "background" "rgba(0, 255, 136, 0.2)")
      "borderColor" "rgba(0, 255, 136, 0.5)") "color" "#00ff88") "offline")
  let doc := updateById doc "connection-icon" (fun icon => setText icon "🌐")
  updateById doc "connection-text" (fun text => setText text "ONLINE")

/-- STEP 1 of `updateConnectionStatus`, offline side. -/
def showOfflineBadge (doc : Document) : Document :=
  let doc := updateById doc "connection-badge" (fun badge =>
    addClass (setStyle (setStyle (setStyle badge "background" "rgba(255, 0, 85, 0.2)")
      "borderColor" "rgba(255, 0, 85, 0.5)") "color" "#ff0055") "offline")
  let doc := updateById doc "connection-icon" (fun icon => setText icon "📡")
  updateById doc "connection-text" (fun text => setText text "OFFLINE")

/-- STEP 2 and STEP 3 of `updateConnectionStatus`: the location check, then the
flag and the live sections. -/
def liveDataSteps (granted : Bool) (w1 : Browser) : Browser :=
  -- STEP 2
  let checked := checkLocationPermission granted w1
  let hasLocation := checked.1
  let w2 := checked.2
  -- STEP 3
  if w2.onLine && hasLocation then
    { w2 with
      ALLOW_LIVE_DATA := true
      document := updateLiveOfflineLabels true (showLiveDataSections w2.document) }
  else if w2.onLine && !hasLocation then
    { w2 with
      ALLOW_LIVE_DATA := false
      document := updateLiveDataBadges false
        (showLocationRequiredMessage (hideLiveDataSections w2.document)) }
  else
    { w2 with
      ALLOW_LIVE_DATA := false
      document := updateLiveOfflineLabels false (hideLiveDataSections w2.document) }

/-- The function `updateConnectionStatus` of `initializeConnectionMonitor`; the
network signal does not change while it runs. -/
def updateConnectionStatus (granted : Bool) (w : Browser) : Browser :=
  match getElementById w.document "connection-badge" with
  | none => w
  | some _ =>
    -- STEP 1
    liveDataSteps granted
      { w with
        document := if w.onLine then showOnlineBadge w.document
          else showOfflineBadge w.document }

/-- The run of `initializeConnectionMonitor` on page load or reload. -/
def initializeConnectionMonitor (granted : Bool) (w : Browser) : Browser :=
  updateConnectionStatus granted w

/-- The listener of the `online` event. -/
def onlineListener (granted : Bool) (w : Browser) : Browser :=
  updateConnectionStatus granted w

/-- The first statement of the listener of the `offline` event. -/
def offlineListenerStart (w : Browser) : Browser :=
  { w with ALLOW_LIVE_DATA := false }

/-- The listener of the `offline` event. -/
def offlineListener (granted : Bool) (w : Browser) : Browser :=
  updateConnectionStatus granted (offlineListenerStart w)

/-- The network comes up and the `online` event is handled. -/
def onlineEvent (granted : Bool) (w : Browser) : Browser :=
  onlineListener granted { w with onLine := true }

/-- The network goes down and the `offline` event is handled. -/
def offlineEvent (granted : Bool) (w : Browser) : Browser :=
  offlineListener granted { w with onLine := false }

/-- Request location permission from user.  `granted` is the outcome of this
request, `grantedCheck` that of the check the reloaded monitor may make. -/
def requestLocationPermission (granted grantedCheck : Bool) (w : Browser) : Browser :=
  if w.geolocation then
    let w := { w with positionQueries := w.positionQueries + 1 }
    if granted then
      let w := { w with LOCATION_ENABLED := true, ALLOW_LIVE_DATA := w.onLine }
      let w :=
        if w.onLine then
          { w with document := updateLiveOfflineLabels true (showLiveDataSections w.document) }
        else w
      initializeConnectionMonitor grantedCheck w
    else disableLiveFeaturesNoLocation w
  else disableLiveFeaturesNoLocation w

/-- The method `OfflineManager.updateConnectionBadge`, on the page, for the value of
`this.isOnline`. -/
def updateConnectionBadge (isOnline : Bool) (doc : Document) : Document :=
  match getElementById doc "connection-badge", getElementById doc "connection-icon",
    getElementById doc "connection-text" with
  | some _, some _, some _ =>
    if isOnline then
      updateById (updateById (updateById doc "connection-badge"
        (fun badge => removeClass badge "offline"))
        "connection-icon" (fun icon => setText icon "🌐"))
        "connection-text" (fun text => setText text "ONLINE")
    else
      updateById (updateById (updateById doc "connection-badge"
        (fun badge => addClass badge "offline"))
        "connection-icon" (fun icon => setText icon "📡"))
        "connection-text" (fun text => setText text "OFFLINE")
  | _, _, _ => doc

/-- The network-reachability indicator: whether the connection badge has the class
`offline`, and the texts of its icon and of its label. -/
structure Indicator where
  offline : Option Bool
  icon : Option String
  text : Option String
deriving DecidableEq, Repr

/-- The indicator the page shows. -/
def indicator (doc : Document) : Indicator :=
  { offline := (getElementById doc "connection-badge").map
      (fun badge => decide ("offline" ∈ badge.classes))
    icon := (getElementById doc "connection-icon").map (fun e => e.text)
    text := (getElementById doc "connection-text").map (fun e => e.text) }

/-- The flag agrees with the two conditions: live data is allowed exactly when the
network is reachable and location is enabled. -/
def Coherent (w : Browser) : Prop :=
  w.ALLOW_LIVE_DATA = true ↔ (w.onLine = true ∧ w.LOCATION_ENABLED = true)

instance (w : Browser) : Decidable (Coherent w) := by
  unfold Coherent
  infer_instance

/-- A run of calls of `checkLocationPermission`, one outcome per call. -/
def checkRepeatedly : List Bool → Browser → Browser
  | [], w => w
  | granted :: rest, w => checkRepeatedly rest (checkLocationPermission granted w).2

/-- The icon and the label of the connection badge are not live labels themselves:
they carry neither the class `live-pulse-badge` nor `status-badge-text`. -/
def LabelsApart (doc : Document) : Prop :=
  ∀ e ∈ doc, (e.id = "connection-icon" ∨ e.id = "connection-text") →
    "live-pulse-badge" ∉ e.classes ∧ "status-badge-text" ∉ e.classes

/-- A page with the connection badge, whose badge is a live pulse badge, one live
section, a sensors badge and the ticker text. -/
def samplePage : Document :=
  [ { id := "connection-badge", classes := ["live-pulse-badge", "offline"] },
    { id := "connection-icon", tag := "span", text := "📡" },
    { id := "connection-text", tag := "span", text := "OFFLINE" },
    { id := "sensor-card", liveOnly := true },
    { id := "sensor-badge", tag := "span", classes := ["live-pulse-badge"],
      badgeType := some "sensors", text := "🔴 SENSORS ACTIVE" },
    { id := "ticker-live-text", tag := "span", text := "LIVE" } ]

/-- The states of the connectivity and capability machine: the initial globals,
closed under the network events with their listeners, `updateConnectionStatus`,
`checkLocationPermission`, `requestLocationPermission` and
`disableLiveFeaturesNoLocation`. -/
inductive Reachable (onLine geolocation : Bool) (doc : Document) : Browser → Prop where
  | initial : Reachable onLine geolocation doc (initialBrowser onLine geolocation doc)
  | online (granted : Bool) (w : Browser) :
      Reachable onLine geolocation doc w →
      Reachable onLine geolocation doc (onlineEvent granted w)
  | offline (granted : Bool) (w : Browser) :
      Reachable onLine geolocation doc w →
      Reachable onLine geolocation doc (offlineEvent granted w)
  | update (granted : Bool) (w : Browser) :
      Reachable onLine geolocation doc w →
      Reachable onLine geolocation doc (updateConnectionStatus granted w)
  | check (granted : Bool) (w : Browser) :
      Reachable onLine geolocation doc w →
      Reachable onLine geolocation doc (checkLocationPermission granted w).2
  | request (granted grantedCheck : Bool) (w : Browser) :
      Reachable onLine geolocation doc w →
      Reachable onLine geolocation doc (requestLocationPermission granted grantedCheck w)
  | disable (w : Browser) :
      Reachable onLine geolocation doc w →
      Reachable onLine geolocation doc (disableLiveFeaturesNoLocation w)

/-- A state with every flag set, the network just gone down. -/
def liveThenDown : Browser :=
  { onLine := false
    geolocation := true
    ALLOW_LIVE_DATA := true
    LOCATION_ENABLED := true
    LOCATION_CHECK_DONE := true
    document := samplePage
    positionQueries := 1
    locationPrompts := 0 }

/-- The second element shows the same indicator state as the first: same id, same
membership of the classes `offline`, `live-pulse-badge` and `status-badge-text`, and
the same text if it is an icon or label of the connection badge that is not a live
label. -/
def Same (e e' : Element) : Prop :=
  e'.id = e.id ∧ ("offline" ∈ e'.classes ↔ "offline" ∈ e.classes) ∧
    ("live-pulse-badge" ∈ e'.classes ↔ "live-pulse-badge" ∈ e.classes) ∧
    ("status-badge-text" ∈ e'.classes ↔ "status-badge-text" ∈ e.classes) ∧
    ((e.id = "connection-icon" ∨ e.id = "connection-text") →
      "live-pulse-badge" ∉ e.classes → "status-badge-text" ∉ e.classes →
      e'.text = e.text)

/-- Two pages whose elements correspond one to one under `Same`. -/
def Alike : Document → Document → Prop
  | [], [] => True
  | e :: rest, e' :: rest' => Same e e' ∧ Alike rest rest'
  | _, _ => False

instance (doc : Document) : Decidable (LabelsApart doc) := by
  unfold LabelsApart
  infer_instance

/-- A state of the sample page with the network up, location granted earlier and
the live-data flag off. -/
def grantedEarlier : Browser :=
  { onLine := true
    geolocation := true
    ALLOW_LIVE_DATA := false
    LOCATION_ENABLED := true
    LOCATION_CHECK_DONE := true
    document := samplePage
    positionQueries := 1
    locationPrompts := 0 }

/-! ## The local store and the deferred sync queue (offline-manager.js) -/

/-- A property value of a stored object, as far as the manager looks at it. -/
inductive Field where
  | str (s : String)
  | bool (b : Bool)
  | num (n : Int)
deriving DecidableEq, Repr

/-- A stored object: its property `id`, the key path of the object stores (`none`
while the object has no such property), and its other properties. -/
structure Record where
  id : Option Nat
  fields : List (String × Field)
deriving DecidableEq, Repr

/-- Truthiness of a property that may be missing. -/
def truthy : Option Field → Bool
  | none => false
  | some (Field.str s) => s != ""
  | some (Field.bool b) => b
  | some (Field.num n) => n != 0

/-- The property read `r[name]`. -/
def Record.get (r : Record) (name : String) : Option Field :=
  r.fields.lookup name

/-- The property write `r[name] = v`. -/
def Record.set (r : Record) (name : String) (v : Field) : Record :=
  { r with
    fields :=
      if (r.fields.lookup name).isSome then
        r.fields.map (fun p => if p.1 == name then (name, v) else p)
      else r.fields ++ [(name, v)] }

/-- An object store with key path `id` and a key generator: its records in
ascending key order and the next key of the generator. -/
structure ObjectStore where
  records : List Record
  keyGenerator : Nat
deriving DecidableEq, Repr

/-- Key of a stored record. -/
def keyOf (r : Record) : Nat :=
  r.id.getD 0

/-- Insertion of a record at its place in the key order. -/
def insertByKey (value : Record) : List Record → List Record
  | [] => [value]
  | r :: rest => if keyOf value < keyOf r then value :: r :: rest
    else r :: insertByKey value rest

/-- The request `store.add(value)`: `none` when it fails because the key exists.  A
value without `id` gets the next key of the generator. -/
def storeAdd (st : ObjectStore) (value : Record) : Option ObjectStore :=
  match value.id with
  | none =>
    some { records := st.records ++ [{ value with id := some st.keyGenerator }]
           keyGenerator := st.keyGenerator + 1 }
  | some k =>
    if st.records.any (fun r => r.id == some k) then none
    else some { records := insertByKey value st.records
                keyGenerator := max st.keyGenerator (k + 1) }

/-- The request `store.put(value)`: the record of the same key is replaced. -/
def storePut (st : ObjectStore) (value : Record) : ObjectStore :=
  match value.id with
  | none =>
    { records := st.records ++ [{ value with id := some st.keyGenerator }]
      keyGenerator := st.keyGenerator + 1 }
  | some k =>
    if st.records.any (fun r => r.id == some k) then
      { st with records := st.records.map (fun r => if r.id == some k then value else r) }
    else { records := insertByKey value st.records
           keyGenerator := max st.keyGenerator (k + 1) }

/-- The opened database: its object stores by name. -/
structure Database where
  stores : List (String × ObjectStore)
deriving DecidableEq, Repr

/-- The fields of the `OfflineManager` the sync queue uses: `isOnline` and `db`
(`none` for `null`). -/
structure Manager where
  isOnline : Bool
  db : Option Database
deriving DecidableEq, Repr

/-- Outcome of a promise of the manager: the value, or the rejection reason. -/
inductive Promised (α : Type) where
  | resolved (value : α)
  | rejected (reason : String)
deriving DecidableEq, Repr

/-- Replacement of one object store of the database. -/
def Database.setStore (db : Database) (name : String) (st : ObjectStore) : Database :=
  { db with stores := db.stores.map (fun p => if p.1 == name then (name, st) else p) }

/-- Get all data from IndexedDB store. -/
def getFromIndexedDB (M : Manager) (storeName : String) : Promised (List Record) :=
  match M.db with
  | none => Promised.rejected "DB not initialized"
  | some db =>
    match db.stores.lookup storeName with
    | none => Promised.rejected "NotFoundError"
    | some st => Promised.resolved st.records

/-- Save offline prediction to IndexedDB for sync later.  `now` is
`new Date().toISOString()`.  The promise resolves with the object that was built,
which has no `id`; the key is put into the stored copy. -/
def savePrediction (now : String) (M : Manager) (type inputs output : Field) :
    Promised Record × Manager :=
  let prediction : Record :=
    { id := none
      fields := [("type", type), ("inputs", inputs), ("output", output),
        ("timestamp", Field.str now), ("synced", Field.bool false)] }
  match M.db with
  | none => (Promised.rejected "DB not initialized", M)
  | some db =>
    match db.stores.lookup "predictions" with
    | none => (Promised.rejected "NotFoundError", M)
    | some st =>
      match storeAdd st prediction with
      | none => (Promised.rejected "ConstraintError", M)
      | some st' =>
        (Promised.resolved prediction, { M with db := some (db.setStore "predictions" st') })

/-- Update prediction record. -/
def updatePrediction (M : Manager) (prediction : Record) : Promised Record × Manager :=
  match M.db with
  | none => (Promised.rejected "DB not initialized", M)
  | some db =>
    match db.stores.lookup "predictions" with
    | none => (Promised.rejected "NotFoundError", M)
    | some st =>
      (Promised.resolved prediction,
        { M with db := some (db.setStore "predictions" (storePut st prediction)) })

/-- Outcome of the request that delivers one record to `/api/sync-prediction`. -/
inductive Delivery where
  | acknowledged
  | refused
  | failed
deriving DecidableEq, Repr

/-- The loop of `syncPendingData` over the unsynced records: the records a request
was sent for, and the manager afterwards.  `deliver` gives the outcome of the
request for a record: a 2xx response, another response, or a rejected fetch, which
leaves the loop through the `catch` around it. -/
def syncLoop (deliver : Record → Delivery) : List Record → Manager → List Record × Manager
  | [], M => ([], M)
  | pred :: rest, M =>
    match deliver pred with
    | Delivery.failed => ([pred], M)
    | Delivery.refused =>
      let r := syncLoop deliver rest M
      (pred :: r.1, r.2)
    | Delivery.acknowledged =>
      -- Mark as synced
      match updatePrediction M (pred.set "synced" (Field.bool true)) with
      | (Promised.rejected _, M') => ([pred], M')
      | (Promised.resolved _, M') =>
        let r := syncLoop deliver rest M'
        (pred :: r.1, r.2)

/-- Sync pending predictions when back online: the records a delivery was attempted
for, in order, and the manager afterwards. -/
def syncPendingData (deliver : Record → Delivery) (M : Manager) : List Record × Manager :=
  if !M.isOnline then ([], M)
  else
    match getFromIndexedDB M "predictions" with
    | Promised.rejected _ => ([], M)
    | Promised.resolved predictions =>
      let unsynced := predictions.filter (fun p => !truthy (p.get "synced"))
      syncLoop deliver unsynced M

/-- The records of the predictions store of the manager. -/
def predictionsOf (M : Manager) : List Record :=
  match getFromIndexedDB M "predictions" with
  | Promised.resolved records => records
  | Promised.rejected _ => []

/-- The unsynced records of the predictions store. -/
def unsyncedOf (M : Manager) : List Record :=
  (predictionsOf M).filter (fun p => !truthy (p.get "synced"))

/-- The attempts of a flush that stops at the first network failure: the records in
order, up to and including the first whose request fails. -/
def untilFailure (deliver : Record → Delivery) : List Record → List Record
  | [] => []
  | r :: rest =>
    if deliver r = Delivery.failed then [r] else r :: untilFailure deliver rest

/-- The predictions store is in a state the database can be in: every record has a
key below the next key of the generator, and no key occurs twice. -/
def ValidPredictions (M : Manager) : Prop :=
  ∃ db st, M.db = some db ∧ db.stores.lookup "predictions" = some st ∧
    (∀ r ∈ st.records, ∃ k, r.id = some k ∧ k < st.keyGenerator) ∧
    (st.records.map (fun r => r.id)).Nodup

/-- A stored prediction. -/
def storedPrediction (key : Nat) (synced : Bool) : Record :=
  { id := some key
    fields := [("type", Field.str "disease"), ("inputs", Field.str "ph 7.2"),
      ("output", Field.str "LOW"), ("timestamp", Field.str "2024-05-01T10:00:00.000Z"),
      ("synced", Field.bool synced)] }

/-- An online manager whose predictions store holds two unsynced records. -/
def twoPending : Manager :=
  { isOnline := true
    db := some { stores :=
      [("predictions",
        { records := [storedPrediction 1 false, storedPrediction 2 false]
          keyGenerator := 3 })] } }

/-- The network fails for the record of key 1 and the server acknowledges the rest. -/
def firstFails (r : Record) : Delivery :=
  if r.id = some 1 then Delivery.failed else Delivery.acknowledged

/-- The server refuses the record of key 1 and acknowledges the rest. -/
def firstRefused (r : Record) : Delivery :=
  if r.id = some 1 then Delivery.refused else Delivery.acknowledged

/-- The manager has an opened database whose predictions store is `st`. -/
def HasPredictions (M : Manager) (st : ObjectStore) : Prop :=
  ∃ db, M.db = some db ∧ db.stores.lookup "predictions" = some st

/-- A 503 answer of the server. -/
def unavailableResponse : Response := ⟨503, "Service Unavailable", "text/html", Body.text "busy"⟩

/-- A platform that is online and answers with `unavailableResponse`. -/
def serverBusy : Platform :=
  ⟨some unavailableResponse, fun _ => false, fun _ => false, false⟩

/-- The run hands the response to the caller, issues no write, and leaves the
entries of every cache as they were in `s`. -/
def PassesThrough (run : Run) (s : CacheStorage) (r : Response) : Prop :=
  run.result = Settled.fulfilled (some r) ∧ run.writes = [] ∧
    ∀ name, tierOf run.final name = tierOf s name

/-- The listener of the manager for the `online` event: the records a delivery was
attempted for by the flush it starts, the manager, and the page afterwards.  The
toast of `showNotification` is not modelled. -/
def onlineHandler (deliver : Record → Delivery) (M : Manager) (doc : Document) :
    List Record × Manager × Document :=
  let M1 : Manager := { M with isOnline := true }
  let doc1 := updateConnectionBadge M1.isOnline doc
  let r := syncPendingData deliver M1
  (r.1, r.2, doc1)

/-- What the queue may do to a stored record `r`, giving `r'`: the key and every
property but `synced` stay, and `synced` does not go from true to false. -/
def Kept (r r' : Record) : Prop :=
  r'.id = r.id ∧ (∀ name, name ≠ "synced" → r'.get name = r.get name) ∧
    (truthy (r.get "synced") = true → truthy (r'.get "synced") = true)

/-- An offline manager whose predictions store holds a synced record and an unsynced
one. -/
def onePending : Manager :=
  { isOnline := false
    db := some { stores :=
      [("predictions",
        { records := [storedPrediction 1 true, storedPrediction 2 false]
          keyGenerator := 3 })] } }

/-- The object `savePrediction` builds. -/
def pendingRecord (now : String) (type inputs output : Field) : Record :=
  { id := none
    fields := [("type", type), ("inputs", inputs), ("output", output),
      ("timestamp", Field.str now), ("synced", Field.bool false)] }

/-! ## The upgrade of the database and the dataset collections (offline-manager.js) -/

/-- The test `db.objectStoreNames.contains(name)`. -/
def Database.contains (db : Database) (name : String) : Bool :=
  db.stores.any (fun p => p.1 == name)

/-- The call `db.createObjectStore(name, ...)`, made only for a name the database
does not have: a new object store without records, whose key generator starts at 1.
The store `meta` is created without key path and generator; none of the methods
modelled here is called for it, and the model keeps its name. -/
def createObjectStore (db : Database) (name : String) : Database :=
  { db with stores := db.stores ++ [(name, { records := [], keyGenerator := 1 })] }

/-- The handler of `onupgradeneeded` in `openDB`. -/
def onupgradeneeded (db : Database) : Database :=
  -- Create object stores for each dataset
  let db := if !db.contains "disease" then createObjectStore db "disease" else db
  let db := if !db.contains "location" then createObjectStore db "location" else db
  let db := if !db.contains "feed" then createObjectStore db "feed" else db
  let db := if !db.contains "yield" then createObjectStore db "yield" else db
  let db := if !db.contains "buyer" then createObjectStore db "buyer" else db
  let db := if !db.contains "stocking" then createObjectStore db "stocking" else db
  let db := if !db.contains "seed" then createObjectStore db "seed" else db
  let db := if !db.contains "predictions" then createObjectStore db "predictions" else db
  let db := if !db.contains "market" then createObjectStore db "market" else db
  if !db.contains "meta" then createObjectStore db "meta" else db

/-- The ten collections the specification requires. -/
def REQUIRED_STORES : List String :=
  ["disease", "location", "feed", "yield", "buyer", "stocking", "seed", "predictions",
    "market", "meta"]

/-- One guarded creation of the upgrade handler. -/
def createIfMissing (db : Database) (name : String) : Database :=
  if !db.contains name then createObjectStore db name else db

/-- A database of an earlier version: a predictions store with two records and a
store the current version does not use. -/
def olderDatabase : Database :=
  { stores :=
      [("predictions",
        { records := [storedPrediction 1 true, storedPrediction 2 false], keyGenerator := 3 }),
       ("legacy", { records := [storedPrediction 7 true], keyGenerator := 8 })] }

/-- The argument `data` of `saveToIndexedDB`: an array of objects, or one object. -/
inductive Payload where
  | many (items : List Record)
  | one (item : Record)
deriving DecidableEq, Repr

/-- The objects `saveToIndexedDB` adds: the items of `data` when `Array.isArray(data)`,
else `data` itself. -/
def Payload.items : Payload → List Record
  | Payload.many items => items
  | Payload.one item => [item]

/-- The `add` requests of one transaction, in order: `none` when one of them fails,
which aborts the transaction. -/
def addEach : ObjectStore → List Record → Option ObjectStore
  | st, [] => some st
  | st, item :: rest =>
    match storeAdd st item with
    | none => none
    | some st' => addEach st' rest

/-- Save data to IndexedDB.  The `clear` and the `add` requests are one transaction:
the promise resolves when it completes, and a failed `add` aborts it, which takes
back the `clear`, the earlier `add`s and the keys the generator gave out.  `clear`
leaves the key generator as it is. -/
def saveToIndexedDB (M : Manager) (storeName : String) (data : Payload) :
    Promised Unit × Manager :=
  match M.db with
  | none => (Promised.rejected "DB not initialized", M)
  | some db =>
    match db.stores.lookup storeName with
    | none => (Promised.rejected "NotFoundError", M)
    | some st =>
      -- Clear existing data, then add new data
      match addEach { st with records := [] } data.items with
      | none => (Promised.rejected "ConstraintError", M)
      | some st' =>
        (Promised.resolved (), { M with db := some (db.setStore storeName st') })

/-- The stored form `r` of an added object `item`: the same properties, under the key
the object came with, or under a generated key. -/
def StoredAs (item r : Record) : Prop :=
  r.fields = item.fields ∧ r.id.isSome = true ∧ ∀ k, item.id = some k → r.id = some k

/-- A manager whose database was not opened. -/
def unopened : Manager := { isOnline := true, db := none }

/-- A row of the feed dataset. -/
def feedRow (id : Option Nat) (days : Int) : Record :=
  { id := id, fields := [("Age_Days", Field.num days), ("Frequency", Field.str "2 times daily")] }

/-- An opened manager whose feed collection holds two rows. -/
def withFeed : Manager :=
  { isOnline := true
    db := some { stores :=
      [("feed", { records := [feedRow (some 1) 10, feedRow (some 2) 20], keyGenerator := 3 }),
       ("predictions", { records := [storedPrediction 1 false], keyGenerator := 2 })] } }

/-- The manager with the object `this.datasets`, its in-memory datasets by name. -/
structure OfflineManager extends Manager where
  datasets : List (String × Payload)
deriving DecidableEq, Repr

/-- Outcome of the request for one dataset, `/api/dataset/` followed by its name, as
far as `loadDatasets` tells the outcomes apart: a rejected `fetch`; a response that
is not `ok`; an `ok` response whose body `response.json()` cannot read; an `ok`
response with the data. -/
inductive Reply where
  | failed
  | refused
  | garbled
  | data (d : Payload)
deriving DecidableEq, Repr

/-- The write `this.datasets[name] = d`. -/
def assign (datasets : List (String × Payload)) (name : String) (d : Payload) :
    List (String × Payload) :=
  if (datasets.lookup name).isSome then
    datasets.map (fun p => if p.1 == name then (name, d) else p)
  else datasets ++ [(name, d)]

/-- The `catch` of one round of the loop of `loadDatasets`: try to load from
IndexedDB if network fails.  A rejection of the read leaves `loadDatasets`. -/
def loadFromStore (O : OfflineManager) (dataset : String) : Promised Unit × OfflineManager :=
  match getFromIndexedDB O.toManager dataset with
  | Promised.rejected reason => (Promised.rejected reason, O)
  | Promised.resolved cached =>
    -- `if (cached)`: an array is truthy
    (Promised.resolved (), { O with datasets := assign O.datasets dataset (Payload.many cached) })

/-- One round of the loop of `loadDatasets`. -/
def loadOne (reply : String → Reply) (O : OfflineManager) (dataset : String) :
    Promised Unit × OfflineManager :=
  match reply dataset with
  | Reply.failed => loadFromStore O dataset
  | Reply.refused => (Promised.resolved (), O)
  | Reply.garbled => loadFromStore O dataset
  | Reply.data d =>
    match saveToIndexedDB O.toManager dataset d with
    | (Promised.rejected _, M) => loadFromStore { O with toManager := M } dataset
    | (Promised.resolved _, M) =>
      (Promised.resolved (), { toManager := M, datasets := assign O.datasets dataset d })

/-- The loop of `loadDatasets` over the names of the datasets. -/
def loadLoop (reply : String → Reply) :
    List String → OfflineManager → Promised Unit × OfflineManager
  | [], O => (Promised.resolved (), O)
  | dataset :: rest, O =>
    match loadOne reply O dataset with
    | (Promised.rejected reason, O1) => (Promised.rejected reason, O1)
    | (Promised.resolved _, O1) => loadLoop reply rest O1

/-- The names `loadDatasets` goes through. -/
def DATASETS : List String :=
  ["disease", "location", "feed", "yield", "buyer", "stocking", "seed"]

/-- The array `generateMarketData` resolves with.  The prices, which are not whole
numbers, are kept as their decimal text. -/
def generateMarketData : Payload :=
  Payload.many
    [{ id := some 1, fields := [("country", Field.str "Norway"), ("species", Field.str "Salmon"),
        ("price", Field.str "12.5"), ("qty", Field.num 45)] },
     { id := some 2, fields := [("country", Field.str "Vietnam"),
        ("species", Field.str "Vannamei"), ("price", Field.str "6.8"), ("qty", Field.num 120)] },
     { id := some 3, fields := [("country", Field.str "India"),
        ("species", Field.str "Tiger Prawn"), ("price", Field.str "8.2"), ("qty", Field.num 85)] },
     { id := some 4, fields := [("country", Field.str "USA"), ("species", Field.str "Catfish"),
        ("price", Field.str "4.5"), ("qty", Field.num 200)] },
     { id := some 5, fields := [("country", Field.str "Brazil"),
        ("species", Field.str "Tilapia"), ("price", Field.str "3.2"), ("qty", Field.num 300)] },
     { id := some 6, fields := [("country", Field.str "China"),
        ("species", Field.str "Mud Crab"), ("price", Field.str "22.0"), ("qty", Field.num 50)] }]

/-- Load all datasets from server and store in IndexedDB. -/
def loadDatasets (reply : String → Reply) (O : OfflineManager) :
    Promised Unit × OfflineManager :=
  match loadLoop reply DATASETS O with
  | (Promised.rejected reason, O1) => (Promised.rejected reason, O1)
  | (Promised.resolved _, O1) =>
    -- Load market data
    match saveToIndexedDB O1.toManager "market" generateMarketData with
    | (Promised.rejected _, M) => (Promised.resolved (), { O1 with toManager := M })
    | (Promised.resolved _, M) =>
      (Promised.resolved (),
        { toManager := M, datasets := assign O1.datasets "market" generateMarketData })

/-- The database of the manager is opened and has the ten required collections. -/
def Opened (M : Manager) : Prop :=
  ∃ db, M.db = some db ∧ ∀ name ∈ REQUIRED_STORES, (db.stores.lookup name).isSome = true

/-- The fallback to the store for the dataset `name`, from `O` to `O1`: the in-memory
dataset now is the content the collection had, and the collection still has it. -/
def FellBack (name : String) (O O1 : OfflineManager) : Prop :=
  ∃ cached, getFromIndexedDB O.toManager name = Promised.resolved cached ∧
    O1.datasets.lookup name = some (Payload.many cached) ∧
    getFromIndexedDB O1.toManager name = Promised.resolved cached

/-- The dataset `name` is left alone from `O` to `O1`: the in-memory entry and the
content of the collection are as they were. -/
def LeftAlone (name : String) (O O1 : OfflineManager) : Prop :=
  O1.datasets.lookup name = O.datasets.lookup name ∧
    getFromIndexedDB O1.toManager name = getFromIndexedDB O.toManager name

/-- A row of the disease dataset. -/
def diseaseRow : Record :=
  { id := some 1
    fields := [("Water_Temp", Field.num 28), ("Disease_Risk", Field.num 1),
      ("Disease_Type", Field.str "White Spot")] }

/-- A manager at the start of a later visit: the database has the ten collections,
the disease collection holds a row of an earlier visit, and `this.datasets` is the
empty object of the constructor. -/
def laterVisit : OfflineManager :=
  { isOnline := true
    db := some ((onupgradeneeded { stores := [] }).setStore "disease"
      { records := [diseaseRow], keyGenerator := 2 })
    datasets := [] }

/-- The server answers every dataset request with a response that is not `ok`. -/
def allRefused (_ : String) : Reply := Reply.refused

/-- The network fails for every dataset request. -/
def allFailed (_ : String) : Reply := Reply.failed

/-! ## Routing lemmas -/

theorem includes_iff (s sub : String) : includes s sub = true ↔ sub.data <:+: s.data := by
  unfold includes
  rw [List.any_eq_true, List.infix_iff_prefix_suffix]
  constructor
  · rintro ⟨t, ht, hp⟩
    exact ⟨t, List.isPrefixOf_iff_prefix.mp hp, (List.mem_tails _ _).mp ht⟩
  · rintro ⟨t, hp, ht⟩
    exact ⟨t, (List.mem_tails _ _).mpr ht, List.isPrefixOf_iff_prefix.mpr hp⟩

theorem startsWith_static_iff (pathname : String) :
    startsWith pathname "/static/" = true ↔ StartsWithStatic pathname := by
  unfold startsWith StartsWithStatic
  exact List.isPrefixOf_iff_prefix

theorem suffix_map_iff (e l : List Char) :
    e <:+ l.map Char.toLower ↔
      ∃ pre suf : List Char, l = pre ++ suf ∧ suf.map Char.toLower = e := by
  constructor
  · rintro ⟨t, ht⟩
    refine ⟨l.take t.length, l.drop t.length, (List.take_append_drop _ _).symm, ?_⟩
    have h := congrArg (List.drop t.length) ht
    rw [List.drop_left, ← List.map_drop] at h
    exact h.symm
  · rintro ⟨pre, suf, rfl, rfl⟩
    exact ⟨pre.map Char.toLower, by rw [List.map_append]⟩

theorem extensionTest_iff (pathname : String) :
    extensionTest pathname = true ↔ EndsInExtension pathname := by
  unfold extensionTest EndsInExtension
  rw [List.any_eq_true]
  simp only [List.isSuffixOf_iff_suffix, suffix_map_iff]
  simp [staticExtensions, dottedExtensions]

theorem isStaticAsset_iff (pathname : String) :
    isStaticAsset pathname = true ↔ StartsWithStatic pathname ∨ EndsInExtension pathname := by
  unfold isStaticAsset
  rw [Bool.or_eq_true, startsWith_static_iff, extensionTest_iff]

theorem isHTMLPage_iff (request : Request) : isHTMLPage request = true ↔ IsPage request := by
  unfold isHTMLPage IsPage AcceptsHtml
  rw [Bool.or_eq_true, beq_iff_eq]
  cases h : request.accept with
  | none => simp
  | some a => simp [includes_iff]

/-! ## Storage lemmas -/

theorem lookup_cons_of_ne {β : Type} (a k : String) (b : β) (es : List (String × β))
    (h : a ≠ k) : List.lookup a ((k, b) :: es) = List.lookup a es := by
  have hb : (a == k) = false := by simpa using h
  rw [List.lookup_cons, hb]

theorem lookup_cons_of_eq {β : Type} (a : String) (b : β) (es : List (String × β)) :
    List.lookup a ((a, b) :: es) = some b := by
  simp

theorem tierOf_openTier (s : CacheStorage) (name other : String) :
    tierOf (openTier s name) other = tierOf s other := by
  unfold openTier
  split
  · rfl
  · next h =>
    unfold tierOf
    rw [List.lookup_append]
    cases hl : List.lookup other s with
    | some c => simp
    | none =>
      by_cases hn : other = name
      · subst hn; simp
      · rw [lookup_cons_of_ne _ _ _ _ hn]; simp

theorem openTier_of_mem (s : CacheStorage) (name : String) (h : name ∈ keys s) :
    openTier s name = s := by
  unfold openTier
  rw [if_pos]
  rw [List.lookup_isSome_iff]
  unfold keys at h
  obtain ⟨t, ht, rfl⟩ := List.mem_map.mp h
  exact ⟨t, ht, by simp⟩

theorem mem_keys_openTier (s : CacheStorage) (name : String) : name ∈ keys (openTier s name) := by
  unfold openTier
  split
  · next h =>
    obtain ⟨t, ht, hk⟩ := List.lookup_isSome_iff.mp h
    have : name = t.1 := by simpa using hk
    unfold keys
    exact List.mem_map.mpr ⟨t, ht, this.symm⟩
  · simp [keys]

theorem matchEntry_putEntry_self (c : Cache) (url : String) (r : Response) :
    matchEntry (putEntry c url r) url = some r := by
  unfold matchEntry putEntry
  rw [List.lookup_append]
  have h : List.lookup url (c.filter (fun e => e.1 != url)) = none := by
    rw [List.lookup_eq_none_iff]
    intro e he
    have hne : e.1 ≠ url := by simpa using (List.mem_filter.mp he).2
    simpa using fun heq : url = e.1 => hne heq.symm
  rw [h]
  simp

theorem tierOf_putIn_self (s : CacheStorage) (name url : String) (r : Response)
    (h : name ∈ keys s) :
    tierOf (putIn s name url r) name = putEntry (tierOf s name) url r := by
  induction s with
  | nil => simp [keys] at h
  | cons t rest ih =>
    obtain ⟨n, c⟩ := t
    by_cases hn : n = name
    · subst hn
      simp [putIn, tierOf]
    · have hmem : name ∈ keys rest := by
        simp only [keys, List.map_cons, List.mem_cons] at h
        rcases h with h | h
        · exact absurd h.symm hn
        · exact h
      have hn2 : ¬ name = n := fun e => hn e.symm
      have := ih hmem
      simp only [tierOf, putIn] at this ⊢
      rw [List.map_cons, if_neg (by simpa using hn), lookup_cons_of_ne _ _ _ _ hn2,
        lookup_cons_of_ne _ _ _ _ hn2]
      exact this

/-! ## Routing -/

/-- C1: for a same-origin GET request the listener responds with `cacheFirst` whenever
the path starts with `/static/` or ends, case-insensitively, in a listed extension,
whatever the accept header and the mode; with `cacheFirstWithUpdate` exactly when the
path is not static and the request is a page; with `networkFirst` in every other
case. -/
theorem fetchListener_precedence (selfOrigin : String) (request : Request)
    (hget : request.method = "GET") (hsame : request.origin = selfOrigin) :
    ((StartsWithStatic request.pathname ∨ EndsInExtension request.pathname) →
        fetchListener selfOrigin request = some Strategy.cacheFirst) ∧
    (fetchListener selfOrigin request = some Strategy.cacheFirstWithUpdate ↔
        ¬ (StartsWithStatic request.pathname ∨ EndsInExtension request.pathname) ∧
          IsPage request) ∧
    (¬ (StartsWithStatic request.pathname ∨ EndsInExtension request.pathname) →
        ¬ IsPage request → fetchListener selfOrigin request = some Strategy.networkFirst) ∧
    (∀ (P : Platform) (s : CacheStorage),
        (StartsWithStatic request.pathname ∨ EndsInExtension request.pathname) →
        onFetch selfOrigin P s request = some (cacheFirst P s request)) := by
  have hm : (request.method != "GET") = false := by simp [hget]
  have ho : (request.origin != selfOrigin) = false := by simp [hsame]
  have hroute : fetchListener selfOrigin request =
      if isStaticAsset request.pathname then some Strategy.cacheFirst
      else if isHTMLPage request then some Strategy.cacheFirstWithUpdate
      else some Strategy.networkFirst := by
    unfold fetchListener
    simp [hm, ho]
  rw [← isStaticAsset_iff, ← isHTMLPage_iff]
  refine ⟨?_, ?_, ?_, ?_⟩
  · intro h
    rw [hroute, if_pos h]
  · rw [hroute]
    by_cases hs : isStaticAsset request.pathname = true
    · simp [hs]
    · by_cases hp : isHTMLPage request = true
      · simp [hs, hp]
      · simp [hs, hp]
  · intro hs hp
    rw [hroute, if_neg hs, if_neg hp]
  · intro P s h
    unfold onFetch
    rw [hroute, if_pos h]
    rfl

/-- Witness of C1: a navigation that accepts HTML, to a path under `/static/`, is
answered by `cacheFirst`. -/
theorem fetchListener_precedence_witness :
    IsPage staticPageRequest ∧
      fetchListener appOrigin staticPageRequest = some Strategy.cacheFirst :=
  ⟨Or.inr rfl,
    (fetchListener_precedence appOrigin staticPageRequest rfl rfl).1
      (Or.inl ((startsWith_static_iff _).mp (by decide)))⟩

/-- C7: a request whose method is not GET is not responded to, whatever its URL,
origin, accept header and mode: no strategy is chosen and none runs on the storage. -/
theorem fetchListener_non_get (selfOrigin : String) (P : Platform) (s : CacheStorage)
    (request : Request) (hmethod : request.method ≠ "GET") :
    fetchListener selfOrigin request = none ∧ onFetch selfOrigin P s request = none := by
  have hm : (request.method != "GET") = true := by simpa using hmethod
  have h : fetchListener selfOrigin request = none := by
    unfold fetchListener
    rw [if_pos hm]
  exact ⟨h, by unfold onFetch; rw [h]; rfl⟩

/-- Witness of C7: a POST navigation is passed through. -/
theorem fetchListener_non_get_witness :
    fetchListener appOrigin postRequest = none ∧
      onFetch appOrigin online warmStorage postRequest = none :=
  fetchListener_non_get appOrigin online warmStorage postRequest (by decide)

/-- What `isAllowedExternal` decides: some allowed name occurs inside the host name. -/
theorem isAllowedExternal_iff (hostname : String) :
    isAllowedExternal hostname = true ↔ ∃ d ∈ allowed, d.data <:+: hostname.data := by
  unfold isAllowedExternal
  rw [List.any_eq_true]
  simp only [includes_iff]

/-- A cross-origin GET request is handed to `cacheFirstExternal` when an allowed name
occurs inside its host name, and is not responded to otherwise. -/
theorem fetchListener_cross_origin (selfOrigin : String) (request : Request)
    (hget : request.method = "GET") (hcross : request.origin ≠ selfOrigin) :
    fetchListener selfOrigin request =
      if isAllowedExternal request.hostname then some Strategy.cacheFirstExternal
      else none := by
  have hm : (request.method != "GET") = false := by simp [hget]
  have ho : (request.origin != selfOrigin) = true := by simpa using hcross
  unfold fetchListener
  simp [hm, ho]

/-- C8, evaluated on the code: a cross-origin GET request to the host
`unpkg.com.attacker.example`, which is none of the four allowed hosts, is handed to
`cacheFirstExternal`, because `isAllowedExternal` tests `hostname.includes(domain)`. -/
theorem fetchListener_lookalike_host :
    lookalikeRequest.method = "GET" ∧ lookalikeRequest.origin ≠ appOrigin ∧
      lookalikeRequest.hostname ∉ allowed ∧
      fetchListener appOrigin lookalikeRequest = some Strategy.cacheFirstExternal := by
  decide

/-! ## The cache-first strategies -/

/-- The promise `cache.match(request)` is truthy, so the right operand of `||` is
never taken. -/
theorem or_promise (p : Settled) (v : JSVal) :
    asyncReturn (JSVal.or (JSVal.promise p) v) = p := rfl

theorem cacheFirstCatch_result (P : Platform) (s : CacheStorage) (request : Request)
    (hopen : P.openFails STATIC_CACHE = false) (hmatch : P.matchFails STATIC_CACHE = false) :
    (cacheFirstCatch P s request).result =
      Settled.fulfilled (matchEntry (tierOf s STATIC_CACHE) request.url) := by
  simp [cacheFirstCatch, cachesOpen, cacheMatch, hopen, hmatch, or_promise, tierOf_openTier]

/-- On a miss in the static tier and a failed fetch, `cacheFirst` is fulfilled with
`undefined`. -/
theorem cacheFirst_miss_offline (P : Platform) (s : CacheStorage) (request : Request)
    (hopen : P.openFails STATIC_CACHE = false) (hmatch : P.matchFails STATIC_CACHE = false)
    (hmiss : NoEntry s STATIC_CACHE request) (hfetch : P.fetch = none) :
    (cacheFirst P s request).result = Settled.fulfilled none := by
  unfold NoEntry at hmiss
  have hc := cacheFirstCatch_result P (openTier s STATIC_CACHE) request hopen hmatch
  rw [tierOf_openTier, hmiss] at hc
  simp [cacheFirst, cachesOpen, cacheMatch, hopen, hmatch, tierOf_openTier, hmiss, hfetch, hc]

/-- C2, evaluated on the code: with an empty static tier and a failed fetch,
`cacheFirst` is fulfilled with `undefined`, not with `offlineResponse()`. -/
theorem cacheFirst_offline_miss_undefined :
    NoEntry [] STATIC_CACHE styleRequest ∧ offline.fetch = none ∧
      fetchListener appOrigin styleRequest = some Strategy.cacheFirst ∧
      (cacheFirst offline [] styleRequest).result = Settled.fulfilled none ∧
      (cacheFirst offline [] styleRequest).result ≠
        Settled.fulfilled (some offlineResponse) := by
  decide

theorem cacheFirstExternalCatch_result (P : Platform) (s : CacheStorage) (request : Request)
    (hopen : P.openFails STATIC_CACHE = false) (hmatch : P.matchFails STATIC_CACHE = false) :
    (cacheFirstExternalCatch P s request).result =
      Settled.fulfilled (matchEntry (tierOf s STATIC_CACHE) request.url) := by
  simp [cacheFirstExternalCatch, cachesOpen, cacheMatch, hopen, hmatch, or_promise,
    tierOf_openTier]

/-- On a miss in the static tier and a failed fetch, `cacheFirstExternal` is fulfilled
with `undefined`. -/
theorem cacheFirstExternal_miss_offline (P : Platform) (s : CacheStorage) (request : Request)
    (hopen : P.openFails STATIC_CACHE = false) (hmatch : P.matchFails STATIC_CACHE = false)
    (hmiss : NoEntry s STATIC_CACHE request) (hfetch : P.fetch = none) :
    (cacheFirstExternal P s request).result = Settled.fulfilled none := by
  unfold NoEntry at hmiss
  have hc := cacheFirstExternalCatch_result P (openTier s STATIC_CACHE) request hopen hmatch
  rw [tierOf_openTier, hmiss] at hc
  simp [cacheFirstExternal, cachesOpen, cacheMatch, hopen, hmatch, tierOf_openTier, hmiss,
    hfetch, hc]

/-- C9, evaluated on the code: with an empty static tier and a failed fetch,
`cacheFirstExternal` is fulfilled with `undefined`, not with the empty 503 response. -/
theorem cacheFirstExternal_offline_miss_undefined :
    NoEntry [] STATIC_CACHE fontRequest ∧ offline.fetch = none ∧
      fetchListener appOrigin fontRequest = some Strategy.cacheFirstExternal ∧
      (cacheFirstExternal offline [] fontRequest).result = Settled.fulfilled none ∧
      (cacheFirstExternal offline [] fontRequest).result ≠
        Settled.fulfilled (some emptyResponse) := by
  decide

/-- A hit in the static tier is returned by `cacheFirst`, whatever the fetch would do. -/
theorem cacheFirst_hit (P : Platform) (s : CacheStorage) (request : Request) (c : Response)
    (hopen : P.openFails STATIC_CACHE = false) (hmatch : P.matchFails STATIC_CACHE = false)
    (hhit : matchEntry (tierOf s STATIC_CACHE) request.url = some c) :
    (cacheFirst P s request).result = Settled.fulfilled (some c) := by
  simp [cacheFirst, cachesOpen, cacheMatch, hopen, hmatch, tierOf_openTier, hhit]

/-- On a miss in the static tier and a completed fetch, `cacheFirst` returns the
fetched response and issues a write exactly when it is a 2xx response. -/
theorem cacheFirst_miss_fetched (P : Platform) (s : CacheStorage) (request : Request)
    (r : Response)
    (hopen : P.openFails STATIC_CACHE = false) (hmatch : P.matchFails STATIC_CACHE = false)
    (hmiss : NoEntry s STATIC_CACHE request) (hfetch : P.fetch = some r) :
    cacheFirst P s request =
      ⟨Settled.fulfilled (some r), openTier s STATIC_CACHE,
        if r.ok then [⟨STATIC_CACHE, request.url, r⟩] else []⟩ := by
  unfold NoEntry at hmiss
  simp [cacheFirst, cachesOpen, cacheMatch, hopen, hmatch, tierOf_openTier, hmiss, hfetch]

/-- C10: for a static request with no entry in the static tier, if `cacheFirst` fetches
a 2xx response `r` and its write is applied, a second `cacheFirst` call for the same
request returns `r` for every outcome of the second fetch, a failure included. -/
theorem cacheFirst_then_offline (P P2 : Platform) (s : CacheStorage) (request : Request)
    (r : Response)
    (hopen : P.openFails STATIC_CACHE = false) (hmatch : P.matchFails STATIC_CACHE = false)
    (hopen2 : P2.openFails STATIC_CACHE = false)
    (hmatch2 : P2.matchFails STATIC_CACHE = false)
    (hmiss : NoEntry s STATIC_CACHE request) (hfetch : P.fetch = some r)
    (hok : r.ok = true) :
    (cacheFirst P s request).result = Settled.fulfilled (some r) ∧
      (cacheFirst P s request).writes = [⟨STATIC_CACHE, request.url, r⟩] ∧
      (cacheFirst P2 (cacheFirst P s request).final request).result =
        Settled.fulfilled (some r) := by
  have h1 := cacheFirst_miss_fetched P s request r hopen hmatch hmiss hfetch
  rw [if_pos hok] at h1
  refine ⟨by rw [h1], by rw [h1], ?_⟩
  apply cacheFirst_hit P2 _ request r hopen2 hmatch2
  rw [h1]
  simp only [Run.final, applyWrites, List.foldl_cons, List.foldl_nil]
  rw [tierOf_putIn_self _ _ _ _ (mem_keys_openTier s STATIC_CACHE), matchEntry_putEntry_self]

/-- Witness of C10: the style sheet fetched online into an empty storage is served
from the static tier when the platform is offline. -/
theorem cacheFirst_then_offline_witness :
    offline.fetch = none ∧
      (cacheFirst offline (cacheFirst online [] styleRequest).final styleRequest).result =
        Settled.fulfilled (some okResponse) :=
  ⟨rfl, (cacheFirst_then_offline online offline [] styleRequest okResponse rfl rfl rfl rfl
    (by decide) rfl (by decide)).2.2⟩

/-! ## Cache first with background update -/

/-- A hit in the pages tier is returned by `cacheFirstWithUpdate`. -/
theorem cacheFirstWithUpdate_hit_result (P : Platform) (s : CacheStorage)
    (request : Request) (c : Response)
    (hopen : P.openFails PAGES_CACHE = false) (hmatch : P.matchFails PAGES_CACHE = false)
    (hhit : matchEntry (tierOf s PAGES_CACHE) request.url = some c) :
    (cacheFirstWithUpdate P s request).result = Settled.fulfilled (some c) := by
  simp [cacheFirstWithUpdate, cachesOpen, cacheMatch, hopen, hmatch, tierOf_openTier, hhit]

/-- C4 fails as stated: the pages tier holds an entry for the market page, the fetch
returns a 206 response, which is a 2xx response, and `cacheFirstWithUpdate` issues the
`cache.put` of it; the platform rejects that `put`, and afterwards the entry is the
old one, not the fetched response. -/
theorem cacheFirstWithUpdate_partial_not_stored :
    matchEntry (tierOf warmStorage PAGES_CACHE) marketRequest.url =
        some ⟨200, "OK", "text/html", Body.text "old"⟩ ∧
      servesPartial.fetch = some partialResponse ∧
      partialResponse.ok = true ∧
      (cacheFirstWithUpdate servesPartial warmStorage marketRequest).writes =
        [⟨PAGES_CACHE, marketRequest.url, partialResponse⟩] ∧
      putCompletes ⟨PAGES_CACHE, marketRequest.url, partialResponse⟩ = false ∧
      matchEntry (tierOf ((cacheFirstWithUpdate servesPartial warmStorage marketRequest).settled
        putCompletes) PAGES_CACHE) marketRequest.url =
        some ⟨200, "OK", "text/html", Body.text "old"⟩ := by
  decide

/-- C4, amended: when the pages tier holds an entry `c` for the request,
`cacheFirstWithUpdate` returns `c` for every outcome of the fetch; it issues the
`cache.put` of the fetched response exactly when that is a 2xx response; and once the
background update has settled the pages tier holds the fetched response if it was a
2xx response and its `cache.put` completed, and still `c` otherwise: after a response
that is not 2xx, after a failed fetch, and after a `put` the platform rejected. -/
theorem cacheFirstWithUpdate_hit (P : Platform) (s : CacheStorage) (request : Request)
    (c : Response) (completes : Write → Bool)
    (hopen : P.openFails PAGES_CACHE = false) (hmatch : P.matchFails PAGES_CACHE = false)
    (hhit : matchEntry (tierOf s PAGES_CACHE) request.url = some c) :
    (cacheFirstWithUpdate P s request).result = Settled.fulfilled (some c) ∧
      (cacheFirstWithUpdate P s request).writes =
        (match P.fetch with
          | some r => if r.ok then [⟨PAGES_CACHE, request.url, r⟩] else []
          | none => []) ∧
      matchEntry (tierOf ((cacheFirstWithUpdate P s request).settled completes) PAGES_CACHE)
          request.url =
        some (match P.fetch with
          | some r => if r.ok && completes ⟨PAGES_CACHE, request.url, r⟩ then r else c
          | none => c) := by
  have hrun : cacheFirstWithUpdate P s request =
      ⟨Settled.fulfilled (some c), openTier s PAGES_CACHE,
        match P.fetch with
        | some response =>
          if response.ok then [⟨PAGES_CACHE, request.url, response⟩] else []
        | none => []⟩ := by
    simp [cacheFirstWithUpdate, cachesOpen, cacheMatch, hopen, hmatch, tierOf_openTier, hhit]
  rw [hrun]
  refine ⟨rfl, rfl, ?_⟩
  cases hf : P.fetch with
  | none => simp [Run.settled, settleWrites, tierOf_openTier, hhit]
  | some r =>
    by_cases hok : r.ok = true
    · by_cases hput : completes ⟨PAGES_CACHE, request.url, r⟩ = true
      · simp only [Run.settled, settleWrites, hok, hput, Bool.and_self, if_true,
          List.foldl_cons, List.foldl_nil]
        rw [tierOf_putIn_self _ _ _ _ (mem_keys_openTier s PAGES_CACHE),
          matchEntry_putEntry_self]
      · simp [Run.settled, settleWrites, hok, hput, tierOf_openTier, hhit]
    · simp [Run.settled, settleWrites, hok, tierOf_openTier, hhit]

/-- Witness of C4, amended: the cached market page is returned while online, and the
pages tier then holds the fresh response, whose `put` the platform completes. -/
theorem cacheFirstWithUpdate_hit_witness :
    (cacheFirstWithUpdate online warmStorage marketRequest).result =
        Settled.fulfilled (some ⟨200, "OK", "text/html", Body.text "old"⟩) ∧
      matchEntry (tierOf ((cacheFirstWithUpdate online warmStorage marketRequest).settled
        putCompletes) PAGES_CACHE) marketRequest.url = some okResponse :=
  ⟨(cacheFirstWithUpdate_hit online warmStorage marketRequest
      ⟨200, "OK", "text/html", Body.text "old"⟩ putCompletes rfl rfl (by decide)).1,
    (cacheFirstWithUpdate_hit online warmStorage marketRequest
      ⟨200, "OK", "text/html", Body.text "old"⟩ putCompletes rfl rfl (by decide)).2.2⟩

/-- C5: when the pages tier holds no entry for the request, `cacheFirstWithUpdate`
returns the fetched response if the fetch completes, and the offline page, of status
503 and content type text/html, if the fetch fails. -/
theorem cacheFirstWithUpdate_miss (P : Platform) (s : CacheStorage) (request : Request)
    (hopen : P.openFails PAGES_CACHE = false) (hmatch : P.matchFails PAGES_CACHE = false)
    (hmiss : NoEntry s PAGES_CACHE request) :
    (∀ r, P.fetch = some r →
        (cacheFirstWithUpdate P s request).result = Settled.fulfilled (some r)) ∧
      (P.fetch = none →
        (cacheFirstWithUpdate P s request).result = Settled.fulfilled (some offlinePage)) ∧
      offlinePage.status = 503 ∧ offlinePage.contentType = "text/html" := by
  unfold NoEntry at hmiss
  refine ⟨?_, ?_, rfl, rfl⟩
  · intro r hf
    simp [cacheFirstWithUpdate, cachesOpen, cacheMatch, hopen, hmatch, tierOf_openTier,
      hmiss, hf]
  · intro hf
    simp [cacheFirstWithUpdate, cachesOpen, cacheMatch, hopen, hmatch, tierOf_openTier,
      hmiss, hf]

/-- Witness of C5: offline and with an empty storage, the market page request gets
the offline page. -/
theorem cacheFirstWithUpdate_miss_witness :
    (cacheFirstWithUpdate offline [] marketRequest).result =
      Settled.fulfilled (some offlinePage) :=
  (cacheFirstWithUpdate_miss offline [] marketRequest rfl rfl (by decide)).2.1 rfl

/-! ## Network first -/

theorem findSome_congr {α β : Type} (f g : α → Option β) (l : List α)
    (h : ∀ x ∈ l, f x = g x) : l.findSome? f = l.findSome? g := by
  induction l with
  | nil => rfl
  | cons a rest ih =>
    rw [List.findSome?_cons, List.findSome?_cons, h a (List.mem_cons_self _ _),
      ih (fun x hx => h x (List.mem_cons_of_mem _ hx))]

/-- With unique names, going through the names and opening each cache meets the same
first entry as going through the stored tiers. -/
theorem findSome_keys (s : CacheStorage) (url : String) (hnd : (keys s).Nodup) :
    (keys s).findSome? (fun n => matchEntry (tierOf s n) url) =
      s.findSome? (fun t => matchEntry t.2 url) := by
  induction s with
  | nil => rfl
  | cons t rest ih =>
    obtain ⟨n, c⟩ := t
    have hnd2 : n ∉ keys rest ∧ (keys rest).Nodup := by
      simpa [keys] using hnd
    have hhead : tierOf ((n, c) :: rest) n = c := by simp [tierOf]
    have htail : ∀ x ∈ keys rest,
        matchEntry (tierOf ((n, c) :: rest) x) url = matchEntry (tierOf rest x) url := by
      intro x hx
      have hne : x ≠ n := fun e => hnd2.1 (e ▸ hx)
      simp only [tierOf]
      rw [lookup_cons_of_ne _ _ _ _ hne]
    show (n :: keys rest).findSome? _ = _
    rw [List.findSome?_cons, List.findSome?_cons, hhead, findSome_congr _ _ _ htail,
      ih hnd2.2]

/-- The loop of `networkFirst` when no cache operation fails and every name is
stored: the first entry met, else `offlineResponse()`; the storage is unchanged. -/
theorem scanCaches_eq (P : Platform) (request : Request) (hops : P.cacheOpsSucceed)
    (s : CacheStorage) (names : List String) (hsub : ∀ n ∈ names, n ∈ keys s) :
    scanCaches P request s names =
      ⟨Settled.fulfilled (some ((names.findSome?
          (fun n => matchEntry (tierOf s n) request.url)).getD offlineResponse)), s, []⟩ := by
  induction names with
  | nil => rfl
  | cons n rest ih =>
    have hn : openTier s n = s := openTier_of_mem s n (hsub n (List.mem_cons_self _ _))
    have ih2 := ih (fun x hx => hsub x (List.mem_cons_of_mem _ hx))
    rw [scanCaches]
    simp only [cachesOpen, cacheMatch, hops.1 n, hops.2.1 n, hn]
    cases hm : matchEntry (tierOf s n) request.url with
    | some m => simp [List.findSome?_cons, hm]
    | none => simp [List.findSome?_cons, hm, ih2]

/-- The names listed after `caches.open(RUNTIME_CACHE)` lead to the same first entry
as the names listed before, when the runtime tier has no entry. -/
theorem findSome_keys_openTier (s : CacheStorage) (request : Request)
    (hmiss : matchEntry (tierOf s RUNTIME_CACHE) request.url = none) :
    (keys (openTier s RUNTIME_CACHE)).findSome?
        (fun n => matchEntry (tierOf s n) request.url) =
      (keys s).findSome? (fun n => matchEntry (tierOf s n) request.url) := by
  unfold openTier
  split
  · rfl
  · simp [keys, List.findSome?_append, List.findSome?_cons, hmiss]

/-- Result of `networkFirst` when the fetch fails and no cache operation does. -/
theorem networkFirst_offline_result (P : Platform) (s : CacheStorage) (request : Request)
    (hops : P.cacheOpsSucceed) (hfetch : P.fetch = none) :
    (networkFirst P s request).result =
      Settled.fulfilled (some
        (match matchEntry (tierOf s RUNTIME_CACHE) request.url with
          | some c => c
          | none => ((keys s).findSome?
              (fun n => matchEntry (tierOf s n) request.url)).getD offlineResponse)) := by
  have hscan := scanCaches_eq P request hops (openTier s RUNTIME_CACHE)
    (keys (openTier s RUNTIME_CACHE)) (fun n hn => hn)
  simp only [tierOf_openTier] at hscan
  cases hm : matchEntry (tierOf s RUNTIME_CACHE) request.url with
  | some c =>
    simp [networkFirst, networkFirstCatch, cachesOpen, cacheMatch, hfetch, hops.1, hops.2.1,
      tierOf_openTier, hm]
  | none =>
    rw [findSome_keys_openTier s request hm] at hscan
    simp [networkFirst, networkFirstCatch, cachesOpen, cacheMatch, hfetch, hops.1, hops.2.1,
      hops.2.2, tierOf_openTier, hm, hscan]

theorem mem_of_matchEntry (c : Cache) (url : String) (r : Response)
    (h : matchEntry c url = some r) : (url, r) ∈ c := by
  unfold matchEntry at h
  obtain ⟨l₁, l₂, rfl, _⟩ := List.lookup_eq_some_iff.mp h
  simp

theorem offlineResponse_not_ok : offlineResponse.ok = false := by decide

theorem mem_of_tierOf (s : CacheStorage) (name : String) (e : String × Response)
    (h : e ∈ tierOf s name) : ∃ t ∈ s, e ∈ t.2 := by
  unfold tierOf at h
  cases hl : List.lookup name s with
  | none => simp [hl] at h
  | some c =>
    obtain ⟨l₁, l₂, rfl, _⟩ := List.lookup_eq_some_iff.mp hl
    refine ⟨(name, c), by simp, ?_⟩
    simpa [hl] using h

theorem tierOf_no_entry (s : CacheStorage) (name url : String)
    (h : ∀ t ∈ s, matchEntry t.2 url = none) : matchEntry (tierOf s name) url = none := by
  unfold tierOf
  cases hl : List.lookup name s with
  | none => rfl
  | some c =>
    obtain ⟨l₁, l₂, rfl, _⟩ := List.lookup_eq_some_iff.mp hl
    exact h (name, c) (by simp)

/-- C3: when the fetch fails (and the cache operations work, on a storage whose names
are distinct), `networkFirst` returns the runtime-tier entry if there is one, otherwise
the first entry met when the stored tiers are gone through in enumeration order, and
`offlineResponse()` when no stored tier holds an entry; on a storage that holds 2xx
responses only, it returns `offlineResponse()` only then.  That payload has status 503
and a body with error `Offline` and offline `true`. -/
theorem networkFirst_offline (P : Platform) (s : CacheStorage) (request : Request)
    (hops : P.cacheOpsSucceed) (hfetch : P.fetch = none) (hnd : (keys s).Nodup) :
    (∀ c, matchEntry (tierOf s RUNTIME_CACHE) request.url = some c →
        (networkFirst P s request).result = Settled.fulfilled (some c)) ∧
      (NoEntry s RUNTIME_CACHE request → ∀ m, firstMatch s request = some m →
        (networkFirst P s request).result = Settled.fulfilled (some m)) ∧
      ((∀ t ∈ s, matchEntry t.2 request.url = none) →
        (networkFirst P s request).result = Settled.fulfilled (some offlineResponse)) ∧
      (StoredOk s →
        (networkFirst P s request).result = Settled.fulfilled (some offlineResponse) →
        ∀ t ∈ s, matchEntry t.2 request.url = none) ∧
      offlineResponse.status = 503 ∧
      offlineResponse.body = Body.json
        [("error", JsonValue.str "Offline"),
         ("message", JsonValue.str "No internet connection and resource not cached"),
         ("offline", JsonValue.bool true)] := by
  have hres := networkFirst_offline_result P s request hops hfetch
  rw [findSome_keys s request.url hnd] at hres
  refine ⟨?_, ?_, ?_, ?_, rfl, rfl⟩
  · intro c hc
    rw [hres, hc]
  · intro hmiss m hm
    unfold NoEntry at hmiss
    unfold firstMatch at hm
    rw [hres, hmiss, hm]
    rfl
  · intro hnone
    have h1 := tierOf_no_entry s RUNTIME_CACHE request.url hnone
    have h2 : s.findSome? (fun t => matchEntry t.2 request.url) = none :=
      List.findSome?_eq_none_iff.mpr hnone
    rw [hres, h1, h2]
    rfl
  · intro hok hoff
    rw [hres] at hoff
    cases hm : matchEntry (tierOf s RUNTIME_CACHE) request.url with
    | some c =>
      rw [hm] at hoff
      have hc : c = offlineResponse := by simpa using hoff
      obtain ⟨t, ht, he⟩ := mem_of_tierOf s RUNTIME_CACHE _ (mem_of_matchEntry _ _ _ hm)
      have hcok : c.ok = true := hok t ht _ he
      rw [hc, offlineResponse_not_ok] at hcok
      exact absurd hcok (by decide)
    | none =>
      rw [hm] at hoff
      cases hf : s.findSome? (fun t => matchEntry t.2 request.url) with
      | none => exact List.findSome?_eq_none_iff.mp hf
      | some m =>
        rw [hf] at hoff
        have hc : m = offlineResponse := by simpa using hoff
        obtain ⟨t, ht, he⟩ := List.exists_of_findSome?_eq_some hf
        have hmok : m.ok = true := hok t ht _ (mem_of_matchEntry _ _ _ he)
        rw [hc, offlineResponse_not_ok] at hmok
        exact absurd hmok (by decide)

/-- Witness of C3: offline, the dataset request is answered from the tier of an
older generation that still holds it. -/
theorem networkFirst_offline_witness :
    NoEntry staleStorage RUNTIME_CACHE apiRequest ∧
      (networkFirst offline staleStorage apiRequest).result =
        Settled.fulfilled (some okResponse) :=
  ⟨by decide,
    (networkFirst_offline offline staleStorage apiRequest ⟨fun _ => rfl, fun _ => rfl, rfl⟩
      rfl (by decide)).2.1 (by decide) okResponse (by decide)⟩

/-! ## Completion of the strategies -/

/-- C6 fails as stated: when `caches.open` rejects (and the fetch fails), each of the
four strategies rejects. -/
theorem strategies_reject_storage_down :
    storageDown.openFails PAGES_CACHE = true ∧
      (cacheFirst storageDown [] styleRequest).result = Settled.rejected ∧
      (cacheFirstWithUpdate storageDown [] marketRequest).result = Settled.rejected ∧
      (networkFirst storageDown [] apiRequest).result = Settled.rejected ∧
      (cacheFirstExternal storageDown [] fontRequest).result = Settled.rejected := by
  decide

/-- C6, amended: when no cache operation fails, every strategy completes without
rejecting, for every request and every outcome of the fetch; `cacheFirstWithUpdate`
and `networkFirst` complete with a response, and so do `cacheFirst` and
`cacheFirstExternal` when the static tier holds an entry or the fetch completes. -/
theorem strategies_complete (st : Strategy) (P : Platform) (s : CacheStorage)
    (request : Request) (hops : P.cacheOpsSucceed) :
    (st.run P s request).result ≠ Settled.rejected ∧
      ((st = Strategy.cacheFirstWithUpdate ∨ st = Strategy.networkFirst) →
        ∃ r, (st.run P s request).result = Settled.fulfilled (some r)) ∧
      ((st = Strategy.cacheFirst ∨ st = Strategy.cacheFirstExternal) →
        (matchEntry (tierOf s STATIC_CACHE) request.url ≠ none ∨ P.fetch ≠ none) →
        ∃ r, (st.run P s request).result = Settled.fulfilled (some r)) := by
  obtain ⟨hopen, hmatch, hkeys⟩ := hops
  have hops : P.cacheOpsSucceed := ⟨hopen, hmatch, hkeys⟩
  cases st with
  | cacheFirst =>
    simp only [Strategy.run]
    cases hm : matchEntry (tierOf s STATIC_CACHE) request.url with
    | some c =>
      simp [cacheFirst_hit P s request c (hopen _) (hmatch _) hm]
    | none =>
      cases hf : P.fetch with
      | none => simp [cacheFirst_miss_offline P s request (hopen _) (hmatch _) hm hf]
      | some r => simp [cacheFirst_miss_fetched P s request r (hopen _) (hmatch _) hm hf]
  | cacheFirstExternal =>
    simp only [Strategy.run]
    cases hm : matchEntry (tierOf s STATIC_CACHE) request.url with
    | some c =>
      simp [cacheFirstExternal, cachesOpen, cacheMatch, hopen, hmatch, tierOf_openTier, hm]
    | none =>
      cases hf : P.fetch with
      | none => simp [cacheFirstExternal_miss_offline P s request (hopen _) (hmatch _) hm hf]
      | some r =>
        simp [cacheFirstExternal, cachesOpen, cacheMatch, hopen, hmatch, tierOf_openTier,
          hm, hf]
  | cacheFirstWithUpdate =>
    simp only [Strategy.run]
    cases hm : matchEntry (tierOf s PAGES_CACHE) request.url with
    | some c =>
      simp [(cacheFirstWithUpdate_hit_result P s request c (hopen _) (hmatch _) hm)]
    | none =>
      cases hf : P.fetch with
      | none =>
        simp [cacheFirstWithUpdate, cachesOpen, cacheMatch, hopen, hmatch, tierOf_openTier,
          hm, hf]
      | some r =>
        simp [cacheFirstWithUpdate, cachesOpen, cacheMatch, hopen, hmatch, tierOf_openTier,
          hm, hf]
  | networkFirst =>
    simp only [Strategy.run]
    cases hf : P.fetch with
    | none => simp [networkFirst_offline_result P s request hops hf]
    | some r =>
      by_cases hok : r.ok = true
      · simp [networkFirst, cachesOpen, hopen, hf, hok]
      · simp [networkFirst, cachesOpen, hopen, hf, hok]

/-- Witness of C6, amended: offline and with working storage, `networkFirst` completes
with a response. -/
theorem strategies_complete_witness :
    ∃ r, (Strategy.networkFirst.run offline [] apiRequest).result =
      Settled.fulfilled (some r) :=
  (strategies_complete Strategy.networkFirst offline [] apiRequest
    ⟨fun _ => rfl, fun _ => rfl, rfl⟩).2.1 (Or.inr rfl)

/-! ## The activate step -/

theorem startsWith_version_iff (name : String) :
    startsWith name CACHE_VERSION = true ↔ StartsWithVersion name := by
  unfold startsWith StartsWithVersion
  exact List.isPrefixOf_iff_prefix

theorem mem_staleNames (cacheNames : List String) (name : String) :
    name ∈ staleNames cacheNames ↔ name ∈ cacheNames ∧ ¬ StartsWithVersion name := by
  unfold staleNames
  rw [List.mem_filter, ← startsWith_version_iff]
  simp

theorem keys_cachesDelete (s : CacheStorage) (name : String) :
    keys (cachesDelete s name) = (keys s).filter (fun n => n != name) := by
  unfold keys cachesDelete
  induction s with
  | nil => rfl
  | cons t rest ih =>
    by_cases h : t.1 = name
    · simp [List.filter_cons, h, ih]
    · simp [List.filter_cons, h, ih]

theorem lookup_cachesDelete (s : CacheStorage) (name other : String) (h : other ≠ name) :
    List.lookup other (cachesDelete s name) = List.lookup other s := by
  unfold cachesDelete
  induction s with
  | nil => rfl
  | cons t rest ih =>
    obtain ⟨n, c⟩ := t
    by_cases hn : n = name
    · subst hn
      rw [List.filter_cons, lookup_cons_of_ne _ _ _ _ h]
      simpa using ih
    · have hb : ((n, c).1 != name) = true := by simpa using hn
      rw [List.filter_cons, if_pos hb]
      by_cases ho : other = n
      · subst ho; simp
      · rw [lookup_cons_of_ne _ _ _ _ ho, lookup_cons_of_ne _ _ _ _ ho]
        exact ih

theorem foldl_cachesDelete (names : List String) (s : CacheStorage) :
    keys (names.foldl cachesDelete s) = (keys s).filter (fun n => decide (n ∉ names)) ∧
      ∀ other, other ∉ names →
        List.lookup other (names.foldl cachesDelete s) = List.lookup other s := by
  induction names generalizing s with
  | nil => simp
  | cons n rest ih =>
    obtain ⟨h1, h2⟩ := ih (cachesDelete s n)
    constructor
    · rw [List.foldl_cons, h1, keys_cachesDelete, List.filter_filter]
      congr 1
      funext x
      by_cases hx : x = n
      · simp [hx]
      · simp [hx]
    · intro other ho
      have hne : other ≠ n := fun e => ho (e ▸ List.mem_cons_self _ _)
      rw [List.foldl_cons, h2 other (fun hm => ho (List.mem_cons_of_mem _ hm)),
        lookup_cachesDelete _ _ _ hne]

/-- The names left by the activate step. -/
theorem keys_activate (s : CacheStorage) :
    keys (activate s) = (keys s).filter (fun n => startsWith n CACHE_VERSION) := by
  unfold activate
  rw [(foldl_cachesDelete _ s).1]
  apply List.filter_congr
  intro x hx
  by_cases h : startsWith x CACHE_VERSION = true
  · simp [staleNames, h]
  · simp [staleNames, h, hx]

/-- C11: the activate step deletes exactly the stored names that do not start with
`CACHE_VERSION`: each of them is deleted (it is no longer a stored name), a stored
name that starts with `CACHE_VERSION` is not deleted and keeps its entries, and the
current static, pages and runtime tiers are never among the deleted names. -/
theorem activate_deletes_stale (s : CacheStorage) (name : String) :
    (name ∈ staleNames (keys s) ↔ name ∈ keys s ∧ ¬ StartsWithVersion name) ∧
      (name ∈ staleNames (keys s) → name ∉ keys (activate s)) ∧
      (name ∈ keys s → StartsWithVersion name →
        name ∈ keys (activate s) ∧ tierOf (activate s) name = tierOf s name) ∧
      STATIC_CACHE ∉ staleNames (keys s) ∧ PAGES_CACHE ∉ staleNames (keys s) ∧
      RUNTIME_CACHE ∉ staleNames (keys s) := by
  refine ⟨mem_staleNames _ _, ?_, ?_, ?_, ?_, ?_⟩
  · intro h hk
    rw [mem_staleNames] at h
    rw [keys_activate, List.mem_filter, startsWith_version_iff] at hk
    exact h.2 hk.2
  · intro hk hv
    constructor
    · rw [keys_activate, List.mem_filter, startsWith_version_iff]
      exact ⟨hk, hv⟩
    · unfold tierOf activate
      rw [(foldl_cachesDelete _ s).2 name (fun hm => ((mem_staleNames _ _).mp hm).2 hv)]
  · intro h
    exact ((mem_staleNames _ _).mp h).2 ((startsWith_version_iff _).mp (by decide))
  · intro h
    exact ((mem_staleNames _ _).mp h).2 ((startsWith_version_iff _).mp (by decide))
  · intro h
    exact ((mem_staleNames _ _).mp h).2 ((startsWith_version_iff _).mp (by decide))

/-- C12 fails as stated: after the activate step on `mixedStorage` the names
`aqua-offline-v41-static`, a tier of another version string, and
`aqua-offline-v4-tmp`, none of the three current tiers, are still stored. -/
theorem activate_keeps_longer_versions :
    keys (activate mixedStorage) =
        ["aqua-offline-v41-static", "aqua-offline-v4-tmp", STATIC_CACHE] ∧
      "aqua-offline-v41-static" ∉ [STATIC_CACHE, PAGES_CACHE, RUNTIME_CACHE] ∧
      "aqua-offline-v4-tmp" ∉ [STATIC_CACHE, PAGES_CACHE, RUNTIME_CACHE] ∧
      "aqua-offline-v41" ≠ CACHE_VERSION := by
  decide

/-- A tier name of a version string starts with `CACHE_VERSION` only if the version
string does. -/
theorem version_of_tier_name (version suffix : String) (hs : suffix ∈ tierSuffixes)
    (h : StartsWithVersion (version ++ suffix)) : StartsWithVersion version := by
  unfold StartsWithVersion at h ⊢
  rw [String.data_append] at h
  rcases List.prefix_or_prefix_of_prefix h (List.prefix_append version.data suffix.data) with
    hp | hp
  · exact hp
  · have hin : version.data ∈ CACHE_VERSION.data.inits := (List.mem_inits _ _).mpr hp
    have hsd : suffix.data ∈ tierSuffixes.map String.data := List.mem_map_of_mem _ hs
    have key : ∀ l ∈ CACHE_VERSION.data.inits, ∀ t ∈ tierSuffixes.map String.data,
        CACHE_VERSION.data <+: l ++ t → CACHE_VERSION.data <+: l := by decide
    exact key _ hin _ hsd h

/-- C12, amended: after the activate step every stored name starts with
`CACHE_VERSION`, and no static, pages or runtime tier of a version string that does
not start with `CACHE_VERSION` is stored. -/
theorem activate_one_generation (s : CacheStorage) :
    (∀ name ∈ keys (activate s), StartsWithVersion name) ∧
      (∀ version suffix : String, suffix ∈ tierSuffixes → ¬ StartsWithVersion version →
        version ++ suffix ∉ keys (activate s)) := by
  have h1 : ∀ name ∈ keys (activate s), StartsWithVersion name := by
    intro name hn
    rw [keys_activate, List.mem_filter, startsWith_version_iff] at hn
    exact hn.2
  exact ⟨h1, fun version suffix hs hv hm =>
    hv (version_of_tier_name version suffix hs (h1 _ hm))⟩

/-- Witness of C11: the tier of generation `aqua-offline-v3` is deleted from
`mixedStorage`. -/
theorem activate_deletes_stale_witness :
    "aqua-offline-v3-static" ∉ keys (activate mixedStorage) :=
  (activate_deletes_stale mixedStorage "aqua-offline-v3-static").2.1 (by decide)

/-- Witness of C12, amended: no static tier of the version string `aqua-offline-v3`
is left in `mixedStorage`. -/
theorem activate_one_generation_witness :
    "aqua-offline-v3" ++ "-static" ∉ keys (activate mixedStorage) :=
  (activate_one_generation mixedStorage).2 "aqua-offline-v3" "-static" (by decide)
    (by decide)

/-! ## The install step -/

theorem addable_iff (E : InstallEnv) (name url : String) :
    addable E name url = true ↔
      ∃ r, E.fetch url = some r ∧ r.ok = true ∧ E.putFails name url = false := by
  unfold addable
  cases h : E.fetch url with
  | none => simp
  | some r => simp

theorem addAll_fulfilled_iff (E : InstallEnv) (s : CacheStorage) (name : String)
    (urls : List String) :
    (addAll E s name urls).1 = Outcome.fulfilled ↔ ∀ url ∈ urls, addable E name url = true := by
  unfold addAll
  by_cases h : urls.all (addable E name) = true
  · rw [if_pos h]
    simpa using h
  · rw [if_neg h]
    simpa using h

theorem installStatic_fulfilled_iff (E : InstallEnv) (s : CacheStorage)
    (hS : E.openFails STATIC_CACHE = false) :
    (installStatic E s).1 = Outcome.fulfilled ↔ ManifestCached E := by
  unfold installStatic installOpen ManifestCached
  rw [hS]
  simp only [Bool.false_eq_true, if_false]
  rw [addAll_fulfilled_iff]
  simp only [addable_iff]

theorem installPages_fulfilled (E : InstallEnv) (s : CacheStorage)
    (hP : E.openFails PAGES_CACHE = false) :
    (installPages E s).1 = Outcome.fulfilled := by
  unfold installPages installOpen
  rw [hP]
  rfl

theorem installExternal_fulfilled (E : InstallEnv) (s : CacheStorage)
    (hS : E.openFails STATIC_CACHE = false) :
    (installExternal E s).1 = Outcome.fulfilled := by
  unfold installExternal installOpen
  rw [hS]
  rfl

/-- C13: when the static and pages tiers can be opened, the install step fails exactly
when caching the static manifest fails, whatever the fetches and writes of the pages
and of the external assets do; when the manifest was cached it succeeds. -/
theorem install_fails_iff (E : InstallEnv) (s : CacheStorage)
    (hS : E.openFails STATIC_CACHE = false) (hP : E.openFails PAGES_CACHE = false) :
    ((install E s).1 = Outcome.rejected ↔ ¬ ManifestCached E) ∧
      (ManifestCached E → (install E s).1 = Outcome.fulfilled) ∧
      ((install E s).1 = Outcome.rejected ↔
        (addAll E (openTier s STATIC_CACHE) STATIC_CACHE STATIC_ASSETS).1 =
          Outcome.rejected) := by
  have h1 := installStatic_fulfilled_iff E s hS
  have h2 := installPages_fulfilled E (installStatic E s).2 hP
  have h3 := installExternal_fulfilled E (installPages E (installStatic E s).2).2 hS
  have hres : (install E s).1 =
      if (installStatic E s).1 = Outcome.fulfilled then Outcome.fulfilled
      else Outcome.rejected := by
    simp only [install, h2, h3, and_true]
  have hstat : (installStatic E s).1 =
      (addAll E (openTier s STATIC_CACHE) STATIC_CACHE STATIC_ASSETS).1 := by
    simp [installStatic, installOpen, hS]
  refine ⟨?_, ?_, ?_⟩
  · rw [hres, ← h1]
    by_cases h : (installStatic E s).1 = Outcome.fulfilled
    · simp [h]
    · simp [h]
  · intro hm
    rw [hres, if_pos (h1.mpr hm)]
  · rw [hres, ← hstat]
    cases h : (installStatic E s).1 <;> simp

/-- Witness of C13: with an empty storage, the static assets fetched and every page
and external fetch failing, the install step succeeds; with nothing fetched it
fails. -/
theorem install_fails_iff_witness :
    (install assetsOnly []).1 = Outcome.fulfilled ∧
      (install nothingFetched []).1 = Outcome.rejected :=
  ⟨(install_fails_iff assetsOnly [] rfl rfl).2.1
      (fun url hu => ⟨okResponse, by simp [assetsOnly, hu], by decide, rfl⟩),
    (install_fails_iff nothingFetched [] rfl rfl).1.mpr
      (fun h => by
        obtain ⟨r, hr, _⟩ := h "/static/style.css" (by decide)
        simp [nothingFetched] at hr)⟩

theorem keys_putIn (s : CacheStorage) (name url : String) (r : Response) :
    keys (putIn s name url r) = keys s := by
  unfold keys putIn
  rw [List.map_map]
  apply List.map_congr_left
  intro t _
  by_cases h : t.1 = name
  · simp [h]
  · simp [h]

theorem tierOf_putIn_other (s : CacheStorage) (name other url : String) (r : Response)
    (h : other ≠ name) : tierOf (putIn s name url r) other = tierOf s other := by
  unfold tierOf putIn
  congr 1
  induction s with
  | nil => rfl
  | cons t rest ih =>
    obtain ⟨n, c⟩ := t
    by_cases hn : n = name
    · subst hn
      rw [List.map_cons]
      simp only [beq_self_eq_true, if_true]
      rw [lookup_cons_of_ne _ _ _ _ h, lookup_cons_of_ne _ _ _ _ h]
      exact ih
    · rw [List.map_cons, if_neg (by simpa using hn)]
      by_cases ho : other = n
      · subst ho; simp
      · rw [lookup_cons_of_ne _ _ _ _ ho, lookup_cons_of_ne _ _ _ _ ho]
        exact ih

/-- A fold of storage steps that act on one cache like `g` acts on its entries. -/
theorem tierOf_foldl (name : String) (step : CacheStorage → String → CacheStorage)
    (g : Cache → String → Cache)
    (h : ∀ acc url, name ∈ keys acc →
      name ∈ keys (step acc url) ∧ tierOf (step acc url) name = g (tierOf acc name) url)
    (urls : List String) (s : CacheStorage) (hs : name ∈ keys s) :
    name ∈ keys (urls.foldl step s) ∧
      tierOf (urls.foldl step s) name = urls.foldl g (tierOf s name) := by
  induction urls generalizing s with
  | nil => exact ⟨hs, rfl⟩
  | cons u rest ih =>
    obtain ⟨h1, h2⟩ := h s u hs
    have := ih (step s u) h1
    rw [List.foldl_cons, List.foldl_cons, ← h2]
    exact this

theorem pages_ne_static : PAGES_CACHE ≠ STATIC_CACHE := by decide

theorem manifest_put_static (E : InstallEnv) (acc : CacheStorage) (url : String)
    (hacc : STATIC_CACHE ∈ keys acc) :
    STATIC_CACHE ∈ keys (match E.fetch url with
        | some response => putIn acc STATIC_CACHE url response
        | none => acc) ∧
      tierOf (match E.fetch url with
        | some response => putIn acc STATIC_CACHE url response
        | none => acc) STATIC_CACHE = manifestStep E (tierOf acc STATIC_CACHE) url := by
  unfold manifestStep
  cases hf : E.fetch url with
  | none => exact ⟨hacc, rfl⟩
  | some r => exact ⟨by rw [keys_putIn]; exact hacc, tierOf_putIn_self _ _ _ _ hacc⟩

theorem pageTask_static (E : InstallEnv) (acc : CacheStorage) (url : String)
    (hacc : STATIC_CACHE ∈ keys acc) :
    STATIC_CACHE ∈ keys (pageTask E acc url).2 ∧
      tierOf (pageTask E acc url).2 STATIC_CACHE = tierOf acc STATIC_CACHE := by
  unfold pageTask catchWarn
  cases hf : E.fetch url with
  | none => exact ⟨hacc, rfl⟩
  | some r =>
    dsimp only
    split
    · split
      · exact ⟨hacc, rfl⟩
      · exact ⟨by rw [keys_putIn]; exact hacc,
          tierOf_putIn_other _ _ _ _ _ (fun e => pages_ne_static e.symm)⟩
    · exact ⟨hacc, rfl⟩

theorem externalTask_static (E : InstallEnv) (acc : CacheStorage) (url : String)
    (hacc : STATIC_CACHE ∈ keys acc) :
    STATIC_CACHE ∈ keys (externalTask E acc url).2 ∧
      tierOf (externalTask E acc url).2 STATIC_CACHE =
        externalStep E (tierOf acc STATIC_CACHE) url := by
  unfold externalTask catchWarn externalStep
  cases hf : E.fetch url with
  | none => exact ⟨hacc, rfl⟩
  | some r =>
    dsimp only
    split
    · split
      · exact ⟨hacc, rfl⟩
      · exact ⟨by rw [keys_putIn]; exact hacc, tierOf_putIn_self _ _ _ _ hacc⟩
    · exact ⟨hacc, rfl⟩

theorem mem_keys_openTier_of_mem (s : CacheStorage) (name other : String)
    (h : other ∈ keys s) : other ∈ keys (openTier s name) := by
  unfold openTier
  split
  · exact h
  · simp only [keys, List.map_append, List.mem_append]
    exact Or.inl h

theorem foldl_const (urls : List String) (c : Cache) :
    urls.foldl (fun c (_ : String) => c) c = c := by
  induction urls with
  | nil => rfl
  | cons _ _ ih => exact ih

/-- The entries of the static tier after a successful install step. -/
theorem static_after_install (E : InstallEnv) (s : CacheStorage)
    (hS : E.openFails STATIC_CACHE = false) (hP : E.openFails PAGES_CACHE = false)
    (hm : ManifestCached E) :
    tierOf (install E s).2 STATIC_CACHE =
      EXTERNAL_ASSETS.foldl (externalStep E)
        (STATIC_ASSETS.foldl (manifestStep E) (tierOf s STATIC_CACHE)) := by
  have hall : STATIC_ASSETS.all (addable E STATIC_CACHE) = true := by
    rw [List.all_eq_true]
    intro u hu
    exact (addable_iff _ _ _).mpr (hm u hu)
  have h1 := tierOf_foldl STATIC_CACHE
    (fun acc url => match E.fetch url with
      | some response => putIn acc STATIC_CACHE url response
      | none => acc)
    (manifestStep E) (fun acc url hacc => manifest_put_static E acc url hacc)
    STATIC_ASSETS (openTier s STATIC_CACHE) (mem_keys_openTier s STATIC_CACHE)
  rw [tierOf_openTier] at h1
  have e1 : installStatic E s = (Outcome.fulfilled,
      STATIC_ASSETS.foldl (fun acc url => match E.fetch url with
        | some response => putIn acc STATIC_CACHE url response
        | none => acc) (openTier s STATIC_CACHE)) := by
    simp only [installStatic, installOpen, hS, addAll, hall]
    rfl
  have h2 := fun s0 (hs0 : STATIC_CACHE ∈ keys s0) => tierOf_foldl STATIC_CACHE
    (fun acc url => (pageTask E acc url).2) (fun c _ => c)
    (fun acc url hacc => pageTask_static E acc url hacc) APP_PAGES s0 hs0
  have h3 := fun s0 (hs0 : STATIC_CACHE ∈ keys s0) => tierOf_foldl STATIC_CACHE
    (fun acc url => (externalTask E acc url).2) (externalStep E)
    (fun acc url hacc => externalTask_static E acc url hacc) EXTERNAL_ASSETS s0 hs0
  simp only [install, e1, installPages, installExternal, installOpen, hS, hP, allSettled,
    Bool.false_eq_true, if_false]
  have a1 := h1.1
  have a2 := h2 _ (mem_keys_openTier_of_mem _ PAGES_CACHE _ a1)
  have a3 := h3 _ (mem_keys_openTier_of_mem _ STATIC_CACHE _ a2.1)
  rw [a3.2, tierOf_openTier, a2.2, foldl_const, tierOf_openTier, h1.2]

theorem entryCount_putEntry_self (c : Cache) (url : String) (r : Response) :
    entryCount (putEntry c url r) url = 1 := by
  unfold entryCount putEntry
  rw [List.filter_append, List.filter_filter]
  have h : c.filter (fun e => (e.1 == url) && (e.1 != url)) = [] := by
    rw [List.filter_eq_nil_iff]
    intro e _
    by_cases he : e.1 = url <;> simp [he]
  rw [h]
  simp

theorem entryCount_putEntry_other (c : Cache) (url u : String) (r : Response)
    (h : u ≠ url) : entryCount (putEntry c u r) url = entryCount c url := by
  unfold entryCount putEntry
  rw [List.filter_append, List.filter_filter]
  have h1 : c.filter (fun e => (e.1 == url) && (e.1 != u)) = c.filter (fun e => e.1 == url) := by
    apply List.filter_congr
    intro e _
    by_cases he : e.1 = url
    · subst he
      have : ¬ e.1 = u := fun e' => h e'.symm
      simp [this]
    · simp [he]
  have h2 : [(u, r)].filter (fun e => e.1 == url) = [] := by
    simp [List.filter_cons, h]
  rw [h1, h2]
  simp

theorem entryCount_putEntry_one (c : Cache) (url u : String) (r : Response)
    (h : entryCount c url = 1) : entryCount (putEntry c u r) url = 1 := by
  by_cases hu : u = url
  · subst hu; exact entryCount_putEntry_self c u r
  · rw [entryCount_putEntry_other c url u r hu]; exact h

theorem mem_cacheKeys_putEntry (c : Cache) (u k : String) (r : Response) :
    k ∈ cacheKeys (putEntry c u r) ↔ k = u ∨ k ∈ cacheKeys c := by
  unfold cacheKeys putEntry
  simp only [List.map_append, List.mem_append, List.mem_map, List.mem_filter,
    List.mem_singleton]
  constructor
  · rintro (⟨e, ⟨he, _⟩, rfl⟩ | ⟨e, rfl, rfl⟩)
    · exact Or.inr ⟨e, he, rfl⟩
    · exact Or.inl rfl
  · rintro (rfl | ⟨e, he, rfl⟩)
    · exact Or.inr ⟨(k, r), rfl, rfl⟩
    · by_cases hu : e.1 = u
      · exact Or.inr ⟨(u, r), rfl, hu.symm⟩
      · exact Or.inl ⟨e, ⟨he, by simpa using hu⟩, rfl⟩

theorem manifestStep_one (E : InstallEnv) (c : Cache) (u url : String)
    (h : entryCount c url = 1) : entryCount (manifestStep E c u) url = 1 := by
  unfold manifestStep
  split
  · exact entryCount_putEntry_one _ _ _ _ h
  · exact h

theorem externalStep_one (E : InstallEnv) (c : Cache) (u url : String)
    (h : entryCount c url = 1) : entryCount (externalStep E c u) url = 1 := by
  unfold externalStep
  split
  · split
    · split
      · exact h
      · exact entryCount_putEntry_one _ _ _ _ h
    · exact h
  · exact h

theorem foldl_one (g : Cache → String → Cache) (url : String)
    (hg : ∀ c u, entryCount c url = 1 → entryCount (g c u) url = 1)
    (urls : List String) (c : Cache) (h : entryCount c url = 1) :
    entryCount (urls.foldl g c) url = 1 := by
  induction urls generalizing c with
  | nil => exact h
  | cons u rest ih => exact ih (g c u) (hg c u h)

theorem manifest_foldl_one (E : InstallEnv) (urls : List String) (c : Cache) (url : String)
    (hu : url ∈ urls) (hf : ∀ u ∈ urls, ∃ r, E.fetch u = some r) :
    entryCount (urls.foldl (manifestStep E) c) url = 1 := by
  induction urls generalizing c with
  | nil => simp at hu
  | cons u rest ih =>
    rw [List.foldl_cons]
    by_cases hr : url ∈ rest
    · exact ih _ hr (fun v hv => hf v (List.mem_cons_of_mem _ hv))
    · have hue : url = u := by
        rcases List.mem_cons.mp hu with h | h
        · exact h
        · exact absurd h hr
      subst hue
      apply foldl_one _ _ (fun c u h => manifestStep_one E c u _ h)
      obtain ⟨r, hr2⟩ := hf url (List.mem_cons_self _ _)
      unfold manifestStep
      rw [hr2]
      exact entryCount_putEntry_self c url r

theorem mem_keys_manifest_foldl (E : InstallEnv) (urls : List String) (c : Cache)
    (k : String) :
    k ∈ cacheKeys (urls.foldl (manifestStep E) c) ↔
      k ∈ cacheKeys c ∨ (k ∈ urls ∧ (E.fetch k).isSome = true) := by
  induction urls generalizing c with
  | nil => simp
  | cons u rest ih =>
    rw [List.foldl_cons, ih]
    unfold manifestStep
    cases hf : E.fetch u with
    | none =>
      constructor
      · rintro (h | ⟨h1, h2⟩)
        · exact Or.inl h
        · exact Or.inr ⟨List.mem_cons_of_mem _ h1, h2⟩
      · rintro (h | ⟨h1, h2⟩)
        · exact Or.inl h
        · rcases List.mem_cons.mp h1 with h | h
          · subst h; rw [hf] at h2; simp at h2
          · exact Or.inr ⟨h, h2⟩
    | some r =>
      dsimp only
      rw [mem_cacheKeys_putEntry]
      constructor
      · rintro ((h | h) | ⟨h1, h2⟩)
        · subst h; exact Or.inr ⟨List.mem_cons_self _ _, by rw [hf]; rfl⟩
        · exact Or.inl h
        · exact Or.inr ⟨List.mem_cons_of_mem _ h1, h2⟩
      · rintro (h | ⟨h1, h2⟩)
        · exact Or.inl (Or.inr h)
        · rcases List.mem_cons.mp h1 with h | h
          · exact Or.inl (Or.inl h)
          · exact Or.inr ⟨h, h2⟩

theorem mem_keys_external_foldl (E : InstallEnv) (urls : List String) (c : Cache)
    (k : String) :
    k ∈ cacheKeys (urls.foldl (externalStep E) c) ↔
      k ∈ cacheKeys c ∨ (k ∈ urls ∧ externalWritten E k = true) := by
  induction urls generalizing c with
  | nil => simp
  | cons u rest ih =>
    rw [List.foldl_cons, ih]
    have hstep : k ∈ cacheKeys (externalStep E c u) ↔
        k ∈ cacheKeys c ∨ (k = u ∧ externalWritten E u = true) := by
      unfold externalStep externalWritten
      cases hf : E.fetch u with
      | none => simp
      | some r =>
        dsimp only
        by_cases hok : r.ok = true
        · by_cases hp : E.putFails STATIC_CACHE u = true
          · simp [hok, hp]
          · simp [hok, hp, mem_cacheKeys_putEntry, or_comm]
        · simp [hok]
    rw [hstep]
    constructor
    · rintro ((h | ⟨h1, h2⟩) | ⟨h1, h2⟩)
      · exact Or.inl h
      · subst h1; exact Or.inr ⟨List.mem_cons_self _ _, h2⟩
      · exact Or.inr ⟨List.mem_cons_of_mem _ h1, h2⟩
    · rintro (h | ⟨h1, h2⟩)
      · exact Or.inl (Or.inl h)
      · rcases List.mem_cons.mp h1 with h | h
        · subst h; exact Or.inl (Or.inr ⟨rfl, h2⟩)
        · exact Or.inr ⟨h, h2⟩

theorem static_count_after_install (E : InstallEnv) (s : CacheStorage)
    (hS : E.openFails STATIC_CACHE = false) (hP : E.openFails PAGES_CACHE = false)
    (hm : ManifestCached E) (url : String) (hu : url ∈ STATIC_ASSETS) :
    entryCount (tierOf (install E s).2 STATIC_CACHE) url = 1 := by
  rw [static_after_install E s hS hP hm]
  apply foldl_one _ _ (fun c u h => externalStep_one E c u _ h)
  exact manifest_foldl_one E STATIC_ASSETS _ url hu
    (fun u hu2 => let ⟨r, hr, _⟩ := hm u hu2; ⟨r, hr⟩)

theorem static_keys_after_install (E : InstallEnv) (s : CacheStorage)
    (hS : E.openFails STATIC_CACHE = false) (hP : E.openFails PAGES_CACHE = false)
    (hm : ManifestCached E) (k : String) :
    k ∈ cacheKeys (tierOf (install E s).2 STATIC_CACHE) ↔
      (k ∈ cacheKeys (tierOf s STATIC_CACHE) ∨
        (k ∈ STATIC_ASSETS ∧ (E.fetch k).isSome = true)) ∨
      (k ∈ EXTERNAL_ASSETS ∧ externalWritten E k = true) := by
  rw [static_after_install E s hS hP hm, mem_keys_external_foldl, mem_keys_manifest_foldl]

/-- C14: with each tier a map from URL to response in which a write replaces the
entry of the same key, running the install step twice with the same manifest and the
same successful fetch results leaves the static tier with exactly one entry per URL of
`STATIC_ASSETS` and with the same keys as after running it once. -/
theorem install_twice (E : InstallEnv) (s : CacheStorage)
    (hS : E.openFails STATIC_CACHE = false) (hP : E.openFails PAGES_CACHE = false)
    (hm : ManifestCached E) :
    (install E s).1 = Outcome.fulfilled ∧
      (install E (install E s).2).1 = Outcome.fulfilled ∧
      (∀ url ∈ STATIC_ASSETS,
        entryCount (tierOf (install E (install E s).2).2 STATIC_CACHE) url = 1) ∧
      (∀ k, k ∈ cacheKeys (tierOf (install E (install E s).2).2 STATIC_CACHE) ↔
        k ∈ cacheKeys (tierOf (install E s).2 STATIC_CACHE)) := by
  have hfull : ∀ s0, (install E s0).1 = Outcome.fulfilled := by
    intro s0
    have h2 := installPages_fulfilled E (installStatic E s0).2 hP
    have h3 := installExternal_fulfilled E (installPages E (installStatic E s0).2).2 hS
    have h1 := (installStatic_fulfilled_iff E s0 hS).mpr hm
    simp only [install, h1, h2, h3, and_self, if_true]
  refine ⟨hfull s, hfull _, ?_, ?_⟩
  · intro url hu
    exact static_count_after_install E _ hS hP hm url hu
  · intro k
    rw [static_keys_after_install E (install E s).2 hS hP hm k,
      static_keys_after_install E s hS hP hm k]
    constructor
    · rintro ((h | h) | h)
      · exact h
      · exact Or.inl (Or.inr h)
      · exact Or.inr h
    · intro h
      exact Or.inl (Or.inl h)

/-- Witness of C14: installing twice into an empty storage, with the static assets
fetched, leaves one entry for the style sheet. -/
theorem install_twice_witness :
    entryCount (tierOf (install assetsOnly (install assetsOnly []).2).2 STATIC_CACHE)
      "/static/style.css" = 1 :=
  (install_twice assetsOnly [] rfl rfl
    (fun url hu => ⟨okResponse, by simp [assetsOnly, hu], by decide, rfl⟩)).2.2.1
    "/static/style.css" (by decide)

/-! ## The connectivity flags -/

theorem checkLocationPermission_flags (granted : Bool) (w : Browser) :
    (checkLocationPermission granted w).2.onLine = w.onLine ∧
      (checkLocationPermission granted w).2.LOCATION_CHECK_DONE = true ∧
      (checkLocationPermission granted w).1 =
        (checkLocationPermission granted w).2.LOCATION_ENABLED ∧
      ((checkLocationPermission granted w).1 = false ∨
        (checkLocationPermission granted w).2.ALLOW_LIVE_DATA = w.ALLOW_LIVE_DATA) ∧
      (w.ALLOW_LIVE_DATA = false →
        (checkLocationPermission granted w).2.ALLOW_LIVE_DATA = false) := by
  obtain ⟨onLine, geo, allow, en, done, doc, q, p⟩ := w
  cases done <;> cases geo <;> cases granted <;>
    simp [checkLocationPermission, disableLiveFeaturesNoLocation]

theorem checkLocationPermission_done (granted : Bool) (w : Browser)
    (h : w.LOCATION_CHECK_DONE = true) :
    checkLocationPermission granted w = (w.LOCATION_ENABLED, w) := by
  unfold checkLocationPermission
  rw [if_pos h]

theorem checkRepeatedly_done (outcomes : List Bool) (w : Browser)
    (h : w.LOCATION_CHECK_DONE = true) : checkRepeatedly outcomes w = w := by
  induction outcomes with
  | nil => rfl
  | cons g rest ih =>
    rw [checkRepeatedly, checkLocationPermission_done g w h]
    exact ih

theorem checkLocationPermission_queries (granted : Bool) (w : Browser) :
    (checkLocationPermission granted w).2.positionQueries ≤ w.positionQueries + 1 := by
  obtain ⟨onLine, geo, allow, en, done, doc, q, p⟩ := w
  cases done <;> cases geo <;> cases granted <;>
    simp [checkLocationPermission, disableLiveFeaturesNoLocation]

/-- C18: in every sequence of `checkLocationPermission` calls the platform is queried
at most once; the first call sets `LOCATION_CHECK_DONE` and returns the value it
stores in `LOCATION_ENABLED`; every later call returns the stored `LOCATION_ENABLED`
and leaves the whole state as it is: no query, no prompt, no flag changed. -/
theorem checkLocationPermission_once (outcomes : List Bool) (granted : Bool) (w : Browser) :
    (checkRepeatedly outcomes w).positionQueries ≤ w.positionQueries + 1 ∧
      (checkLocationPermission granted w).2.LOCATION_CHECK_DONE = true ∧
      (checkLocationPermission granted w).1 =
        (checkLocationPermission granted w).2.LOCATION_ENABLED ∧
      checkRepeatedly (granted :: outcomes) w = (checkLocationPermission granted w).2 ∧
      (∀ later : Bool,
        checkLocationPermission later (checkLocationPermission granted w).2 =
          ((checkLocationPermission granted w).2.LOCATION_ENABLED,
            (checkLocationPermission granted w).2)) := by
  have hf := checkLocationPermission_flags granted w
  refine ⟨?_, hf.2.1, hf.2.2.1, ?_, ?_⟩
  · cases outcomes with
    | nil => exact Nat.le_succ _
    | cons g rest =>
      rw [checkRepeatedly,
        checkRepeatedly_done rest _ (checkLocationPermission_flags g w).2.1]
      exact checkLocationPermission_queries g w
  · rw [checkRepeatedly]
    exact checkRepeatedly_done outcomes _ hf.2.1
  · intro later
    exact checkLocationPermission_done later _ hf.2.1

/-- Result of `updateConnectionStatus` on the flags. -/
theorem updateConnectionStatus_flags (granted : Bool) (w : Browser) :
    (updateConnectionStatus granted w).onLine = w.onLine ∧
      ((getElementById w.document "connection-badge").isSome = true →
        (updateConnectionStatus granted w).ALLOW_LIVE_DATA =
          (w.onLine && (updateConnectionStatus granted w).LOCATION_ENABLED) ∧
        (updateConnectionStatus granted w).LOCATION_ENABLED =
          (checkLocationPermission granted w).1) ∧
      ((getElementById w.document "connection-badge") = none →
        updateConnectionStatus granted w = w) := by
  unfold updateConnectionStatus
  cases hb : getElementById w.document "connection-badge" with
  | none => simp
  | some b =>
    obtain ⟨onLine, geo, allow, en, done, doc, q, p⟩ := w
    cases done <;> cases geo <;> cases granted <;> cases onLine <;> cases en <;>
      simp [liveDataSteps, checkLocationPermission, disableLiveFeaturesNoLocation]

/-- The listener of the `offline` event, run while the network is down. -/
theorem offlineListener_flags (granted : Bool) (w : Browser) (hdown : w.onLine = false) :
    (offlineListener granted w).ALLOW_LIVE_DATA = false ∧
      (offlineListener granted w).onLine = false := by
  have hf := updateConnectionStatus_flags granted (offlineListenerStart w)
  refine ⟨?_, ?_⟩
  · unfold offlineListener
    cases hb : getElementById (offlineListenerStart w).document "connection-badge" with
    | none => rw [hf.2.2 hb]; rfl
    | some b =>
      have := (hf.2.1 (by rw [hb]; rfl)).1
      rw [this]
      have hon : (offlineListenerStart w).onLine = false := hdown
      rw [hon]
      rfl
  · unfold offlineListener
    rw [hf.1]
    exact hdown

/-- C16: for every prior state of the three flags, the listener of the `offline`
event leaves `ALLOW_LIVE_DATA` false at once, and it is still false when the run of
`updateConnectionStatus` it starts completes with the network still down. -/
theorem offlineListener_disables (granted : Bool) (w : Browser) (hdown : w.onLine = false) :
    (offlineListenerStart w).ALLOW_LIVE_DATA = false ∧
      (offlineListener granted w).ALLOW_LIVE_DATA = false ∧
      (offlineListener granted w).onLine = false :=
  ⟨rfl, offlineListener_flags granted w hdown⟩

/-- Witness of C18: three calls on the freshly loaded sample page, the first of them
denied, query the platform once. -/
theorem checkLocationPermission_once_witness :
    (checkRepeatedly [false, true, true] (initialBrowser true true samplePage)).positionQueries
      ≤ 1 :=
  (checkLocationPermission_once [false, true, true] false
    (initialBrowser true true samplePage)).1

/-- Witness of C16: with every flag set before, the listener of the `offline` event
leaves `ALLOW_LIVE_DATA` false. -/
theorem offlineListener_disables_witness :
    liveThenDown.ALLOW_LIVE_DATA = true ∧
      (offlineListener true liveThenDown).ALLOW_LIVE_DATA = false :=
  ⟨rfl, (offlineListener_disables true liveThenDown rfl).2.1⟩

theorem coherent_of_flags (w : Browser)
    (h : w.ALLOW_LIVE_DATA = (w.onLine && w.LOCATION_ENABLED)) : Coherent w := by
  unfold Coherent
  rw [h, Bool.and_eq_true]

theorem updateConnectionStatus_coherent (granted : Bool) (w : Browser)
    (hb : (getElementById w.document "connection-badge").isSome = true) :
    Coherent (updateConnectionStatus granted w) := by
  have hf := updateConnectionStatus_flags granted w
  apply coherent_of_flags
  rw [(hf.2.1 hb).1, hf.1]

/-- C15 fails as stated: the initial state of a page loaded while the network is
reachable is a reachable state in which `ALLOW_LIVE_DATA` is true and
`LOCATION_ENABLED` is false. -/
theorem initial_state_not_coherent :
    Reachable true true samplePage (initialBrowser true true samplePage) ∧
      (initialBrowser true true samplePage).ALLOW_LIVE_DATA = true ∧
      (initialBrowser true true samplePage).onLine = true ∧
      (initialBrowser true true samplePage).LOCATION_ENABLED = false ∧
      ¬ Coherent (initialBrowser true true samplePage) :=
  ⟨Reachable.initial, rfl, rfl, rfl, by decide⟩

/-- C15, amended: `ALLOW_LIVE_DATA` is true exactly when the network is reachable and
`LOCATION_ENABLED` is true after every completed run of `updateConnectionStatus` on a
page that has the connection badge (so after the `online` event there), after the
`offline` event on any page, and after a granted `requestLocationPermission`. -/
theorem flag_coherent_after (granted grantedCheck : Bool) (w : Browser) :
    ((getElementById w.document "connection-badge").isSome = true →
        Coherent (updateConnectionStatus granted w)) ∧
      ((getElementById w.document "connection-badge").isSome = true →
        Coherent (onlineEvent granted w)) ∧
      Coherent (offlineEvent granted w) ∧
      (w.geolocation = true → Coherent (requestLocationPermission true grantedCheck w)) := by
  refine ⟨updateConnectionStatus_coherent granted w, ?_, ?_, ?_⟩
  · intro hb
    exact updateConnectionStatus_coherent granted _ hb
  · have h := offlineListener_flags granted { w with onLine := false } rfl
    unfold offlineEvent
    unfold Coherent
    rw [h.1, h.2]
    simp
  · intro hg
    unfold requestLocationPermission initializeConnectionMonitor
    rw [if_pos hg]
    simp only [if_true]
    generalize hw1 : (if w.onLine = true then _ else _ : Browser) = w1
    have hflags : w1.ALLOW_LIVE_DATA = w1.onLine ∧ w1.LOCATION_ENABLED = true := by
      rw [← hw1]
      split <;> exact ⟨rfl, rfl⟩
    cases hb : getElementById w1.document "connection-badge" with
    | none =>
      rw [(updateConnectionStatus_flags grantedCheck w1).2.2 hb]
      apply coherent_of_flags
      rw [hflags.1, hflags.2, Bool.and_true]
    | some b =>
      exact updateConnectionStatus_coherent grantedCheck w1 (by rw [hb]; rfl)

/-- Witness of C15, amended: after the first run of `updateConnectionStatus` on the
sample page, with location granted, the flag agrees with the two conditions. -/
theorem flag_coherent_after_witness :
    Coherent (updateConnectionStatus true (initialBrowser true true samplePage)) :=
  (flag_coherent_after true true (initialBrowser true true samplePage)).1 (by decide)

/-! ## The network-reachability indicator -/

theorem same_refl (e : Element) : Same e e :=
  ⟨rfl, Iff.rfl, Iff.rfl, Iff.rfl, fun _ _ _ => rfl⟩

theorem same_trans {a b c : Element} (h1 : Same a b) (h2 : Same b c) : Same a c := by
  obtain ⟨i1, o1, l1, s1, t1⟩ := h1
  obtain ⟨i2, o2, l2, s2, t2⟩ := h2
  refine ⟨i2.trans i1, o2.trans o1, l2.trans l1, s2.trans s1, ?_⟩
  intro hid hl hs
  rw [t2 (by rw [i1]; exact hid) (fun h => hl (l1.mp h)) (fun h => hs (s1.mp h)),
    t1 hid hl hs]

theorem same_setStyle (e : Element) (p v : String) : Same e (setStyle e p v) :=
  ⟨rfl, Iff.rfl, Iff.rfl, Iff.rfl, fun _ _ _ => rfl⟩

theorem same_setText (e : Element) (t : String)
    (h : "live-pulse-badge" ∈ e.classes ∨ "status-badge-text" ∈ e.classes ∨
      (e.id ≠ "connection-icon" ∧ e.id ≠ "connection-text")) : Same e (setText e t) := by
  refine ⟨rfl, Iff.rfl, Iff.rfl, Iff.rfl, ?_⟩
  intro hid hl hs
  rcases h with h | h | h
  · exact absurd h hl
  · exact absurd h hs
  · rcases hid with hid | hid
    · exact absurd hid h.1
    · exact absurd hid h.2

theorem mem_addClass (e : Element) (c x : String) (h : x ≠ c) :
    x ∈ (addClass e c).classes ↔ x ∈ e.classes := by
  unfold addClass
  split
  · exact Iff.rfl
  · simp [h]

theorem mem_removeClass (e : Element) (c x : String) (h : x ≠ c) :
    x ∈ (removeClass e c).classes ↔ x ∈ e.classes := by
  unfold removeClass
  simp [List.mem_filter, h]

theorem same_addClass (e : Element) (c : String) (h1 : "offline" ≠ c)
    (h2 : "live-pulse-badge" ≠ c) (h3 : "status-badge-text" ≠ c) :
    Same e (addClass e c) := by
  refine ⟨?_, mem_addClass e c _ h1, mem_addClass e c _ h2, mem_addClass e c _ h3, ?_⟩
  · unfold addClass; split <;> rfl
  · intro _ _ _
    unfold addClass; split <;> rfl

theorem same_removeClass (e : Element) (c : String) (h1 : "offline" ≠ c)
    (h2 : "live-pulse-badge" ≠ c) (h3 : "status-badge-text" ≠ c) :
    Same e (removeClass e c) :=
  ⟨rfl, mem_removeClass e c _ h1, mem_removeClass e c _ h2, mem_removeClass e c _ h3,
    fun _ _ _ => rfl⟩

theorem same_paintBadge (e : Element) (t c b bc : String)
    (h : "live-pulse-badge" ∈ e.classes ∨ "status-badge-text" ∈ e.classes ∨
      (e.id ≠ "connection-icon" ∧ e.id ≠ "connection-text")) :
    Same e (paintBadge e t c b bc) := by
  unfold paintBadge
  exact same_trans (same_trans (same_trans (same_setText e t h) (same_setStyle _ _ _))
    (same_setStyle _ _ _)) (same_setStyle _ _ _)

theorem alike_refl (doc : Document) : Alike doc doc := by
  induction doc with
  | nil => trivial
  | cons e rest ih => exact ⟨same_refl e, ih⟩

theorem alike_trans {a b c : Document} (h1 : Alike a b) (h2 : Alike b c) : Alike a c := by
  induction a generalizing b c with
  | nil =>
    cases b with
    | nil => exact h2
    | cons _ _ => exact absurd h1 (by simp [Alike])
  | cons e rest ih =>
    cases b with
    | nil => exact absurd h1 (by simp [Alike])
    | cons e' rest' =>
      cases c with
      | nil => exact absurd h2 (by simp [Alike])
      | cons e'' rest'' => exact ⟨same_trans h1.1 h2.1, ih h1.2 h2.2⟩

theorem alike_forEach (doc : Document) (sel : Element → Bool) (f : Element → Element)
    (h : ∀ e, sel e = true → Same e (f e)) : Alike doc (forEachMatching doc sel f) := by
  induction doc with
  | nil => trivial
  | cons e rest ih =>
    refine ⟨?_, ih⟩
    by_cases hs : sel e = true
    · simp only [hs, if_true]; exact h e hs
    · simp only [hs, if_false]; exact same_refl e

theorem alike_updateById (doc : Document) (id : String) (f : Element → Element)
    (h : ∀ e, e.id = id → Same e (f e)) : Alike doc (updateById doc id f) := by
  induction doc with
  | nil => trivial
  | cons e rest ih =>
    unfold updateById
    by_cases hs : e.id = id
    · rw [if_pos (by simpa using hs)]
      exact ⟨h e hs, alike_refl rest⟩
    · rw [if_neg (by simpa using hs)]
      exact ⟨same_refl e, ih⟩

theorem alike_updateFirst (doc : Document) (sel : Element → Bool) (f : Element → Element)
    (h : ∀ e, sel e = true → Same e (f e)) : Alike doc (updateFirst doc sel f) := by
  induction doc with
  | nil => trivial
  | cons e rest ih =>
    unfold updateFirst
    by_cases hs : sel e = true
    · rw [if_pos hs]
      exact ⟨h e hs, alike_refl rest⟩
    · rw [if_neg hs]
      exact ⟨same_refl e, ih⟩

theorem same_flags (e e' : Element) (hid : e'.id = e.id) (hc : e'.classes = e.classes)
    (ht : e'.text = e.text) : Same e e' := by
  refine ⟨hid, ?_, ?_, ?_, fun _ _ _ => ht⟩ <;> rw [hc]

theorem liveBadge_class (e : Element) (h : isLiveBadge e = true) :
    "live-pulse-badge" ∈ e.classes := by
  unfold isLiveBadge at h
  simp only [Bool.and_eq_true, decide_eq_true_eq] at h
  exact h.1

theorem same_paintLive (e : Element) (h : "live-pulse-badge" ∈ e.classes) :
    Same e (paintLive e) := by
  unfold paintLive
  split
  · exact same_paintBadge _ _ _ _ _ (Or.inl h)
  · split
    · exact same_paintBadge _ _ _ _ _ (Or.inl h)
    · split
      · exact same_paintBadge _ _ _ _ _ (Or.inl h)
      · exact same_refl e

theorem same_paintOffline (e : Element) (h : "live-pulse-badge" ∈ e.classes) :
    Same e (paintOffline e) := by
  unfold paintOffline
  split
  · exact same_paintBadge _ _ _ _ _ (Or.inl h)
  · split
    · exact same_paintBadge _ _ _ _ _ (Or.inl h)
    · split
      · exact same_paintBadge _ _ _ _ _ (Or.inl h)
      · exact same_refl e

theorem ticker_not_connection (e : Element) (h : e.id = "ticker-live-text") :
    "live-pulse-badge" ∈ e.classes ∨ "status-badge-text" ∈ e.classes ∨
      (e.id ≠ "connection-icon" ∧ e.id ≠ "connection-text") := by
  rw [h]
  exact Or.inr (Or.inr (by decide))

theorem alike_updateLiveDataBadges (isLive : Bool) (doc : Document) :
    Alike doc (updateLiveDataBadges isLive doc) := by
  unfold updateLiveDataBadges
  apply alike_trans (alike_forEach doc isLiveBadge _ ?_) (alike_updateById _ _ _ ?_)
  · intro e he
    have hc := liveBadge_class e he
    split
    · exact same_paintLive e hc
    · exact same_paintBadge _ _ _ _ _ (Or.inl hc)
  · intro e he
    split
    · exact same_trans (same_setText e _ (ticker_not_connection e he)) (same_setStyle _ _ _)
    · exact same_trans (same_setText e _ (ticker_not_connection e he)) (same_setStyle _ _ _)

theorem alike_updateLiveOfflineLabels (isOnline : Bool) (doc : Document) :
    Alike doc (updateLiveOfflineLabels isOnline doc) := by
  unfold updateLiveOfflineLabels
  refine alike_trans (alike_trans (alike_trans (alike_trans
    (alike_forEach doc isLiveBadge _ ?_) (alike_forEach _ _ _ ?_))
    (alike_forEach _ _ _ ?_)) (alike_forEach _ _ _ ?_)) (alike_updateById _ _ _ ?_)
  · intro e he
    have hc := liveBadge_class e he
    split
    · exact same_paintLive e hc
    · exact same_paintOffline e hc
  · intro e he
    have hc : "status-badge-text" ∈ e.classes := by simpa using he
    exact same_trans (same_setText e _ (Or.inr (Or.inl hc))) (same_setStyle _ _ _)
  · intro e _
    split
    · exact same_trans (same_trans (same_setStyle _ _ _) (same_setStyle _ _ _))
        (same_setStyle _ _ _)
    · exact same_trans (same_trans (same_setStyle _ _ _) (same_setStyle _ _ _))
        (same_setStyle _ _ _)
  · intro e _
    split
    · exact same_setStyle _ _ _
    · split
      · exact same_setStyle _ _ _
      · exact same_refl e
  · intro e he
    exact same_trans (same_setText e _ (ticker_not_connection e he)) (same_setStyle _ _ _)

theorem alike_updateLiveData (doc : Document) : Alike doc (updateLiveData doc) := by
  unfold updateLiveData
  exact alike_updateFirst _ _ _ (fun e _ => same_flags _ _ rfl rfl rfl)

theorem alike_showLiveDataSections (doc : Document) :
    Alike doc (showLiveDataSections doc) := by
  unfold showLiveDataSections
  refine alike_trans (alike_trans (alike_forEach doc _ _ ?_)
    (alike_updateLiveOfflineLabels true _)) (alike_updateLiveData _)
  intro e _
  refine same_trans (same_trans (same_trans (same_trans (same_trans (same_trans
    (same_setStyle e "display" "block") (same_setStyle _ "opacity" "1"))
    (same_setStyle _ "pointerEvents" "auto"))
    (same_removeClass _ "offline-state" (by decide) (by decide) (by decide)))
    (same_addClass _ "online-state" (by decide) (by decide) (by decide)))
    (same_setStyle _ "filter" "none")) (same_flags _ _ rfl rfl rfl)

theorem alike_hideLiveDataSections (doc : Document) :
    Alike doc (hideLiveDataSections doc) := by
  unfold hideLiveDataSections
  refine alike_trans (alike_trans (alike_forEach doc _ _ ?_)
    (alike_updateLiveOfflineLabels false _)) (alike_updateFirst _ _ _ ?_)
  · intro e _
    have h1 : ∀ x : Element, Same x
        (if (!x.offlineIndicator) = true then
          { setStyle x "position" "relative" with offlineIndicator := true }
        else x) := by
      intro x
      split
      · exact same_flags _ _ rfl rfl rfl
      · exact same_refl x
    refine same_trans (same_trans (same_trans (same_trans (same_trans (same_trans
      (same_trans
      (same_setStyle e "display" "block") (same_setStyle _ "opacity" "0.75"))
      (same_setStyle _ "pointerEvents" "none"))
      (same_addClass _ "offline-state" (by decide) (by decide) (by decide)))
      (same_removeClass _ "online-state" (by decide) (by decide) (by decide)))
      (same_setStyle _ "filter" "grayscale(60%) brightness(0.9)"))
      (same_flags _ _ rfl rfl rfl)) (h1 _)
  · intro e _
    split
    · exact same_flags _ _ rfl rfl rfl
    · exact same_refl e

theorem alike_showLocationRequiredMessage (doc : Document) :
    Alike doc (showLocationRequiredMessage doc) := by
  unfold showLocationRequiredMessage
  apply alike_forEach
  intro e _
  split
  · exact same_flags _ _ rfl rfl rfl
  · exact same_refl e

theorem getElementById_id (doc : Document) (id : String) (e : Element)
    (h : getElementById doc id = some e) : e.id = id ∧ e ∈ doc := by
  unfold getElementById at h
  exact ⟨by simpa using List.find?_some h, List.mem_of_find?_eq_some h⟩

theorem getElementById_alike (id : String) (doc doc' : Document) (h : Alike doc doc') :
    (getElementById doc id = none ∧ getElementById doc' id = none) ∨
      ∃ e e', getElementById doc id = some e ∧ getElementById doc' id = some e' ∧
        Same e e' := by
  induction doc generalizing doc' with
  | nil =>
    cases doc' with
    | nil => exact Or.inl ⟨rfl, rfl⟩
    | cons _ _ => exact absurd h (by simp [Alike])
  | cons e rest ih =>
    cases doc' with
    | nil => exact absurd h (by simp [Alike])
    | cons e' rest' =>
      obtain ⟨hs, hr⟩ := h
      by_cases hid : e.id = id
      · right
        refine ⟨e, e', ?_, ?_, hs⟩
        · simp [getElementById, List.find?_cons, hid]
        · simp [getElementById, List.find?_cons, hs.1, hid]
      · have h1 : getElementById (e :: rest) id = getElementById rest id := by
          simp [getElementById, List.find?_cons, hid]
        have h2 : getElementById (e' :: rest') id = getElementById rest' id := by
          simp [getElementById, List.find?_cons, hs.1, hid]
        rw [h1, h2]
        exact ih rest' hr

/-- Pages that are alike show the same indicator, when the icon and the label of the
connection badge are not live labels. -/
theorem indicator_alike (doc doc' : Document) (h : Alike doc doc') (hsep : LabelsApart doc) :
    indicator doc' = indicator doc := by
  unfold indicator
  have hb := getElementById_alike "connection-badge" doc doc' h
  have hi := getElementById_alike "connection-icon" doc doc' h
  have ht := getElementById_alike "connection-text" doc doc' h
  have e1 : (getElementById doc' "connection-badge").map
        (fun badge => decide ("offline" ∈ badge.classes)) =
      (getElementById doc "connection-badge").map
        (fun badge => decide ("offline" ∈ badge.classes)) := by
    rcases hb with ⟨h1, h2⟩ | ⟨e, e', h1, h2, hs⟩
    · rw [h1, h2]
    · rw [h1, h2]
      simp only [Option.map_some', Option.some.injEq, decide_eq_decide]
      exact hs.2.1
  have e2 : (getElementById doc' "connection-icon").map (fun e => e.text) =
      (getElementById doc "connection-icon").map (fun e => e.text) := by
    rcases hi with ⟨h1, h2⟩ | ⟨e, e', h1, h2, hs⟩
    · rw [h1, h2]
    · rw [h1, h2]
      obtain ⟨hid, hmem⟩ := getElementById_id doc _ e h1
      have hap := hsep e hmem (Or.inl hid)
      simp only [Option.map_some', Option.some.injEq]
      exact hs.2.2.2.2 (Or.inl hid) hap.1 hap.2
  have e3 : (getElementById doc' "connection-text").map (fun e => e.text) =
      (getElementById doc "connection-text").map (fun e => e.text) := by
    rcases ht with ⟨h1, h2⟩ | ⟨e, e', h1, h2, hs⟩
    · rw [h1, h2]
    · rw [h1, h2]
      obtain ⟨hid, hmem⟩ := getElementById_id doc _ e h1
      have hap := hsep e hmem (Or.inr hid)
      simp only [Option.map_some', Option.some.injEq]
      exact hs.2.2.2.2 (Or.inr hid) hap.1 hap.2
  rw [e1, e2, e3]

theorem getElementById_updateById_self (doc : Document) (id : String)
    (f : Element → Element) (hf : ∀ e, (f e).id = e.id) :
    getElementById (updateById doc id f) id = (getElementById doc id).map f := by
  induction doc with
  | nil => rfl
  | cons e rest ih =>
    unfold updateById
    by_cases hid : e.id = id
    · rw [if_pos (by simpa using hid)]
      simp [getElementById, List.find?_cons, hf, hid]
    · rw [if_neg (by simpa using hid)]
      have h1 : ∀ l, getElementById (e :: l) id = getElementById l id := by
        intro l
        simp [getElementById, List.find?_cons, hid]
      rw [h1, h1, ih]

theorem getElementById_updateById_ne (doc : Document) (id other : String)
    (f : Element → Element) (hf : ∀ e, (f e).id = e.id) (hne : other ≠ id) :
    getElementById (updateById doc id f) other = getElementById doc other := by
  induction doc with
  | nil => rfl
  | cons e rest ih =>
    unfold updateById
    by_cases hid : e.id = id
    · rw [if_pos (by simpa using hid)]
      have hno : ¬ e.id = other := fun h => hne (h.symm.trans hid)
      simp [getElementById, List.find?_cons, hf, hno]
    · rw [if_neg (by simpa using hid)]
      by_cases ho : e.id = other
      · simp [getElementById, List.find?_cons, ho]
      · have h1 : ∀ l, getElementById (e :: l) other = getElementById l other := by
          intro l
          simp [getElementById, List.find?_cons, ho]
        rw [h1, h1, ih]

theorem labelsApart_updateById (doc : Document) (id : String) (f : Element → Element)
    (hf : ∀ e, (f e).id = e.id ∧
      ("live-pulse-badge" ∈ (f e).classes ↔ "live-pulse-badge" ∈ e.classes) ∧
      ("status-badge-text" ∈ (f e).classes ↔ "status-badge-text" ∈ e.classes))
    (h : LabelsApart doc) : LabelsApart (updateById doc id f) := by
  induction doc with
  | nil => exact h
  | cons e rest ih =>
    have hrest : LabelsApart rest := fun x hx => h x (List.mem_cons_of_mem _ hx)
    have he := h e (List.mem_cons_self _ _)
    unfold updateById
    split
    · intro x hx hid
      rcases List.mem_cons.mp hx with rfl | hx
      · obtain ⟨h1, h2, h3⟩ := hf e
        rw [h1] at hid
        exact ⟨fun hc => (he hid).1 (h2.mp hc), fun hc => (he hid).2 (h3.mp hc)⟩
      · exact hrest x hx hid
    · intro x hx hid
      rcases List.mem_cons.mp hx with rfl | hx
      · exact he hid
      · exact ih hrest x hx hid

theorem indicator_three (doc : Document) (fb fi ft : Element → Element)
    (hfb : ∀ e, (fb e).id = e.id) (hfi : ∀ e, (fi e).id = e.id)
    (hft : ∀ e, (ft e).id = e.id) :
    indicator (updateById (updateById (updateById doc "connection-badge" fb)
        "connection-icon" fi) "connection-text" ft) =
      { offline := (getElementById doc "connection-badge").map
          (fun b => decide ("offline" ∈ (fb b).classes))
        icon := (getElementById doc "connection-icon").map (fun e => (fi e).text)
        text := (getElementById doc "connection-text").map (fun e => (ft e).text) } := by
  unfold indicator
  rw [getElementById_updateById_ne _ "connection-text" "connection-badge" ft hft (by decide),
    getElementById_updateById_ne _ "connection-icon" "connection-badge" fi hfi (by decide),
    getElementById_updateById_self _ "connection-badge" fb hfb,
    getElementById_updateById_ne _ "connection-text" "connection-icon" ft hft (by decide),
    getElementById_updateById_self _ "connection-icon" fi hfi,
    getElementById_updateById_ne _ "connection-badge" "connection-icon" fb hfb (by decide),
    getElementById_updateById_self _ "connection-text" ft hft,
    getElementById_updateById_ne _ "connection-icon" "connection-text" fi hfi (by decide),
    getElementById_updateById_ne _ "connection-badge" "connection-text" fb hfb (by decide)]
  simp only [Option.map_map, Function.comp_def]

theorem addClass_id (e : Element) (c : String) : (addClass e c).id = e.id := by
  unfold addClass
  split <;> rfl

theorem addClass_mem (e : Element) (c : String) : c ∈ (addClass e c).classes := by
  unfold addClass
  split
  · assumption
  · simp

theorem removeClass_not_mem (e : Element) (c : String) : c ∉ (removeClass e c).classes := by
  unfold removeClass
  simp [List.mem_filter]

theorem indicator_showOnlineBadge (doc : Document) :
    indicator (showOnlineBadge doc) =
      { offline := (indicator doc).offline.map (fun _ => false)
        icon := (indicator doc).icon.map (fun _ => "🌐")
        text := (indicator doc).text.map (fun _ => "ONLINE") } := by
  unfold showOnlineBadge
  dsimp only
  rw [indicator_three]
  · unfold indicator
    simp [Option.map_map, Function.comp_def, removeClass_not_mem, setText]
  · intro e; rfl
  · intro e; rfl
  · intro e; rfl

theorem indicator_showOfflineBadge (doc : Document) :
    indicator (showOfflineBadge doc) =
      { offline := (indicator doc).offline.map (fun _ => true)
        icon := (indicator doc).icon.map (fun _ => "📡")
        text := (indicator doc).text.map (fun _ => "OFFLINE") } := by
  unfold showOfflineBadge
  dsimp only
  rw [indicator_three]
  · unfold indicator
    simp [Option.map_map, Function.comp_def, addClass_mem, setText]
  · intro e; exact addClass_id _ _
  · intro e; rfl
  · intro e; rfl

theorem labelsApart_showOnlineBadge (doc : Document) (h : LabelsApart doc) :
    LabelsApart (showOnlineBadge doc) := by
  unfold showOnlineBadge
  dsimp only
  refine labelsApart_updateById _ _ _ (fun e => ⟨rfl, Iff.rfl, Iff.rfl⟩)
    (labelsApart_updateById _ _ _ (fun e => ⟨rfl, Iff.rfl, Iff.rfl⟩)
      (labelsApart_updateById _ _ _ (fun e => ⟨rfl, ?_, ?_⟩) h))
  · exact mem_removeClass _ "offline" "live-pulse-badge" (by decide)
  · exact mem_removeClass _ "offline" "status-badge-text" (by decide)

theorem labelsApart_showOfflineBadge (doc : Document) (h : LabelsApart doc) :
    LabelsApart (showOfflineBadge doc) := by
  unfold showOfflineBadge
  dsimp only
  refine labelsApart_updateById _ _ _ (fun e => ⟨rfl, Iff.rfl, Iff.rfl⟩)
    (labelsApart_updateById _ _ _ (fun e => ⟨rfl, Iff.rfl, Iff.rfl⟩)
      (labelsApart_updateById _ _ _ (fun e => ⟨addClass_id _ _, ?_, ?_⟩) h))
  · exact mem_addClass _ "offline" "live-pulse-badge" (by decide)
  · exact mem_addClass _ "offline" "status-badge-text" (by decide)

theorem alike_disableLive (w : Browser) :
    Alike w.document (disableLiveFeaturesNoLocation w).document :=
  alike_trans (alike_hideLiveDataSections _) (alike_showLocationRequiredMessage _)

theorem alike_checkLocationPermission (granted : Bool) (w : Browser) :
    Alike w.document (checkLocationPermission granted w).2.document := by
  unfold checkLocationPermission
  split
  · exact alike_refl _
  · dsimp only
    split
    · exact alike_refl _
    · split
      · exact alike_refl _
      · exact alike_disableLive _

theorem alike_liveDataSteps (granted : Bool) (w : Browser) :
    Alike w.document (liveDataSteps granted w).document := by
  have hc := alike_checkLocationPermission granted w
  unfold liveDataSteps
  dsimp only
  split
  · exact alike_trans hc (alike_trans (alike_showLiveDataSections _)
      (alike_updateLiveOfflineLabels true _))
  · split
    · exact alike_trans hc (alike_trans (alike_trans (alike_hideLiveDataSections _)
        (alike_showLocationRequiredMessage _)) (alike_updateLiveDataBadges false _))
    · exact alike_trans hc (alike_trans (alike_hideLiveDataSections _)
        (alike_updateLiveOfflineLabels false _))

/-- The indicator after `updateConnectionStatus`: that of STEP 1, which reads the
network signal only. -/
theorem updateConnectionStatus_indicator (granted : Bool) (w : Browser)
    (hsep : LabelsApart w.document) :
    indicator (updateConnectionStatus granted w).document =
      match getElementById w.document "connection-badge" with
      | none => indicator w.document
      | some _ =>
        if w.onLine then indicator (showOnlineBadge w.document)
        else indicator (showOfflineBadge w.document) := by
  unfold updateConnectionStatus
  cases hb : getElementById w.document "connection-badge" with
  | none => rfl
  | some b =>
    dsimp only
    rw [indicator_alike _ _ (alike_liveDataSteps granted _)]
    · dsimp only
      split <;> rfl
    · dsimp only
      split
      · exact labelsApart_showOnlineBadge _ hsep
      · exact labelsApart_showOfflineBadge _ hsep

/-- The indicator after `OfflineManager.updateConnectionBadge` on a page that has
the badge, its icon and its label. -/
theorem indicator_updateConnectionBadge (isOnline : Bool) (doc : Document)
    (b i t : Element) (hb : getElementById doc "connection-badge" = some b)
    (hi : getElementById doc "connection-icon" = some i)
    (ht : getElementById doc "connection-text" = some t) :
    indicator (updateConnectionBadge isOnline doc) =
      { offline := some (!isOnline)
        icon := some (if isOnline then "🌐" else "📡")
        text := some (if isOnline then "ONLINE" else "OFFLINE") } := by
  unfold updateConnectionBadge
  rw [hb, hi, ht]
  dsimp only
  cases isOnline with
  | true =>
    rw [if_pos rfl, indicator_three]
    · simp [hb, hi, ht, removeClass_not_mem, setText]
    · intro e; rfl
    · intro e; rfl
    · intro e; rfl
  | false =>
    rw [if_neg (by decide), indicator_three]
    · simp [hb, hi, ht, addClass_mem, setText]
    · intro e; exact addClass_id _ _
    · intro e; rfl
    · intro e; rfl

/-- C17: the indicator of the connection badge is a function of the network signal
only.  On a page whose badge icon and label are not live labels themselves, two
states that agree on reachability and on the page, whatever their flags and the
outcomes of their location checks, get the same indicator from
`updateConnectionStatus`; with the badge, its icon and its label present it reads
ONLINE exactly when the network is reachable, and so does the one of
`OfflineManager.updateConnectionBadge` for `isOnline`; and
`disableLiveFeaturesNoLocation`, `updateLiveDataBadges` and `updateLiveOfflineLabels`
leave the indicator unchanged. -/
theorem indicator_network_only (w1 w2 : Browser) (g1 g2 isLive : Bool)
    (hnet : w1.onLine = w2.onLine) (hdoc : w1.document = w2.document)
    (hsep : LabelsApart w1.document) :
    indicator (updateConnectionStatus g1 w1).document =
        indicator (updateConnectionStatus g2 w2).document ∧
      (∀ b i t, getElementById w1.document "connection-badge" = some b →
        getElementById w1.document "connection-icon" = some i →
        getElementById w1.document "connection-text" = some t →
        indicator (updateConnectionStatus g1 w1).document =
            { offline := some (!w1.onLine)
              icon := some (if w1.onLine then "🌐" else "📡")
              text := some (if w1.onLine then "ONLINE" else "OFFLINE") } ∧
          ∀ isOnline, indicator (updateConnectionBadge isOnline w1.document) =
            { offline := some (!isOnline)
              icon := some (if isOnline then "🌐" else "📡")
              text := some (if isOnline then "ONLINE" else "OFFLINE") }) ∧
      (∀ isOnline, indicator (updateConnectionBadge isOnline w1.document) =
        indicator (updateConnectionBadge isOnline w2.document)) ∧
      indicator (disableLiveFeaturesNoLocation w1).document = indicator w1.document ∧
      indicator (updateLiveDataBadges isLive w1.document) = indicator w1.document ∧
      indicator (updateLiveOfflineLabels isLive w1.document) = indicator w1.document := by
  refine ⟨?_, ?_, ?_, ?_, ?_, ?_⟩
  · rw [updateConnectionStatus_indicator g1 w1 hsep,
      updateConnectionStatus_indicator g2 w2 (hdoc ▸ hsep), hnet, hdoc]
  · intro b i t hb hi ht
    refine ⟨?_, fun isOnline => indicator_updateConnectionBadge isOnline _ b i t hb hi ht⟩
    rw [updateConnectionStatus_indicator g1 w1 hsep, hb]
    dsimp only
    cases hon : w1.onLine with
    | true =>
      rw [if_pos rfl, indicator_showOnlineBadge]
      simp [indicator, hb, hi, ht]
    | false =>
      rw [if_neg (by decide), indicator_showOfflineBadge]
      simp [indicator, hb, hi, ht]
  · intro isOnline
    rw [hdoc]
  · exact indicator_alike _ _ (alike_disableLive w1) hsep
  · exact indicator_alike _ _ (alike_updateLiveDataBadges isLive _) hsep
  · exact indicator_alike _ _ (alike_updateLiveOfflineLabels isLive _) hsep

/-- Witness of C17: on the sample page, a freshly loaded state and a state with
location granted earlier, both online, show the same indicator after
`updateConnectionStatus`, the second one with its location check denied. -/
theorem indicator_network_only_witness :
    indicator (updateConnectionStatus true (initialBrowser true true samplePage)).document =
      indicator (updateConnectionStatus false grantedEarlier).document :=
  (indicator_network_only (initialBrowser true true samplePage) grantedEarlier true false
    true rfl rfl (by decide)).1

/-! ## The deferred sync queue -/

theorem lookup_setStore (db : Database) (name : String) (st st' : ObjectStore)
    (h : db.stores.lookup name = some st) :
    (db.setStore name st').stores.lookup name = some st' := by
  unfold Database.setStore
  simp only
  obtain ⟨stores⟩ := db
  simp only at h ⊢
  induction stores with
  | nil => simp at h
  | cons p rest ih =>
    obtain ⟨n, s⟩ := p
    by_cases hn : n = name
    · subst hn
      simp
    · have hne : name ≠ n := fun e => hn e.symm
      rw [lookup_cons_of_ne _ _ _ _ hne] at h
      rw [List.map_cons, if_neg (by simpa using hn), lookup_cons_of_ne _ _ _ _ hne]
      exact ih h

theorem predictionsOf_of_has (M : Manager) (st : ObjectStore) (h : HasPredictions M st) :
    predictionsOf M = st.records := by
  obtain ⟨db, h1, h2⟩ := h
  simp [predictionsOf, getFromIndexedDB, h1, h2]

theorem updatePrediction_of_has (M : Manager) (st : ObjectStore) (p : Record)
    (h : HasPredictions M st) :
    ∃ M', updatePrediction M p = (Promised.resolved p, M') ∧
      HasPredictions M' (storePut st p) ∧ M'.isOnline = M.isOnline := by
  obtain ⟨db, h1, h2⟩ := h
  refine ⟨{ M with db := some (db.setStore "predictions" (storePut st p)) }, ?_, ?_, rfl⟩
  · simp [updatePrediction, h1, h2]
  · exact ⟨_, rfl, lookup_setStore db _ st _ h2⟩

theorem set_id (p : Record) (name : String) (v : Field) : (p.set name v).id = p.id := rfl

theorem get_set (p : Record) (name : String) (v : Field) :
    (p.set name v).get name = some v := by
  unfold Record.get Record.set
  simp only
  cases h : List.lookup name p.fields with
  | none =>
    simp only [Option.isSome_none, Bool.false_eq_true, if_false]
    rw [List.lookup_append, h]
    simp
  | some w =>
    simp only [Option.isSome_some, if_true]
    generalize p.fields = fs at h
    induction fs with
    | nil => simp at h
    | cons q rest ih =>
      obtain ⟨n, x⟩ := q
      by_cases hn : n = name
      · subst hn; simp
      · have hne : name ≠ n := fun e => hn e.symm
        rw [lookup_cons_of_ne _ _ _ _ hne] at h
        rw [List.map_cons, if_neg (by simpa using hn), lookup_cons_of_ne _ _ _ _ hne]
        exact ih h

/-- A `put` of a record whose key is stored replaces the record of that key. -/
theorem storePut_present (st : ObjectStore) (p : Record) (k : Nat) (hk : p.id = some k)
    (hin : some k ∈ st.records.map (fun r => r.id)) :
    storePut st p =
      { st with records := st.records.map (fun r => if r.id == some k then p else r) } := by
  unfold storePut
  rw [hk]
  simp only
  rw [if_pos]
  rw [List.any_eq_true]
  obtain ⟨r, hr, hrk⟩ := List.mem_map.mp hin
  exact ⟨r, hr, by simp [hrk]⟩

theorem ids_replace (records : List Record) (p : Record) (k : Nat) (hk : p.id = some k) :
    (records.map (fun r => if r.id == some k then p else r)).map (fun r => r.id) =
      records.map (fun r => r.id) := by
  rw [List.map_map]
  apply List.map_congr_left
  intro r _
  by_cases h : r.id = some k
  · simp [h, hk]
  · simp [h]

theorem mem_replace (records : List Record) (p r' : Record) (k : Nat)
    (h : r' ∈ records.map (fun r => if r.id == some k then p else r)) :
    r' = p ∨ (r' ∈ records ∧ r'.id ≠ some k) := by
  obtain ⟨r, hr, hrr⟩ := List.mem_map.mp h
  by_cases hk : r.id = some k
  · left
    simpa [hk] using hrr.symm
  · right
    have : r' = r := by simpa [hk] using hrr.symm
    subst this
    exact ⟨hr, hk⟩

theorem mem_replace_of_ne (records : List Record) (p r : Record) (k : Nat)
    (hr : r ∈ records) (hk : r.id ≠ some k) :
    r ∈ records.map (fun r => if r.id == some k then p else r) :=
  List.mem_map.mpr ⟨r, hr, by simp [hk]⟩

/-- What the loop of `syncPendingData` does, on a manager whose predictions store
holds the keys of the records it goes through. -/
theorem syncLoop_spec (deliver : Record → Delivery) (l : List Record) :
    ∀ (M : Manager) (st : ObjectStore), HasPredictions M st →
      (∀ p ∈ l, ∃ k, p.id = some k ∧ some k ∈ st.records.map (fun r => r.id)) →
      ∃ st', HasPredictions (syncLoop deliver l M).2 st' ∧
        (syncLoop deliver l M).2.isOnline = M.isOnline ∧
        (syncLoop deliver l M).1 = untilFailure deliver l ∧
        st'.keyGenerator = st.keyGenerator ∧
        st'.records.map (fun r => r.id) = st.records.map (fun r => r.id) ∧
        (∀ r ∈ st.records,
          (∀ p ∈ (syncLoop deliver l M).1, deliver p = Delivery.acknowledged →
            p.id ≠ r.id) → r ∈ st'.records) ∧
        (∀ r' ∈ st'.records, r' ∈ st.records ∨
          ∃ p ∈ l, deliver p = Delivery.acknowledged ∧
            r' = p.set "synced" (Field.bool true)) ∧
        ((∀ p ∈ l, deliver p = Delivery.acknowledged) →
          ∀ r' ∈ st'.records, (r' ∈ st.records ∧ ∀ p ∈ l, p.id ≠ r'.id) ∨
            ∃ p ∈ l, r' = p.set "synced" (Field.bool true)) := by
  induction l with
  | nil =>
    intro M st h _
    exact ⟨st, h, rfl, rfl, rfl, rfl, fun r hr _ => hr, fun r' hr' => Or.inl hr',
      fun _ r' hr' => Or.inl ⟨hr', fun p hp => absurd hp (List.not_mem_nil p)⟩⟩
  | cons p rest ih =>
    intro M st h hkeys
    have hrest : ∀ q ∈ rest, ∃ k, q.id = some k ∧ some k ∈ st.records.map (fun r => r.id) :=
      fun q hq => hkeys q (List.mem_cons_of_mem _ hq)
    cases hd : deliver p with
    | failed =>
      refine ⟨st, ?_, ?_, ?_, rfl, rfl, fun r hr _ => hr, fun r' hr' => Or.inl hr', ?_⟩
      · simp only [syncLoop, hd]; exact h
      · simp only [syncLoop, hd]
      · simp only [syncLoop, hd, untilFailure, if_true]
      · intro hall
        have := hall p (List.mem_cons_self _ _)
        rw [hd] at this
        exact absurd this (by decide)
    | refused =>
      obtain ⟨st', h1, h2, h3, h4, h5, h6, h7, _⟩ := ih M st h hrest
      refine ⟨st', ?_, ?_, ?_, h4, h5, ?_, ?_, ?_⟩
      · simp only [syncLoop, hd]; exact h1
      · simp only [syncLoop, hd]; exact h2
      · simp only [syncLoop, hd, untilFailure, h3]
        rw [if_neg (by decide)]
      · intro r hr hno
        have e : (syncLoop deliver (p :: rest) M).1 = p :: (syncLoop deliver rest M).1 := by
          simp only [syncLoop, hd]
        rw [e] at hno
        exact h6 r hr (fun q hq => hno q (List.mem_cons_of_mem _ hq))
      · intro r' hr'
        rcases h7 r' hr' with hm | ⟨q, hq, hq2⟩
        · exact Or.inl hm
        · exact Or.inr ⟨q, List.mem_cons_of_mem _ hq, hq2⟩
      · intro hall
        have := hall p (List.mem_cons_self _ _)
        rw [hd] at this
        exact absurd this (by decide)
    | acknowledged =>
      obtain ⟨k, hk, hin⟩ := hkeys p (List.mem_cons_self _ _)
      obtain ⟨M', hu, hM', hon⟩ :=
        updatePrediction_of_has M st (p.set "synced" (Field.bool true)) h
      have hput := storePut_present st (p.set "synced" (Field.bool true)) k hk hin
      rw [hput] at hM'
      have hids := ids_replace st.records (p.set "synced" (Field.bool true)) k hk
      obtain ⟨st', h1, h2, h3, h4, h5, h6, h7, h8⟩ := ih M' _ hM'
        (fun q hq => by
          obtain ⟨kq, hkq, hinq⟩ := hrest q hq
          exact ⟨kq, hkq, by simpa only [hids] using hinq⟩)
      refine ⟨st', ?_, ?_, ?_, h4, ?_, ?_, ?_, ?_⟩
      · simp only [syncLoop, hd, hu]; exact h1
      · simp only [syncLoop, hd, hu]; exact h2.trans hon
      · simp only [syncLoop, hd, hu, untilFailure, h3]
        rw [if_neg (by decide)]
      · rw [h5]; exact hids
      · intro r hr hno
        have e : (syncLoop deliver (p :: rest) M).1 = p :: (syncLoop deliver rest M').1 := by
          simp only [syncLoop, hd, hu]
        rw [e] at hno
        have hne : r.id ≠ some k := by
          intro e
          exact hno p (List.mem_cons_self _ _) hd (hk.trans e.symm)
        exact h6 r (mem_replace_of_ne _ _ _ _ hr hne)
          (fun q hq => hno q (List.mem_cons_of_mem _ hq))
      · intro r' hr'
        rcases h7 r' hr' with hm | ⟨q, hq, hq2⟩
        · rcases mem_replace _ _ _ _ hm with he | ⟨hm2, _⟩
          · exact Or.inr ⟨p, List.mem_cons_self _ _, hd, he⟩
          · exact Or.inl hm2
        · exact Or.inr ⟨q, List.mem_cons_of_mem _ hq, hq2⟩
      · intro hall r' hr'
        rcases h8 (fun q hq => hall q (List.mem_cons_of_mem _ hq)) r' hr' with
          ⟨hm, hno⟩ | ⟨q, hq, hq2⟩
        · rcases mem_replace _ _ _ _ hm with he | ⟨hm2, hne⟩
          · exact Or.inr ⟨p, List.mem_cons_self _ _, he⟩
          · refine Or.inl ⟨hm2, ?_⟩
            intro q hq
            rcases List.mem_cons.mp hq with rfl | hq
            · rw [hk]; exact fun e => hne e.symm
            · exact hno q hq
        · exact Or.inr ⟨q, List.mem_cons_of_mem _ hq, hq2⟩

theorem untilFailure_all (deliver : Record → Delivery) (l : List Record)
    (h : ∀ r ∈ l, deliver r ≠ Delivery.failed) : untilFailure deliver l = l := by
  induction l with
  | nil => rfl
  | cons r rest ih =>
    rw [untilFailure, if_neg (h r (List.mem_cons_self _ _)),
      ih (fun q hq => h q (List.mem_cons_of_mem _ hq))]

theorem eq_of_same_key (records : List Record) (hnd : (records.map (fun r => r.id)).Nodup)
    (p r : Record) (hp : p ∈ records) (hr : r ∈ records) (h : p.id = r.id) : p = r :=
  List.inj_on_of_nodup_map hnd hp hr h

/-- The run of `syncPendingData` while online, on a valid predictions store, is the
loop over the unsynced records. -/
theorem syncPendingData_online (deliver : Record → Delivery) (M : Manager)
    (hon : M.isOnline = true) (hv : ValidPredictions M) :
    ∃ st, HasPredictions M st ∧
      (∀ r ∈ st.records, ∃ k, r.id = some k ∧ k < st.keyGenerator) ∧
      (st.records.map (fun r => r.id)).Nodup ∧
      unsyncedOf M = st.records.filter (fun p => !truthy (p.get "synced")) ∧
      syncPendingData deliver M = syncLoop deliver (unsyncedOf M) M ∧
      (∀ p ∈ unsyncedOf M, ∃ k, p.id = some k ∧ some k ∈ st.records.map (fun r => r.id)) := by
  obtain ⟨db, st, h1, h2, h3, h4⟩ := hv
  have hp : predictionsOf M = st.records := predictionsOf_of_has M st ⟨db, h1, h2⟩
  have hu : unsyncedOf M = st.records.filter (fun p => !truthy (p.get "synced")) := by
    unfold unsyncedOf
    rw [hp]
  refine ⟨st, ⟨db, h1, h2⟩, h3, h4, hu, ?_, ?_⟩
  · rw [hu]
    simp [syncPendingData, hon, getFromIndexedDB, h1, h2]
  · intro p hp2
    rw [hu] at hp2
    have hmem := (List.mem_filter.mp hp2).1
    obtain ⟨k, hk, _⟩ := h3 p hmem
    exact ⟨k, hk, List.mem_map.mpr ⟨p, hmem, hk⟩⟩

/-- C19 fails as stated: with two unsynced records, the network failing for the
first and the server ready to acknowledge the second, `syncPendingData` sends the
first request only; the second record gets no attempt. -/
theorem syncPendingData_stops_at_failure :
    unsyncedOf twoPending = [storedPrediction 1 false, storedPrediction 2 false] ∧
      firstFails (storedPrediction 1 false) = Delivery.failed ∧
      firstFails (storedPrediction 2 false) = Delivery.acknowledged ∧
      (syncPendingData firstFails twoPending).1 = [storedPrediction 1 false] ∧
      storedPrediction 2 false ∉ (syncPendingData firstFails twoPending).1 := by
  decide

/-- C19, amended: run while online, `syncPendingData` attempts a delivery for the
unsynced records in order, up to and including the first whose request fails with
a network error; a non-2xx response does not end the attempts, so with no network
error every unsynced record gets its attempt; and every unsynced record whose
delivery was not acknowledged, or not attempted, stays in the store unsynced. -/
theorem syncPendingData_attempts (deliver : Record → Delivery) (M : Manager)
    (hon : M.isOnline = true) (hv : ValidPredictions M) :
    (syncPendingData deliver M).1 = untilFailure deliver (unsyncedOf M) ∧
      ((∀ r ∈ unsyncedOf M, deliver r ≠ Delivery.failed) →
        (syncPendingData deliver M).1 = unsyncedOf M) ∧
      (∀ r ∈ unsyncedOf M, deliver r ≠ Delivery.acknowledged →
        r ∈ unsyncedOf (syncPendingData deliver M).2) ∧
      (∀ r ∈ unsyncedOf M, r ∉ (syncPendingData deliver M).1 →
        r ∈ unsyncedOf (syncPendingData deliver M).2) := by
  obtain ⟨st, hM, hkeyed, hnd, hu, hrun, hkeys⟩ := syncPendingData_online deliver M hon hv
  obtain ⟨st', h1, _, h3, _, _, h6, _, _⟩ := syncLoop_spec deliver (unsyncedOf M) M st hM hkeys
  rw [hrun]
  have hfinal : unsyncedOf (syncLoop deliver (unsyncedOf M) M).2 =
      st'.records.filter (fun p => !truthy (p.get "synced")) := by
    have e := predictionsOf_of_has _ st' h1
    show List.filter _ (predictionsOf (syncLoop deliver (unsyncedOf M) M).2) = _
    rw [e]
  have hatt : ∀ p ∈ (syncLoop deliver (unsyncedOf M) M).1, p ∈ st.records := by
    intro p hp
    rw [h3] at hp
    have hsub : ∀ l : List Record, ∀ q ∈ untilFailure deliver l, q ∈ l := by
      intro l
      induction l with
      | nil => intro q hq; exact hq
      | cons a rest ih =>
        intro q hq
        rw [untilFailure] at hq
        split at hq
        · rcases List.mem_singleton.mp hq with rfl
          exact List.mem_cons_self _ _
        · rcases List.mem_cons.mp hq with rfl | hq
          · exact List.mem_cons_self _ _
          · exact List.mem_cons_of_mem _ (ih q hq)
    have := hsub _ p hp
    rw [hu] at this
    exact (List.mem_filter.mp this).1
  refine ⟨h3, fun hno => h3.trans (untilFailure_all deliver _ hno), ?_, ?_⟩
  · intro r hr hnack
    have hr2 := hr
    rw [hu] at hr2
    obtain ⟨hmem, huns⟩ := List.mem_filter.mp hr2
    rw [hfinal]
    refine List.mem_filter.mpr ⟨h6 r hmem ?_, huns⟩
    intro p hp hack hid
    have := eq_of_same_key st.records hnd p r (hatt p hp) hmem hid
    subst this
    exact hnack hack
  · intro r hr hnatt
    have hr2 := hr
    rw [hu] at hr2
    obtain ⟨hmem, huns⟩ := List.mem_filter.mp hr2
    rw [hfinal]
    refine List.mem_filter.mpr ⟨h6 r hmem ?_, huns⟩
    intro p hp _ hid
    have := eq_of_same_key st.records hnd p r (hatt p hp) hmem hid
    subst this
    exact hnatt hp

/-- Witness of C19, amended: with the first of two records refused and the second
acknowledged, both get their attempt and the refused one stays unsynced. -/
theorem syncPendingData_attempts_witness :
    (syncPendingData firstRefused twoPending).1 = unsyncedOf twoPending ∧
      storedPrediction 1 false ∈ unsyncedOf (syncPendingData firstRefused twoPending).2 :=
  have hv : ValidPredictions twoPending :=
    ⟨_, _, rfl, rfl, by decide, by decide⟩
  ⟨(syncPendingData_attempts firstRefused twoPending rfl hv).2.1 (by decide),
    (syncPendingData_attempts firstRefused twoPending rfl hv).2.2.1 _ (by decide)
      (by decide)⟩

/-- The record `savePrediction` stores under the next key. -/
theorem savePrediction_stores (now : String) (M : Manager) (type inputs output : Field)
    (st : ObjectStore) (h : HasPredictions M st) :
    HasPredictions (savePrediction now M type inputs output).2
        { records := st.records ++
            [{ id := some st.keyGenerator
               fields := [("type", type), ("inputs", inputs), ("output", output),
                 ("timestamp", Field.str now), ("synced", Field.bool false)] }]
          keyGenerator := st.keyGenerator + 1 } ∧
      (savePrediction now M type inputs output).2.isOnline = M.isOnline := by
  obtain ⟨db, h1, h2⟩ := h
  simp only [savePrediction, h1, h2, storeAdd]
  exact ⟨⟨_, rfl, lookup_setStore db _ st _ h2⟩, trivial⟩

/-- C20: on an online manager with a valid predictions store, `savePrediction`
followed by `syncPendingData` against an endpoint that acknowledges every request
leaves the predictions store with exactly one more record than before; every record
then is synced; no key occurs twice; and one record, under a key that was not stored
before, carries the given type, inputs and output with `synced` true. -/
theorem save_then_sync (now : String) (M : Manager) (type inputs output : Field)
    (deliver : Record → Delivery) (hon : M.isOnline = true) (hv : ValidPredictions M)
    (hack : ∀ r, deliver r = Delivery.acknowledged) :
    (predictionsOf
        (syncPendingData deliver (savePrediction now M type inputs output).2).2).length =
        (predictionsOf M).length + 1 ∧
      (∀ r ∈ predictionsOf
          (syncPendingData deliver (savePrediction now M type inputs output).2).2,
        truthy (r.get "synced") = true) ∧
      ((predictionsOf
          (syncPendingData deliver (savePrediction now M type inputs output).2).2).map
        (fun r => r.id)).Nodup ∧
      (∃ r ∈ predictionsOf
          (syncPendingData deliver (savePrediction now M type inputs output).2).2,
        r.id ∉ (predictionsOf M).map (fun r => r.id) ∧
          r.get "type" = some type ∧ r.get "inputs" = some inputs ∧
          r.get "output" = some output ∧ r.get "synced" = some (Field.bool true)) := by
  obtain ⟨db, st, h1, h2, h3, h4⟩ := hv
  have hM : HasPredictions M st := ⟨db, h1, h2⟩
  obtain ⟨hM1, hon1⟩ := savePrediction_stores now M type inputs output st hM
  generalize savePrediction now M type inputs output = saved at hM1 hon1 ⊢
  generalize hnew : ({ id := some st.keyGenerator
                       fields := [("type", type), ("inputs", inputs), ("output", output),
                         ("timestamp", Field.str now), ("synced", Field.bool false)] } :
    Record) = newRec at hM1
  have hnewid : newRec.id = some st.keyGenerator := by rw [← hnew]
  have hfresh : some st.keyGenerator ∉ st.records.map (fun r => r.id) := by
    intro hm
    obtain ⟨r, hr, hrk⟩ := List.mem_map.mp hm
    obtain ⟨k, hk, hlt⟩ := h3 r hr
    rw [hk] at hrk
    have : k = st.keyGenerator := by simpa using hrk
    omega
  have hnd1 : ((st.records ++ [newRec]).map (fun r => r.id)).Nodup := by
    rw [List.map_append, List.nodup_append]
    refine ⟨h4, by simp, ?_⟩
    intro a ha hb
    have : a = some st.keyGenerator := by simpa [hnewid] using hb
    exact hfresh (this ▸ ha)
  have hv1 : ValidPredictions saved.2 := by
    obtain ⟨db1, e1, e2⟩ := hM1
    refine ⟨db1, _, e1, e2, ?_, hnd1⟩
    intro r hr
    rcases List.mem_append.mp hr with hr | hr
    · obtain ⟨k, hk, hlt⟩ := h3 r hr
      exact ⟨k, hk, Nat.lt_succ_of_lt hlt⟩
    · have : r = newRec := by simpa using hr
      exact ⟨st.keyGenerator, by rw [this, hnewid], Nat.lt_succ_self _⟩
  obtain ⟨st1, hM1', _, _, hu, hrun, hkeys⟩ :=
    syncPendingData_online deliver saved.2 (hon1.trans hon) hv1
  have hst1 : st1.records = st.records ++ [newRec] := by
    have a := predictionsOf_of_has _ _ hM1
    have b := predictionsOf_of_has _ _ hM1'
    rw [a] at b
    exact b.symm
  obtain ⟨st', g1, _, _, _, g5, _, _, g8⟩ :=
    syncLoop_spec deliver (unsyncedOf saved.2) saved.2 st1 hM1' hkeys
  have g8' := g8 (fun p _ => hack p)
  rw [hrun, predictionsOf_of_has _ st' g1, predictionsOf_of_has M st hM]
  have hnewmem : newRec ∈ unsyncedOf saved.2 := by
    rw [hu, hst1]
    refine List.mem_filter.mpr ⟨by simp, ?_⟩
    rw [← hnew]
    rfl
  have hids : st'.records.map (fun r => r.id) = (st.records ++ [newRec]).map (fun r => r.id) := by
    rw [g5, hst1]
  refine ⟨?_, ?_, ?_, ?_⟩
  · have := congrArg List.length hids
    simpa using this
  · intro r hr
    rcases g8' r hr with ⟨hmem, hno⟩ | ⟨p, _, hp⟩
    · by_contra hns
      have hru : r ∈ unsyncedOf saved.2 := by
        rw [hu]
        exact List.mem_filter.mpr ⟨hmem, by simpa using hns⟩
      exact hno r hru rfl
    · rw [hp, get_set]
      rfl
  · rw [hids]
    exact hnd1
  · have hin : some st.keyGenerator ∈ st'.records.map (fun r => r.id) := by
      rw [hids]
      simp [hnewid]
    obtain ⟨r, hr, hrk⟩ := List.mem_map.mp hin
    refine ⟨r, hr, by rw [hrk]; exact hfresh, ?_⟩
    rcases g8' r hr with ⟨_, hno⟩ | ⟨p, hp, hpr⟩
    · exact absurd (hnewid.trans hrk.symm) (hno newRec hnewmem)
    · have hpid : p.id = newRec.id := by
        rw [hnewid, ← hrk, hpr]
        rfl
      have hpmem : p ∈ st.records ++ [newRec] := by
        have := hp
        rw [hu, hst1] at this
        exact (List.mem_filter.mp this).1
      have hpe : p = newRec :=
        eq_of_same_key _ hnd1 p newRec hpmem (by simp) hpid
      rw [hpr, hpe, ← hnew]
      simp [Record.get, Record.set, List.lookup]

/-- Witness of C20: a prediction saved next to two pending ones and flushed against
an endpoint that acknowledges everything gives three records, all synced. -/
theorem save_then_sync_witness :
    (predictionsOf (syncPendingData (fun _ => Delivery.acknowledged)
        (savePrediction "2024-05-02T08:00:00.000Z" twoPending (Field.str "feed")
          (Field.str "age 30") (Field.str "15.5")).2).2).length = 3 :=
  (save_then_sync "2024-05-02T08:00:00.000Z" twoPending (Field.str "feed")
    (Field.str "age 30") (Field.str "15.5") (fun _ => Delivery.acknowledged) rfl
    ⟨_, _, rfl, rfl, by decide, by decide⟩ (fun _ => rfl)).1

/-! ## Only 2xx responses are written -/

theorem cacheFirst_writes_ok (P : Platform) (s : CacheStorage) (request : Request) :
    ∀ w ∈ (cacheFirst P s request).writes, w.response.ok = true := by
  intro w hw
  unfold cacheFirst cacheFirstCatch at hw
  repeat' split at hw
  all_goals simp_all

theorem cacheFirstWithUpdate_writes_ok (P : Platform) (s : CacheStorage)
    (request : Request) :
    ∀ w ∈ (cacheFirstWithUpdate P s request).writes, w.response.ok = true := by
  intro w hw
  unfold cacheFirstWithUpdate at hw
  repeat' split at hw
  all_goals simp_all

theorem scanCaches_writes (P : Platform) (request : Request) (names : List String) :
    ∀ s, (scanCaches P request s names).writes = [] := by
  induction names with
  | nil => intro s; rfl
  | cons n rest ih =>
    intro s
    unfold scanCaches
    repeat' split
    all_goals first | rfl | exact ih _

theorem networkFirst_writes_ok (P : Platform) (s : CacheStorage) (request : Request) :
    ∀ w ∈ (networkFirst P s request).writes, w.response.ok = true := by
  intro w hw
  unfold networkFirst networkFirstCatch at hw
  repeat' split at hw
  all_goals simp_all [scanCaches_writes]

theorem cacheFirstExternal_writes_ok (P : Platform) (s : CacheStorage)
    (request : Request) :
    ∀ w ∈ (cacheFirstExternal P s request).writes, w.response.ok = true := by
  intro w hw
  unfold cacheFirstExternal cacheFirstExternalCatch at hw
  repeat' split at hw
  all_goals simp_all

theorem passesThrough_opened (s : CacheStorage) (name : String) (r : Response) :
    PassesThrough ⟨Settled.fulfilled (some r), openTier s name, []⟩ s r :=
  ⟨rfl, rfl, fun other => tierOf_openTier s name other⟩

/-- C30: a fetched response that is not a 2xx response is never written: when the
network returns such a response (and, for the cache-first strategies, the tier has
no entry for the request), each of the four strategies returns that response, issues
no write, and leaves the entries of every cache tier as before; and in every run of
every strategy each issued write carries a 2xx response. -/
theorem non2xx_not_cached (P : Platform) (s : CacheStorage) (request : Request)
    (r : Response) (hops : P.cacheOpsSucceed) (hfetch : P.fetch = some r)
    (hnot : r.ok = false) :
    (NoEntry s STATIC_CACHE request → PassesThrough (cacheFirst P s request) s r) ∧
      (NoEntry s PAGES_CACHE request →
        PassesThrough (cacheFirstWithUpdate P s request) s r) ∧
      PassesThrough (networkFirst P s request) s r ∧
      (NoEntry s STATIC_CACHE request →
        PassesThrough (cacheFirstExternal P s request) s r) ∧
      (∀ (st : Strategy) (P' : Platform) (s' : CacheStorage) (request' : Request),
        ∀ w ∈ (st.run P' s' request').writes, w.response.ok = true) := by
  obtain ⟨hopen, hmatch, _⟩ := hops
  refine ⟨?_, ?_, ?_, ?_, ?_⟩
  · intro hmiss
    rw [cacheFirst_miss_fetched P s request r (hopen _) (hmatch _) hmiss hfetch]
    simp only [hnot, Bool.false_eq_true, if_false]
    exact passesThrough_opened s _ r
  · intro hmiss
    unfold NoEntry at hmiss
    have : cacheFirstWithUpdate P s request =
        ⟨Settled.fulfilled (some r), openTier s PAGES_CACHE, []⟩ := by
      simp [cacheFirstWithUpdate, cachesOpen, cacheMatch, hopen, hmatch, tierOf_openTier,
        hmiss, hfetch, hnot]
    rw [this]
    exact passesThrough_opened s _ r
  · have : networkFirst P s request = ⟨Settled.fulfilled (some r), s, []⟩ := by
      simp [networkFirst, hfetch, hnot]
    rw [this]
    exact ⟨rfl, rfl, fun _ => rfl⟩
  · intro hmiss
    unfold NoEntry at hmiss
    have : cacheFirstExternal P s request =
        ⟨Settled.fulfilled (some r), openTier s STATIC_CACHE, []⟩ := by
      simp [cacheFirstExternal, cachesOpen, cacheMatch, hopen, hmatch, tierOf_openTier,
        hmiss, hfetch, hnot]
    rw [this]
    exact passesThrough_opened s _ r
  · intro st P' s' request'
    cases st with
    | cacheFirst => exact cacheFirst_writes_ok P' s' request'
    | cacheFirstWithUpdate => exact cacheFirstWithUpdate_writes_ok P' s' request'
    | networkFirst => exact networkFirst_writes_ok P' s' request'
    | cacheFirstExternal => exact cacheFirstExternal_writes_ok P' s' request'

/-- Witness of C30: a 503 answer to the style sheet request is returned by
`cacheFirst` and nothing is stored. -/
theorem non2xx_not_cached_witness :
    PassesThrough (cacheFirst serverBusy [] styleRequest) [] unavailableResponse :=
  (non2xx_not_cached serverBusy [] styleRequest unavailableResponse
    ⟨fun _ => rfl, fun _ => rfl, rfl⟩ rfl (by decide)).1 (by decide)

/-! ## The recomputation of the flag -/

/-- C29 fails as stated: on a page without the connection badge, loaded online, a
run of `updateConnectionStatus` with location denied leaves `ALLOW_LIVE_DATA` true,
although `checkLocationPermission` would return false. -/
theorem updateConnectionStatus_without_badge :
    getElementById (initialBrowser true true []).document "connection-badge" = none ∧
      (initialBrowser true true []).onLine = true ∧
      (checkLocationPermission false (initialBrowser true true [])).1 = false ∧
      (updateConnectionStatus false (initialBrowser true true [])).ALLOW_LIVE_DATA = true := by
  decide

/-- C29, amended: on a page that has the connection badge, every run of
`updateConnectionStatus` recomputes the flag: when it completes `ALLOW_LIVE_DATA`
equals network reachable and the value returned by `checkLocationPermission`, for
every prior flag state; on a page without the badge the run changes nothing. -/
theorem updateConnectionStatus_recomputes (granted : Bool) (w : Browser) :
    ((getElementById w.document "connection-badge").isSome = true →
        (updateConnectionStatus granted w).ALLOW_LIVE_DATA =
          (w.onLine && (checkLocationPermission granted w).1)) ∧
      (getElementById w.document "connection-badge" = none →
        updateConnectionStatus granted w = w) := by
  have hf := updateConnectionStatus_flags granted w
  refine ⟨?_, hf.2.2⟩
  intro hb
  rw [(hf.2.1 hb).1, (hf.2.1 hb).2]

/-- Witness of C29, amended: on the sample page, loaded online, a run with location
denied turns the flag off. -/
theorem updateConnectionStatus_recomputes_witness :
    (updateConnectionStatus false (initialBrowser true true samplePage)).ALLOW_LIVE_DATA =
      false :=
  (updateConnectionStatus_recomputes false (initialBrowser true true samplePage)).1
    (by decide)

/-! ## The queue keeps the records -/

theorem get_set_other (p : Record) (name other : String) (v : Field) (h : other ≠ name) :
    (p.set name v).get other = p.get other := by
  unfold Record.get Record.set
  simp only
  split
  · generalize p.fields = fs
    induction fs with
    | nil => rfl
    | cons q rest ih =>
      obtain ⟨n, x⟩ := q
      by_cases hn : n = name
      · subst hn
        rw [List.map_cons, if_pos (by simp), lookup_cons_of_ne _ _ _ _ h,
          lookup_cons_of_ne _ _ _ _ h]
        exact ih
      · rw [List.map_cons, if_neg (by simpa using hn)]
        by_cases ho : other = n
        · subst ho
          simp
        · rw [lookup_cons_of_ne _ _ _ _ ho, lookup_cons_of_ne _ _ _ _ ho]
          exact ih
  · rw [List.lookup_append, lookup_cons_of_ne _ _ _ _ h]
    simp

theorem kept_refl (r : Record) : Kept r r := ⟨rfl, fun _ _ => rfl, fun h => h⟩

theorem kept_set_synced (r : Record) : Kept r (r.set "synced" (Field.bool true)) :=
  ⟨rfl, fun name h => get_set_other r "synced" name _ h, fun _ => by rw [get_set]; rfl⟩

/-- Two lists with the same image under `f` are related position by position. -/
theorem forall₂_of_map_eq {α β : Type} (f : α → β) :
    ∀ (l l' : List α), l.map f = l'.map f →
      List.Forall₂ (fun a b => a ∈ l ∧ b ∈ l' ∧ f a = f b) l l'
  | [], [], _ => List.Forall₂.nil
  | [], _ :: _, h => by simp at h
  | _ :: _, [], h => by simp at h
  | a :: l, b :: l', h => by
    simp only [List.map_cons, List.cons.injEq] at h
    refine List.Forall₂.cons ⟨List.mem_cons_self _ _, List.mem_cons_self _ _, h.1⟩ ?_
    exact (forall₂_of_map_eq f l l' h.2).imp
      (fun x y hxy => ⟨List.mem_cons_of_mem _ hxy.1, List.mem_cons_of_mem _ hxy.2.1, hxy.2.2⟩)

/-- The attempts of the loop are an initial part of the records it is given. -/
theorem syncLoop_initial (deliver : Record → Delivery) (l : List Record) :
    ∀ M : Manager, (syncLoop deliver l M).1 <+: l := by
  induction l with
  | nil => intro M; exact List.prefix_refl _
  | cons p rest ih =>
    intro M
    cases hd : deliver p with
    | failed =>
      simp only [syncLoop, hd]
      exact ⟨rest, rfl⟩
    | refused =>
      simp only [syncLoop, hd]
      exact (List.prefix_cons_inj p).mpr (ih M)
    | acknowledged =>
      simp only [syncLoop, hd]
      split
      · exact ⟨rest, rfl⟩
      · exact (List.prefix_cons_inj p).mpr (ih _)

theorem syncPendingData_offline (deliver : Record → Delivery) (M : Manager)
    (hoff : M.isOnline = false) : syncPendingData deliver M = ([], M) := by
  simp [syncPendingData, hoff]

/-- The attempts of a flush are an initial part of the unsynced records. -/
theorem syncPendingData_initial (deliver : Record → Delivery) (M : Manager) :
    (syncPendingData deliver M).1 <+: unsyncedOf M := by
  unfold syncPendingData unsyncedOf predictionsOf
  split
  · exact List.nil_prefix
  · cases getFromIndexedDB M "predictions" with
    | rejected reason => exact List.nil_prefix
    | resolved predictions => exact syncLoop_initial deliver _ M

theorem untilFailure_subset (deliver : Record → Delivery) :
    ∀ (l : List Record), ∀ q ∈ untilFailure deliver l, q ∈ l := by
  intro l
  induction l with
  | nil => intro q hq; exact hq
  | cons a rest ih =>
    intro q hq
    rw [untilFailure] at hq
    split at hq
    · rcases List.mem_singleton.mp hq with rfl
      exact List.mem_cons_self _ _
    · rcases List.mem_cons.mp hq with rfl | hq
      · exact List.mem_cons_self _ _
      · exact List.mem_cons_of_mem _ (ih q hq)

/-- The store after a flush on a valid predictions store: it is valid, the records
keep their places, and each is kept or is the marked copy of an acknowledged one. -/
theorem syncPendingData_spec (deliver : Record → Delivery) (M : Manager)
    (hv : ValidPredictions M) :
    ValidPredictions (syncPendingData deliver M).2 ∧
      (syncPendingData deliver M).2.isOnline = M.isOnline ∧
      List.Forall₂ (fun r r' => r' = r ∨
          (r ∈ (syncPendingData deliver M).1 ∧ deliver r = Delivery.acknowledged ∧
            r' = r.set "synced" (Field.bool true)))
        (predictionsOf M) (predictionsOf (syncPendingData deliver M).2) ∧
      (M.isOnline = true → (∀ r ∈ unsyncedOf M, deliver r = Delivery.acknowledged) →
        unsyncedOf (syncPendingData deliver M).2 = []) ∧
      (M.isOnline = true →
        (syncPendingData deliver M).1 = untilFailure deliver (unsyncedOf M)) := by
  cases hon : M.isOnline with
  | false =>
    rw [syncPendingData_offline deliver M hon]
    refine ⟨hv, hon, ?_, ?_, ?_⟩
    · exact List.forall₂_same.mpr (fun r _ => Or.inl rfl)
    · intro h
      exact absurd h (by decide)
    · intro h
      exact absurd h (by decide)
  | true =>
    obtain ⟨st, hM, hkeyed, hnd, hu, hrun, hkeys⟩ := syncPendingData_online deliver M hon hv
    obtain ⟨st', h1, h2, h3, h4, h5, h6, h7, h8⟩ :=
      syncLoop_spec deliver (unsyncedOf M) M st hM hkeys
    rw [hrun]
    have hsub : ∀ p ∈ unsyncedOf M, p ∈ st.records := by
      intro p hp
      rw [hu] at hp
      exact (List.mem_filter.mp hp).1
    have hkeyed' : ∀ r ∈ st'.records, ∃ k, r.id = some k ∧ k < st'.keyGenerator := by
      intro r hr
      have : r.id ∈ st.records.map (fun r => r.id) := by
        rw [← h5]
        exact List.mem_map.mpr ⟨r, hr, rfl⟩
      obtain ⟨r0, hr0, e⟩ := List.mem_map.mp this
      obtain ⟨k, hk, hlt⟩ := hkeyed r0 hr0
      exact ⟨k, by rw [← e]; exact hk, by rw [h4]; exact hlt⟩
    have hpair := forall₂_of_map_eq (fun r : Record => r.id) st.records st'.records h5.symm
    refine ⟨?_, h2.trans hon, ?_, ?_, fun _ => h3⟩
    · obtain ⟨db', e1, e2⟩ := h1
      exact ⟨db', st', e1, e2, hkeyed', by rw [h5]; exact hnd⟩
    · rw [predictionsOf_of_has M st hM, predictionsOf_of_has _ st' h1]
      refine hpair.imp ?_
      rintro r r' ⟨hr, hr', hid⟩
      replace hid : r.id = r'.id := hid
      rcases h7 r' hr' with hm | ⟨p, hp, hack, hp2⟩
      · exact Or.inl (eq_of_same_key st.records hnd r' r hm hr hid.symm)
      · have hpr : p = r := by
          refine eq_of_same_key st.records hnd p r (hsub p hp) hr ?_
          rw [hid, hp2]
          rfl
        subst hpr
        by_cases hatt : p ∈ (syncLoop deliver (unsyncedOf M) M).1
        · exact Or.inr ⟨hatt, hack, hp2⟩
        · left
          have hstay := h6 p hr (fun q hq _ hqid => by
            have := eq_of_same_key st.records hnd q p
              (hsub q (untilFailure_subset deliver _ q (h3 ▸ hq))) hr hqid
            exact hatt (this ▸ hq))
          exact eq_of_same_key st'.records (by rw [h5]; exact hnd) r' p hr' hstay hid.symm
    · intro _ hall
      have hfinal : unsyncedOf (syncLoop deliver (unsyncedOf M) M).2 =
          st'.records.filter (fun p => !truthy (p.get "synced")) := by
        have e := predictionsOf_of_has _ st' h1
        show List.filter _ (predictionsOf (syncLoop deliver (unsyncedOf M) M).2) = _
        rw [e]
      rw [hfinal, List.filter_eq_nil_iff]
      intro r hr
      rcases h8 hall r hr with ⟨hmem, hno⟩ | ⟨p, _, hp⟩
      · intro hns
        have hru : r ∈ unsyncedOf M := by
          rw [hu]
          exact List.mem_filter.mpr ⟨hmem, hns⟩
        exact hno r hru rfl
      · rw [hp, get_set]
        decide

theorem exists_of_forall₂_left {α β : Type} {R : α → β → Prop} {l : List α} {l' : List β}
    (h : List.Forall₂ R l l') : ∀ a ∈ l, ∃ b ∈ l', R a b := by
  induction h with
  | nil => intro a ha; exact absurd ha (List.not_mem_nil a)
  | cons hab _ ih =>
    intro a ha
    rcases List.mem_cons.mp ha with rfl | ha
    · exact ⟨_, List.mem_cons_self _ _, hab⟩
    · obtain ⟨b, hb, hr⟩ := ih a ha
      exact ⟨b, List.mem_cons_of_mem _ hb, hr⟩

theorem lookup_setStore_ne (db : Database) (name other : String) (st' : ObjectStore)
    (h : other ≠ name) :
    (db.setStore name st').stores.lookup other = db.stores.lookup other := by
  unfold Database.setStore
  simp only
  generalize db.stores = stores
  induction stores with
  | nil => rfl
  | cons p rest ih =>
    obtain ⟨n, s⟩ := p
    by_cases hn : n = name
    · subst hn
      rw [List.map_cons, if_pos (by simp), lookup_cons_of_ne _ _ _ _ h,
        lookup_cons_of_ne _ _ _ _ h]
      exact ih
    · rw [List.map_cons, if_neg (by simpa using hn)]
      by_cases ho : other = n
      · subst ho
        simp
      · rw [lookup_cons_of_ne _ _ _ _ ho, lookup_cons_of_ne _ _ _ _ ho]
        exact ih

/-- C21: `syncPendingData` never issues a delivery for a record whose `synced` flag
is already true: every record it attempts is a stored record with a falsy flag; when
`isOnline` is false it is a no-op that returns with no attempt and the manager, the
store included, as it was; and on a valid store a second flush after a flush in which
every unsynced record was acknowledged attempts no delivery, whatever the endpoint
would answer. -/
theorem syncPendingData_guards (deliver other : Record → Delivery) (M : Manager) :
    (∀ p ∈ (syncPendingData deliver M).1,
        p ∈ predictionsOf M ∧ truthy (p.get "synced") = false) ∧
      (M.isOnline = false → syncPendingData deliver M = ([], M)) ∧
      (M.isOnline = true → ValidPredictions M →
        (∀ r ∈ unsyncedOf M, deliver r = Delivery.acknowledged) →
        (syncPendingData other (syncPendingData deliver M).2).1 = []) := by
  refine ⟨?_, syncPendingData_offline deliver M, ?_⟩
  · intro p hp
    have hu : p ∈ unsyncedOf M := (syncPendingData_initial deliver M).subset hp
    have := List.mem_filter.mp hu
    exact ⟨this.1, by simpa using this.2⟩
  · intro hon hv hall
    have hnone := (syncPendingData_spec deliver M hv).2.2.2.1 hon hall
    have hpre := syncPendingData_initial other (syncPendingData deliver M).2
    rw [hnone] at hpre
    exact List.prefix_nil.mp hpre

/-- Witness of C21: offline, the flush of a store with a pending record does nothing;
and after a flush of two pending records that were both acknowledged, a second
flush attempts nothing. -/
theorem syncPendingData_guards_witness :
    syncPendingData firstFails onePending = ([], onePending) ∧
      (syncPendingData firstFails
        (syncPendingData (fun _ => Delivery.acknowledged) twoPending).2).1 = [] :=
  ⟨(syncPendingData_guards firstFails firstFails onePending).2.1 rfl,
    (syncPendingData_guards (fun _ => Delivery.acknowledged) firstFails twoPending).2.2 rfl
      ⟨_, _, rfl, rfl, by decide, by decide⟩ (fun _ _ => rfl)⟩

/-- C22: the queue never deletes a record and changes a record only by setting
`synced` to true: on every valid predictions store, online or not, and for every
outcome of the deliveries, after `syncPendingData` the store holds the same keys in
the same places, and each record has its properties other than `synced` as before
and a `synced` flag that did not go from true to false; the same holds after
`updatePrediction` of a record that is the stored record of its key with at most
`synced` set to true, which is how the queue calls it. -/
theorem queue_keeps_records (deliver : Record → Delivery) (M : Manager)
    (hv : ValidPredictions M) :
    (predictionsOf (syncPendingData deliver M).2).map (fun r => r.id) =
        (predictionsOf M).map (fun r => r.id) ∧
      List.Forall₂ Kept (predictionsOf M) (predictionsOf (syncPendingData deliver M).2) ∧
      (∀ r ∈ predictionsOf M, ∀ p, Kept r p →
        (updatePrediction M p).1 = Promised.resolved p ∧
        (predictionsOf (updatePrediction M p).2).map (fun r => r.id) =
          (predictionsOf M).map (fun r => r.id) ∧
        List.Forall₂ Kept (predictionsOf M) (predictionsOf (updatePrediction M p).2)) := by
  have hspec := (syncPendingData_spec deliver M hv).2.2.1
  have hkept : List.Forall₂ Kept (predictionsOf M)
      (predictionsOf (syncPendingData deliver M).2) := by
    refine hspec.imp ?_
    rintro r r' (rfl | ⟨_, _, rfl⟩)
    · exact kept_refl _
    · exact kept_set_synced r
  have ids_of : ∀ l l' : List Record, List.Forall₂ Kept l l' →
      l'.map (fun r => r.id) = l.map (fun r => r.id) := by
    intro l l' h
    induction h with
    | nil => rfl
    | cons hab _ ih => rw [List.map_cons, List.map_cons, ih, hab.1]
  refine ⟨ids_of _ _ hkept, hkept, ?_⟩
  intro r hr p hp
  obtain ⟨db, st, h1, h2, h3, h4⟩ := hv
  have hM : HasPredictions M st := ⟨db, h1, h2⟩
  rw [predictionsOf_of_has M st hM] at hr ⊢
  obtain ⟨k, hk, _⟩ := h3 r hr
  have hpk : p.id = some k := hp.1.trans hk
  obtain ⟨M', hu, hM', _⟩ := updatePrediction_of_has M st p hM
  rw [storePut_present st p k hpk (List.mem_map.mpr ⟨r, hr, hk⟩)] at hM'
  rw [hu, predictionsOf_of_has _ _ hM']
  have hall : List.Forall₂ Kept st.records
      (st.records.map (fun x => if x.id == some k then p else x)) := by
    rw [List.forall₂_map_right_iff]
    refine List.forall₂_same.mpr ?_
    intro x hx
    by_cases hxk : x.id = some k
    · have : x = r := eq_of_same_key st.records h4 x r hx hr (hxk.trans hk.symm)
      subst this
      simpa [hxk] using hp
    · simpa [hxk] using kept_refl x
  exact ⟨rfl, ids_of _ _ hall, hall⟩

/-- Witness of C22: a flush of two pending records, the first refused and the second
acknowledged, keeps the two keys. -/
theorem queue_keeps_records_witness :
    (predictionsOf (syncPendingData firstRefused twoPending).2).map (fun r => r.id) =
      (predictionsOf twoPending).map (fun r => r.id) :=
  (queue_keeps_records firstRefused twoPending ⟨_, _, rfl, rfl, by decide, by decide⟩).1

/-! ## The flush on the way back online, and the saved record -/

/-- C27: when the `online` event fires while the predictions store, a valid one,
holds exactly one unsynced record and the delivery endpoint acknowledges it, the
handler sets `isOnline` to true and runs `syncPendingData`, which attempts that one
record; afterwards the store holds the record of that key with `synced` true, and no
unsynced record. -/
theorem onlineHandler_flushes (deliver : Record → Delivery) (M : Manager) (doc : Document)
    (r : Record) (hv : ValidPredictions M) (hone : unsyncedOf M = [r])
    (hack : deliver r = Delivery.acknowledged) :
    (onlineHandler deliver M doc).2.1.isOnline = true ∧
      (onlineHandler deliver M doc).1 = [r] ∧
      r.set "synced" (Field.bool true) ∈ predictionsOf (onlineHandler deliver M doc).2.1 ∧
      (∀ r' ∈ predictionsOf (onlineHandler deliver M doc).2.1, r'.id = r.id →
        r'.get "synced" = some (Field.bool true)) ∧
      unsyncedOf (onlineHandler deliver M doc).2.1 = [] := by
  have hv1 : ValidPredictions { M with isOnline := true } := hv
  have hone1 : unsyncedOf { M with isOnline := true } = [r] := hone
  obtain ⟨hvalid, hon, hpairs, hnone, hatt⟩ :=
    syncPendingData_spec deliver { M with isOnline := true } hv1
  have hall : ∀ q ∈ unsyncedOf { M with isOnline := true },
      deliver q = Delivery.acknowledged := by
    intro q hq
    rw [hone1] at hq
    rw [List.mem_singleton.mp hq]
    exact hack
  have hnone := hnone rfl hall
  have hatt := hatt rfl
  rw [hone1] at hatt
  have hmem : r ∈ predictionsOf { M with isOnline := true } := by
    have : r ∈ unsyncedOf { M with isOnline := true } := by
      rw [hone1]
      exact List.mem_singleton_self r
    exact (List.mem_filter.mp this).1
  have huns : truthy (r.get "synced") = false := by
    have : r ∈ unsyncedOf { M with isOnline := true } := by
      rw [hone1]
      exact List.mem_singleton_self r
    simpa using (List.mem_filter.mp this).2
  have hin : r.set "synced" (Field.bool true) ∈
      predictionsOf (syncPendingData deliver { M with isOnline := true }).2 := by
    obtain ⟨r', hr', hcase⟩ := exists_of_forall₂_left hpairs r hmem
    rcases hcase with rfl | ⟨_, _, rfl⟩
    · exfalso
      have : r' ∈ unsyncedOf (syncPendingData deliver { M with isOnline := true }).2 :=
        List.mem_filter.mpr ⟨hr', by simpa using huns⟩
      rw [hnone] at this
      exact absurd this (List.not_mem_nil _)
    · exact hr'
  refine ⟨hon, ?_, hin, ?_, hnone⟩
  · show (syncPendingData deliver { M with isOnline := true }).1 = [r]
    rw [hatt, untilFailure, if_neg (by rw [hack]; decide), untilFailure]
  · intro r' hr' hid
    obtain ⟨db', st', e1, e2, _, hnd⟩ := hvalid
    have hp := predictionsOf_of_has _ st' ⟨db', e1, e2⟩
    have hr'' : r' ∈ predictionsOf (syncPendingData deliver { M with isOnline := true }).2 :=
      hr'
    rw [hp] at hr'' hin
    have : r' = r.set "synced" (Field.bool true) :=
      eq_of_same_key st'.records hnd _ _ hr'' hin hid
    rw [this, get_set]

/-- Witness of C27: the manager that holds a synced and a pending record goes back
online, and the pending record is delivered. -/
theorem onlineHandler_flushes_witness :
    (onlineHandler (fun _ => Delivery.acknowledged) onePending samplePage).1 =
      [storedPrediction 2 false] :=
  (onlineHandler_flushes (fun _ => Delivery.acknowledged) onePending samplePage
    (storedPrediction 2 false) ⟨_, _, rfl, rfl, by decide, by decide⟩ (by decide) rfl).2.1

/-- C28: on every opened database, whatever its predictions store holds, and for
every type, inputs and output, `savePrediction` resolves with the object it built,
which carries the arguments and a false `synced` flag; the predictions store
afterwards is the one before followed by exactly one record, that object under the
next key of the generator; and the other object stores are as before. -/
theorem savePrediction_appends (now : String) (M : Manager) (type inputs output : Field)
    (st : ObjectStore) (h : HasPredictions M st) :
    (savePrediction now M type inputs output).1 =
        Promised.resolved (pendingRecord now type inputs output) ∧
      predictionsOf (savePrediction now M type inputs output).2 =
        predictionsOf M ++
          [{ pendingRecord now type inputs output with id := some st.keyGenerator }] ∧
      (pendingRecord now type inputs output).get "type" = some type ∧
      (pendingRecord now type inputs output).get "inputs" = some inputs ∧
      (pendingRecord now type inputs output).get "output" = some output ∧
      (pendingRecord now type inputs output).get "synced" = some (Field.bool false) ∧
      (∀ name, name ≠ "predictions" →
        getFromIndexedDB (savePrediction now M type inputs output).2 name =
          getFromIndexedDB M name) := by
  have hs := (savePrediction_stores now M type inputs output st h).1
  refine ⟨?_, ?_, ?_, ?_, ?_, ?_, ?_⟩
  · obtain ⟨db, h1, h2⟩ := h
    simp [savePrediction, h1, h2, storeAdd, pendingRecord]
  · rw [predictionsOf_of_has _ _ hs, predictionsOf_of_has M st h]
    rfl
  · simp [pendingRecord, Record.get, List.lookup]
  · simp [pendingRecord, Record.get, List.lookup]
  · simp [pendingRecord, Record.get, List.lookup]
  · simp [pendingRecord, Record.get, List.lookup]
  · intro name hne
    obtain ⟨db, h1, h2⟩ := h
    simp only [savePrediction, h1, h2, storeAdd, getFromIndexedDB]
    rw [lookup_setStore_ne db "predictions" name _ hne]

/-- Witness of C28: a prediction saved next to two pending ones is the third record,
under key 3. -/
theorem savePrediction_appends_witness :
    predictionsOf (savePrediction "2024-05-02T08:00:00.000Z" twoPending (Field.str "feed")
        (Field.str "age 30") (Field.str "15.5")).2 =
      predictionsOf twoPending ++
        [{ pendingRecord "2024-05-02T08:00:00.000Z" (Field.str "feed") (Field.str "age 30")
            (Field.str "15.5") with id := some 3 }] :=
  (savePrediction_appends "2024-05-02T08:00:00.000Z" twoPending (Field.str "feed")
    (Field.str "age 30") (Field.str "15.5") _ ⟨_, rfl, rfl⟩).2.1

/-! ## The upgrade of the database -/

theorem onupgradeneeded_eq_foldl (db : Database) :
    onupgradeneeded db = REQUIRED_STORES.foldl createIfMissing db := by
  unfold onupgradeneeded
  simp only [REQUIRED_STORES, List.foldl, createIfMissing]

theorem contains_createObjectStore (db : Database) (name other : String) :
    (createObjectStore db name).contains other = (db.contains other || (name == other)) := by
  simp [Database.contains, createObjectStore, List.any_append]

/-- The guarded creations for a list of distinct names add, after the stores of the
database, one empty store for each name the database did not have. -/
theorem foldl_createIfMissing (names : List String) (hnd : names.Nodup) :
    ∀ db : Database, (names.foldl createIfMissing db).stores =
      db.stores ++ (names.filter (fun n => !db.contains n)).map
        (fun n => (n, ({ records := [], keyGenerator := 1 } : ObjectStore))) := by
  induction names with
  | nil => intro db; simp
  | cons n rest ih =>
    intro db
    have hn : n ∉ rest := (List.nodup_cons.mp hnd).1
    rw [List.foldl_cons, ih (List.nodup_cons.mp hnd).2]
    cases hc : db.contains n with
    | true =>
      have e : createIfMissing db n = db := by simp [createIfMissing, hc]
      rw [e, List.filter_cons_of_neg (by simp [hc])]
    | false =>
      have e : createIfMissing db n = createObjectStore db n := by simp [createIfMissing, hc]
      rw [e, List.filter_cons_of_pos (by simp [hc])]
      have hf : rest.filter (fun m => !(createObjectStore db n).contains m) =
          rest.filter (fun m => !db.contains m) := by
        apply List.filter_congr
        intro m hm
        have hne : n ≠ m := fun e => hn (e ▸ hm)
        rw [contains_createObjectStore]
        simp [hne]
      rw [hf]
      simp [createObjectStore]

theorem contains_iff (db : Database) (name : String) :
    db.contains name = true ↔ name ∈ db.stores.map (fun p => p.1) := by
  unfold Database.contains
  rw [List.any_eq_true, List.mem_map]
  constructor
  · rintro ⟨p, hp, he⟩
    exact ⟨p, hp, by simpa using he⟩
  · rintro ⟨p, hp, he⟩
    exact ⟨p, hp, by simpa using he⟩

/-- C24: the upgrade handler of `openDB` is forward-only.  For every database, the
object stores afterwards are the ones before, each in its place with its records and
key generator, followed by one empty store for each of the ten required names the
database did not have; so the names afterwards are exactly the names before united
with the ten required names, every store that existed is found unchanged under its
name, each missing required name occurs once, and a second run of the handler changes
nothing. -/
theorem onupgradeneeded_forward_only (db : Database) :
    (onupgradeneeded db).stores =
        db.stores ++ (REQUIRED_STORES.filter (fun n => !db.contains n)).map
          (fun n => (n, ({ records := [], keyGenerator := 1 } : ObjectStore))) ∧
      (∀ name, (onupgradeneeded db).contains name =
        (db.contains name || decide (name ∈ REQUIRED_STORES))) ∧
      (∀ name st, db.stores.lookup name = some st →
        (onupgradeneeded db).stores.lookup name = some st) ∧
      (∀ name ∈ REQUIRED_STORES, db.contains name = false →
        ((onupgradeneeded db).stores.map (fun p => p.1)).count name = 1) ∧
      onupgradeneeded (onupgradeneeded db) = onupgradeneeded db := by
  have hnd : REQUIRED_STORES.Nodup := by decide
  have hstores := foldl_createIfMissing REQUIRED_STORES hnd db
  rw [← onupgradeneeded_eq_foldl] at hstores
  have hnames : ∀ name, (onupgradeneeded db).contains name =
      (db.contains name || decide (name ∈ REQUIRED_STORES)) := by
    intro name
    rw [Bool.eq_iff_iff]
    rw [contains_iff, hstores]
    simp only [List.map_append, List.map_map, List.mem_append, Bool.or_eq_true,
      decide_eq_true_eq, contains_iff]
    constructor
    · rintro (h | h)
      · exact Or.inl h
      · obtain ⟨n, hn, rfl⟩ := List.mem_map.mp h
        exact Or.inr (List.mem_filter.mp hn).1
    · rintro (h | h)
      · exact Or.inl h
      · by_cases hc : db.contains name = true
        · exact Or.inl ((contains_iff db name).mp hc)
        · exact Or.inr (List.mem_map.mpr ⟨name, List.mem_filter.mpr ⟨h, by simpa using hc⟩, rfl⟩)
  refine ⟨hstores, hnames, ?_, ?_, ?_⟩
  · intro name st h
    rw [hstores, List.lookup_append, h]
    rfl
  · intro name hreq hmiss
    rw [hstores, List.map_append, List.count_append, List.map_map]
    have h0 : (db.stores.map (fun p => p.1)).count name = 0 := by
      rw [List.count_eq_zero]
      intro hm
      have := (contains_iff db name).mpr hm
      rw [hmiss] at this
      exact absurd this (by decide)
    have hid : (REQUIRED_STORES.filter (fun n => !db.contains n)).map
        ((fun p : String × ObjectStore => p.1) ∘
          (fun n => (n, ({ records := [], keyGenerator := 1 } : ObjectStore)))) =
        REQUIRED_STORES.filter (fun n => !db.contains n) :=
      List.map_id _
    rw [h0, hid, Nat.zero_add]
    exact List.count_eq_one_of_mem (hnd.filter _)
      (List.mem_filter.mpr ⟨hreq, by simp [hmiss]⟩)
  · have hagain := foldl_createIfMissing REQUIRED_STORES hnd (onupgradeneeded db)
    rw [← onupgradeneeded_eq_foldl] at hagain
    have hnil : REQUIRED_STORES.filter (fun n => !(onupgradeneeded db).contains n) = [] := by
      rw [List.filter_eq_nil_iff]
      intro n hn
      rw [hnames n]
      simp [hn]
    rw [hnil] at hagain
    have : (onupgradeneeded (onupgradeneeded db)).stores = (onupgradeneeded db).stores := by
      simpa using hagain
    cases h1 : onupgradeneeded (onupgradeneeded db)
    cases h2 : onupgradeneeded db
    rw [h1, h2] at this
    simpa using this

/-- Witness of C24: the upgrade of a database of an earlier version finds the
predictions store with its two records and its key generator as before. -/
theorem onupgradeneeded_forward_only_witness :
    (onupgradeneeded olderDatabase).stores.lookup "predictions" =
      some { records := [storedPrediction 1 true, storedPrediction 2 false],
             keyGenerator := 3 } :=
  (onupgradeneeded_forward_only olderDatabase).2.2.1 "predictions" _ rfl

/-! ## The store before it is opened, and the replacement of a collection -/

/-- C23: while the database is not opened (`db` is null), each of `saveToIndexedDB`,
`getFromIndexedDB`, `savePrediction` and `updatePrediction` rejects with
`'DB not initialized'`, for every argument, and the manager, which has no collection
to read or write, is left as it was. -/
theorem unopened_rejects (M : Manager) (hdb : M.db = none) :
    (∀ storeName data, saveToIndexedDB M storeName data =
        (Promised.rejected "DB not initialized", M)) ∧
      (∀ storeName, getFromIndexedDB M storeName = Promised.rejected "DB not initialized") ∧
      (∀ now type inputs output, savePrediction now M type inputs output =
        (Promised.rejected "DB not initialized", M)) ∧
      (∀ prediction, updatePrediction M prediction =
        (Promised.rejected "DB not initialized", M)) := by
  refine ⟨?_, ?_, ?_, ?_⟩
  · intro storeName data
    simp [saveToIndexedDB, hdb]
  · intro storeName
    simp [getFromIndexedDB, hdb]
  · intro now type inputs output
    simp [savePrediction, hdb]
  · intro prediction
    simp [updatePrediction, hdb]

/-- Witness of C23: a save of two feed rows before the database is opened. -/
theorem unopened_rejects_witness :
    saveToIndexedDB unopened "feed" (Payload.many [feedRow none 10, feedRow none 20]) =
      (Promised.rejected "DB not initialized", unopened) :=
  (unopened_rejects unopened rfl).1 _ _

theorem insertByKey_perm (value : Record) (l : List Record) :
    (insertByKey value l).Perm (value :: l) := by
  induction l with
  | nil => exact List.Perm.refl _
  | cons r rest ih =>
    unfold insertByKey
    split
    · exact List.Perm.refl _
    · exact ((List.Perm.cons r ih).trans (List.Perm.swap value r rest))

/-- A successful `add`: the store gains the stored form of the object. -/
theorem storeAdd_some (st st' : ObjectStore) (item : Record) (h : storeAdd st item = some st') :
    ∃ r, StoredAs item r ∧ st'.records.Perm (st.records ++ [r]) ∧
      (∀ k, item.id = some k → some k ∉ st.records.map (fun x => x.id)) := by
  unfold storeAdd at h
  cases hid : item.id with
  | none =>
    rw [hid] at h
    simp only [Option.some.injEq] at h
    subst h
    exact ⟨{ item with id := some st.keyGenerator }, ⟨rfl, rfl, fun k hk => by simp [hid] at hk⟩,
      List.Perm.refl _, fun k hk => by simp at hk⟩
  | some k =>
    rw [hid] at h
    simp only at h
    split at h
    · simp at h
    · rename_i hany
      simp only [Option.some.injEq] at h
      subst h
      refine ⟨item, ⟨rfl, by simp [hid], fun _ hk' => hk'⟩, ?_, ?_⟩
      · exact (insertByKey_perm item st.records).trans
          (List.perm_append_singleton item st.records).symm
      · intro k' hk' hm
        have hkk : k' = k := by simpa using hk'.symm
        subst hkk
        apply hany
        obtain ⟨x, hx, hxk⟩ := List.mem_map.mp hm
        exact List.any_eq_true.mpr ⟨x, hx, by simp [hxk]⟩

/-- A completed batch of `add`s: the store gains the stored forms of the objects, no
two of the objects came with the same `id`, and none with an `id` the store had. -/
theorem addEach_some (items : List Record) :
    ∀ (st st' : ObjectStore), addEach st items = some st' →
      (∃ stored, List.Forall₂ StoredAs items stored ∧
        st'.records.Perm (st.records ++ stored)) ∧
      (items.filterMap (fun x => x.id)).Nodup ∧
      (∀ x ∈ items, ∀ k, x.id = some k → some k ∉ st.records.map (fun y => y.id)) := by
  induction items with
  | nil =>
    intro st st' h
    simp only [addEach, Option.some.injEq] at h
    subst h
    exact ⟨⟨[], List.Forall₂.nil, by simp⟩, by simp, by simp⟩
  | cons item rest ih =>
    intro st st' h
    unfold addEach at h
    cases h1 : storeAdd st item with
    | none => rw [h1] at h; simp at h
    | some st1 =>
      rw [h1] at h
      simp only at h
      obtain ⟨r, hr, hperm1, hfresh⟩ := storeAdd_some st st1 item h1
      obtain ⟨⟨stored, hstored, hperm⟩, hnd, hkeys⟩ := ih st1 st' h
      have hgrow : ∀ a, a ∈ st.records.map (fun y => y.id) →
          a ∈ st1.records.map (fun y => y.id) := by
        intro a ha
        obtain ⟨y, hy, hya⟩ := List.mem_map.mp ha
        exact List.mem_map.mpr ⟨y, hperm1.symm.subset (List.mem_append_left _ hy), hya⟩
      refine ⟨⟨r :: stored, List.Forall₂.cons hr hstored, ?_⟩, ?_, ?_⟩
      · refine hperm.trans ?_
        have := List.Perm.append_right stored hperm1
        simpa using this
      · cases hid : item.id with
        | none => simpa [List.filterMap_cons, hid] using hnd
        | some k =>
          rw [List.filterMap_cons, hid]
          refine List.nodup_cons.mpr ⟨?_, hnd⟩
          intro hk
          obtain ⟨x, hx, hxk⟩ := List.mem_filterMap.mp hk
          refine hkeys x hx k hxk ?_
          exact List.mem_map.mpr ⟨r, hperm1.symm.subset (by simp), hr.2.2 k hid⟩
      · intro x hx k hxk
        rcases List.mem_cons.mp hx with rfl | hx
        · exact hfresh k hxk
        · exact fun hm => hkeys x hx k hxk (hgrow _ hm)

/-- A save into one collection leaves what every other collection reads. -/
theorem saveToIndexedDB_other (M : Manager) (storeName other : String) (data : Payload)
    (hne : other ≠ storeName) :
    getFromIndexedDB (saveToIndexedDB M storeName data).2 other = getFromIndexedDB M other := by
  unfold saveToIndexedDB
  cases hdb : M.db with
  | none => simp only
  | some db =>
    simp only
    cases hst : db.stores.lookup storeName with
    | none => simp only
    | some st =>
      simp only
      cases hadd : addEach { st with records := [] } data.items with
      | none => simp only
      | some st' =>
        simp only [getFromIndexedDB, hdb]
        rw [lookup_setStore_ne db storeName other st' hne]

/-- C25: `saveToIndexedDB` is all-or-nothing.  If it resolves, the collection holds
exactly the stored forms of the given objects, one for each, with the properties
given and under the `id` the object came with or else a generated key, and nothing
of its earlier content; no two of the objects came with the same `id`; and every
other collection reads as before.  If it rejects, as it does when an `add` of the
batch fails, the manager and with it the collection are as before the call. -/
theorem saveToIndexedDB_all_or_nothing (M : Manager) (storeName : String) (data : Payload) :
    ((saveToIndexedDB M storeName data).1 = Promised.resolved () →
        (∃ stored records, List.Forall₂ StoredAs data.items stored ∧
          getFromIndexedDB (saveToIndexedDB M storeName data).2 storeName =
            Promised.resolved records ∧ records.Perm stored) ∧
        (data.items.filterMap (fun x => x.id)).Nodup ∧
        (∀ other, other ≠ storeName →
          getFromIndexedDB (saveToIndexedDB M storeName data).2 other =
            getFromIndexedDB M other)) ∧
      (∀ reason, (saveToIndexedDB M storeName data).1 = Promised.rejected reason →
        (saveToIndexedDB M storeName data).2 = M) ∧
      (∀ db st, M.db = some db → db.stores.lookup storeName = some st →
        addEach { st with records := [] } data.items = none →
        saveToIndexedDB M storeName data = (Promised.rejected "ConstraintError", M)) := by
  refine ⟨?_, ?_, ?_⟩
  · intro hres
    refine ⟨?_, ?_, fun other hne => saveToIndexedDB_other M storeName other data hne⟩
    · unfold saveToIndexedDB at hres ⊢
      cases hdb : M.db with
      | none => rw [hdb] at hres; simp at hres
      | some db =>
        rw [hdb] at hres
        simp only at hres ⊢
        cases hst : db.stores.lookup storeName with
        | none => rw [hst] at hres; simp at hres
        | some st =>
          rw [hst] at hres
          simp only at hres ⊢
          cases hadd : addEach { st with records := [] } data.items with
          | none => rw [hadd] at hres; simp at hres
          | some st' =>
            obtain ⟨⟨stored, hstored, hperm⟩, _, _⟩ := addEach_some data.items _ st' hadd
            refine ⟨stored, st'.records, hstored, ?_, by simpa using hperm⟩
            simp only [getFromIndexedDB]
            rw [lookup_setStore db storeName st st' hst]
    · unfold saveToIndexedDB at hres
      cases hdb : M.db with
      | none => rw [hdb] at hres; simp at hres
      | some db =>
        rw [hdb] at hres
        simp only at hres
        cases hst : db.stores.lookup storeName with
        | none => rw [hst] at hres; simp at hres
        | some st =>
          rw [hst] at hres
          simp only at hres
          cases hadd : addEach { st with records := [] } data.items with
          | none => rw [hadd] at hres; simp at hres
          | some st' => exact (addEach_some data.items _ st' hadd).2.1
  · intro reason hrej
    unfold saveToIndexedDB at hrej ⊢
    repeat' split at hrej
    all_goals simp_all
  · intro db st hdb hst hadd
    simp [saveToIndexedDB, hdb, hst, hadd]

/-- Witness of C25: a batch in which two rows carry the same `id` is rejected, and
the manager with its feed collection is as before; a batch of three rows that is
stored leaves the predictions collection as it was. -/
theorem saveToIndexedDB_all_or_nothing_witness :
    (saveToIndexedDB withFeed "feed"
        (Payload.many [feedRow (some 5) 30, feedRow (some 5) 40])).2 = withFeed ∧
      getFromIndexedDB (saveToIndexedDB withFeed "feed"
        (Payload.many [feedRow (some 5) 30, feedRow none 40, feedRow (some 2) 50])).2
          "predictions" =
        getFromIndexedDB withFeed "predictions" :=
  ⟨(saveToIndexedDB_all_or_nothing withFeed "feed"
      (Payload.many [feedRow (some 5) 30, feedRow (some 5) 40])).2.1 "ConstraintError"
      (by decide),
    ((saveToIndexedDB_all_or_nothing withFeed "feed"
      (Payload.many [feedRow (some 5) 30, feedRow none 40, feedRow (some 2) 50])).1
      (by decide)).2.2 "predictions" (by decide)⟩

/-! ## The loading of the datasets -/

/-- C26 fails as stated: on a later visit with a row in the disease collection and
every dataset request answered by a response that is not `ok`, `loadDatasets`
completes with no in-memory disease dataset, while the collection holds the row. -/
theorem loadDatasets_refused_no_fallback :
    getFromIndexedDB laterVisit.toManager "disease" = Promised.resolved [diseaseRow] ∧
      allRefused "disease" = Reply.refused ∧
      (loadDatasets allRefused laterVisit).1 = Promised.resolved () ∧
      (loadDatasets allRefused laterVisit).2.datasets.lookup "disease" = none ∧
      getFromIndexedDB (loadDatasets allRefused laterVisit).2.toManager "disease" =
        Promised.resolved [diseaseRow] := by
  decide

theorem lookup_assign_self (datasets : List (String × Payload)) (name : String) (d : Payload) :
    (assign datasets name d).lookup name = some d := by
  unfold assign
  cases h : List.lookup name datasets with
  | none =>
    simp only [Option.isSome_none, Bool.false_eq_true, if_false]
    rw [List.lookup_append, h]
    simp
  | some w =>
    simp only [Option.isSome_some, if_true]
    induction datasets with
    | nil => simp at h
    | cons q rest ih =>
      obtain ⟨n, x⟩ := q
      by_cases hn : n = name
      · subst hn; simp
      · have hne : name ≠ n := fun e => hn e.symm
        rw [lookup_cons_of_ne _ _ _ _ hne] at h
        rw [List.map_cons, if_neg (by simpa using hn), lookup_cons_of_ne _ _ _ _ hne]
        exact ih h

theorem lookup_assign_other (datasets : List (String × Payload)) (name other : String)
    (d : Payload) (h : other ≠ name) :
    (assign datasets name d).lookup other = datasets.lookup other := by
  unfold assign
  split
  · rename_i hsome
    clear hsome
    induction datasets with
    | nil => rfl
    | cons q rest ih =>
      obtain ⟨n, x⟩ := q
      by_cases hn : n = name
      · subst hn
        rw [List.map_cons, if_pos (by simp), lookup_cons_of_ne _ _ _ _ h,
          lookup_cons_of_ne _ _ _ _ h]
        exact ih
      · rw [List.map_cons, if_neg (by simpa using hn)]
        by_cases ho : other = n
        · subst ho
          simp
        · rw [lookup_cons_of_ne _ _ _ _ ho, lookup_cons_of_ne _ _ _ _ ho]
          exact ih
  · rw [List.lookup_append, lookup_cons_of_ne _ _ _ _ h]
    simp

/-- A save keeps the database opened with its collections. -/
theorem saveToIndexedDB_opened (M : Manager) (storeName : String) (data : Payload)
    (h : Opened M) : Opened (saveToIndexedDB M storeName data).2 := by
  obtain ⟨db, hdb, hall⟩ := h
  unfold saveToIndexedDB
  rw [hdb]
  simp only
  cases hst : db.stores.lookup storeName with
  | none => exact ⟨db, hdb, hall⟩
  | some st =>
    simp only
    cases hadd : addEach { st with records := [] } data.items with
    | none => exact ⟨db, hdb, hall⟩
    | some st' =>
      refine ⟨_, rfl, ?_⟩
      intro name hname
      by_cases hn : name = storeName
      · subst hn
        rw [lookup_setStore db name st st' hst]
        rfl
      · rw [lookup_setStore_ne db storeName name st' hn]
        exact hall name hname

theorem getFromIndexedDB_opened (M : Manager) (name : String) (h : Opened M)
    (hname : name ∈ REQUIRED_STORES) :
    ∃ cached, getFromIndexedDB M name = Promised.resolved cached := by
  obtain ⟨db, hdb, hall⟩ := h
  have := hall name hname
  cases hst : db.stores.lookup name with
  | none => rw [hst] at this; simp at this
  | some st => exact ⟨st.records, by simp [getFromIndexedDB, hdb, hst]⟩

theorem leftAlone_refl (name : String) (O : OfflineManager) : LeftAlone name O O :=
  ⟨rfl, rfl⟩

theorem leftAlone_trans (name : String) (O O1 O2 : OfflineManager)
    (h1 : LeftAlone name O O1) (h2 : LeftAlone name O1 O2) : LeftAlone name O O2 :=
  ⟨h2.1.trans h1.1, h2.2.trans h1.2⟩

theorem fellBack_then (name : String) (O O1 O2 : OfflineManager)
    (h1 : FellBack name O O1) (h2 : LeftAlone name O1 O2) : FellBack name O O2 := by
  obtain ⟨cached, a, b, c⟩ := h1
  exact ⟨cached, a, h2.1.trans b, h2.2.trans c⟩

theorem fellBack_after (name : String) (O O1 O2 : OfflineManager)
    (h1 : LeftAlone name O O1) (h2 : FellBack name O1 O2) : FellBack name O O2 := by
  obtain ⟨cached, a, b, c⟩ := h2
  exact ⟨cached, h1.2 ▸ a, b, c⟩

/-- The `catch` on an opened database: it completes and the dataset fell back. -/
theorem loadFromStore_opened (O : OfflineManager) (dataset : String)
    (h : Opened O.toManager) (hd : dataset ∈ REQUIRED_STORES) :
    (loadFromStore O dataset).1 = Promised.resolved () ∧
      (loadFromStore O dataset).2.toManager = O.toManager ∧
      FellBack dataset O (loadFromStore O dataset).2 ∧
      (∀ other, other ≠ dataset → LeftAlone other O (loadFromStore O dataset).2) := by
  obtain ⟨cached, hc⟩ := getFromIndexedDB_opened O.toManager dataset h hd
  unfold loadFromStore
  rw [hc]
  refine ⟨rfl, rfl, ⟨cached, hc, lookup_assign_self _ _ _, hc⟩, ?_⟩
  intro other hne
  exact ⟨lookup_assign_other _ _ _ _ hne, rfl⟩

/-- One round of the loop on an opened database: it completes, the database stays
opened, and the other datasets are left alone. -/
theorem loadOne_opened (reply : String → Reply) (O : OfflineManager) (dataset : String)
    (h : Opened O.toManager) (hd : dataset ∈ REQUIRED_STORES) :
    (loadOne reply O dataset).1 = Promised.resolved () ∧
      Opened (loadOne reply O dataset).2.toManager ∧
      (∀ other, other ≠ dataset → LeftAlone other O (loadOne reply O dataset).2) ∧
      (reply dataset = Reply.failed ∨ reply dataset = Reply.garbled →
        FellBack dataset O (loadOne reply O dataset).2) ∧
      (reply dataset = Reply.refused → LeftAlone dataset O (loadOne reply O dataset).2) := by
  obtain ⟨f1, f2, f3, f4⟩ := loadFromStore_opened O dataset h hd
  unfold loadOne
  cases hr : reply dataset with
  | failed =>
    simp only
    exact ⟨f1, f2 ▸ h, f4, fun _ => f3, fun e => by simp at e⟩
  | garbled =>
    simp only
    exact ⟨f1, f2 ▸ h, f4, fun _ => f3, fun e => by simp at e⟩
  | refused =>
    simp only
    exact ⟨trivial, h, fun other _ => leftAlone_refl other O, fun e => by simp at e,
      fun _ => leftAlone_refl dataset O⟩
  | data d =>
    simp only
    have hopen := saveToIndexedDB_opened O.toManager dataset d h
    have hother := fun other (hne : other ≠ dataset) =>
      saveToIndexedDB_other O.toManager dataset other d hne
    generalize saveToIndexedDB O.toManager dataset d = saved at hopen hother
    obtain ⟨res, M⟩ := saved
    cases res with
    | rejected reason =>
      simp only
      obtain ⟨g1, g2, _, g4⟩ :=
        loadFromStore_opened { O with toManager := M } dataset hopen hd
      refine ⟨g1, g2 ▸ hopen, ?_, fun e => by simp at e, fun e => by simp at e⟩
      intro other hne
      exact leftAlone_trans other O { O with toManager := M } _ ⟨rfl, hother other hne⟩
        (g4 other hne)
    | resolved u =>
      simp only
      refine ⟨trivial, hopen, ?_, fun e => by simp at e, fun e => by simp at e⟩
      intro other hne
      exact ⟨lookup_assign_other _ _ _ _ hne, hother other hne⟩

/-- The loop on an opened database: it completes, the database stays opened, and the
datasets it does not go through are left alone. -/
theorem loadLoop_opened (reply : String → Reply) (l : List String) :
    ∀ O : OfflineManager, Opened O.toManager → (∀ d ∈ l, d ∈ REQUIRED_STORES) →
      (loadLoop reply l O).1 = Promised.resolved () ∧
        Opened (loadLoop reply l O).2.toManager ∧
        (∀ other, other ∉ l → LeftAlone other O (loadLoop reply l O).2) := by
  induction l with
  | nil =>
    intro O h _
    exact ⟨rfl, h, fun other _ => leftAlone_refl other O⟩
  | cons d rest ih =>
    intro O h hl
    obtain ⟨a1, a2, a3, _, _⟩ := loadOne_opened reply O d h (hl d (List.mem_cons_self _ _))
    unfold loadLoop
    generalize loadOne reply O d = out at a1 a2 a3
    obtain ⟨res, O1⟩ := out
    simp only at a1 a2 a3
    subst a1
    simp only
    obtain ⟨b1, b2, b3⟩ := ih O1 a2 (fun x hx => hl x (List.mem_cons_of_mem _ hx))
    refine ⟨b1, b2, ?_⟩
    intro other hno
    have hne : other ≠ d := fun e => hno (e ▸ List.mem_cons_self _ _)
    exact leftAlone_trans other O O1 _ (a3 other hne)
      (b3 other (fun hm => hno (List.mem_cons_of_mem _ hm)))

/-- The loop on an opened database, for a dataset it goes through once. -/
theorem loadLoop_at (reply : String → Reply) (name : String) (l : List String) :
    ∀ O : OfflineManager, Opened O.toManager → (∀ d ∈ l, d ∈ REQUIRED_STORES) →
      l.Nodup → name ∈ l →
      (reply name = Reply.failed ∨ reply name = Reply.garbled →
        FellBack name O (loadLoop reply l O).2) ∧
      (reply name = Reply.refused → LeftAlone name O (loadLoop reply l O).2) := by
  induction l with
  | nil => intro O _ _ _ hm; exact absurd hm (List.not_mem_nil _)
  | cons d rest ih =>
    intro O h hl hnd hm
    obtain ⟨a1, a2, a3, a4, a5⟩ := loadOne_opened reply O d h (hl d (List.mem_cons_self _ _))
    have hrest : ∀ x ∈ rest, x ∈ REQUIRED_STORES := fun x hx => hl x (List.mem_cons_of_mem _ hx)
    unfold loadLoop
    generalize loadOne reply O d = out at a1 a2 a3 a4 a5
    obtain ⟨res, O1⟩ := out
    simp only at a1 a2 a3 a4 a5
    subst a1
    simp only
    by_cases hd : name = d
    · subst hd
      have hfr := (loadLoop_opened reply rest O1 a2 hrest).2.2 name (List.nodup_cons.mp hnd).1
      exact ⟨fun hf => fellBack_then name O O1 _ (a4 hf) hfr,
        fun hf => leftAlone_trans name O O1 _ (a5 hf) hfr⟩
    · have hin : name ∈ rest := by
        rcases List.mem_cons.mp hm with e | e
        · exact absurd e hd
        · exact e
      obtain ⟨c1, c2⟩ := ih O1 a2 hrest (List.nodup_cons.mp hnd).2 hin
      exact ⟨fun hf => fellBack_after name O O1 _ (a3 name hd) (c1 hf),
        fun hf => leftAlone_trans name O O1 _ (a3 name hd) (c2 hf)⟩

/-- C26, amended: on an opened database, `loadDatasets` completes, and for every
reference dataset name: when the request fails by a network error, or the body of
the response cannot be read, it falls back to the store, so that afterwards the
in-memory dataset is the content the collection had, and the collection has it
still; when the request is answered by a response that is not 2xx, the in-memory
entry and the content of the collection are both left as they were. -/
theorem loadDatasets_fallback (reply : String → Reply) (O : OfflineManager) (name : String)
    (hopen : Opened O.toManager) (hname : name ∈ DATASETS) :
    (loadDatasets reply O).1 = Promised.resolved () ∧
      (reply name = Reply.failed ∨ reply name = Reply.garbled →
        FellBack name O (loadDatasets reply O).2) ∧
      (reply name = Reply.refused → LeftAlone name O (loadDatasets reply O).2) := by
  have hreq : ∀ d ∈ DATASETS, d ∈ REQUIRED_STORES := by decide
  have hnd : DATASETS.Nodup := by decide
  have hmarket : name ≠ "market" := by
    intro e
    subst e
    exact absurd hname (by decide)
  obtain ⟨a1, a2, _⟩ := loadLoop_opened reply DATASETS O hopen hreq
  obtain ⟨b1, b2⟩ := loadLoop_at reply name DATASETS O hopen hreq hnd hname
  unfold loadDatasets
  generalize loadLoop reply DATASETS O = out at a1 a2 b1 b2
  obtain ⟨res, O1⟩ := out
  simp only at a1 a2 b1 b2
  subst a1
  simp only
  have hother := saveToIndexedDB_other O1.toManager "market" name generateMarketData hmarket
  generalize saveToIndexedDB O1.toManager "market" generateMarketData = saved at hother
  obtain ⟨res, M⟩ := saved
  cases res with
  | rejected reason =>
    simp only
    have hl : LeftAlone name O1 { O1 with toManager := M } := ⟨rfl, hother⟩
    exact ⟨trivial, fun hf => fellBack_then name O O1 _ (b1 hf) hl,
      fun hf => leftAlone_trans name O O1 _ (b2 hf) hl⟩
  | resolved u =>
    simp only
    have hl : LeftAlone name O1
        { toManager := M, datasets := assign O1.datasets "market" generateMarketData } :=
      ⟨lookup_assign_other _ _ _ _ hmarket, hother⟩
    exact ⟨trivial, fun hf => fellBack_then name O O1 _ (b1 hf) hl,
      fun hf => leftAlone_trans name O O1 _ (b2 hf) hl⟩

/-- Witness of C26, amended: on the later visit with the network failing for every
request, the in-memory disease dataset is the row of the collection. -/
theorem loadDatasets_fallback_witness :
    (loadDatasets allFailed laterVisit).2.datasets.lookup "disease" =
      some (Payload.many [diseaseRow]) := by
  obtain ⟨cached, h1, h2, _⟩ :=
    (loadDatasets_fallback allFailed laterVisit "disease" ⟨_, rfl, by decide⟩
      (by decide)).2.1 (Or.inl rfl)
  have : cached = [diseaseRow] := by
    have e : getFromIndexedDB laterVisit.toManager "disease" =
        Promised.resolved [diseaseRow] := by decide
    rw [e] at h1
    injection h1 with h1
    exact h1.symm
  rw [h2, this]

end AQUA
